import Mathlib

/-!
# Bridge tracking and BPDU framing of `bridge_track.c`

A shallow embedding of the bridge/port registry, of the link-event translator
`bridge_notify`, of the BPDU ingress/egress path (`bridge_bpdu_rcv`,
`MSTP_OUT_tx_bpdu`), of the port state commit `MSTP_OUT_set_state` and of the
control handlers `CTL_*`, followed by theorems about them.

Conventions of the embedding

* The intrusive list `bridges` is a `List bridge_t`; the port list anchored in
  a bridge (`br->ports`) is the field `ports`.  The identity of a list node (a
  C pointer) is its position in the list, so `other_br != br` is an inequality
  of positions.
* The back-reference `ifc->bridge` is represented by containment: a port lives
  in the `ports` field of the bridge it refers to (`create_if` stores
  `ifc->bridge = br` before the engine links the port into that bridge).
* Bytes are natural numbers; machine conversions are written with explicit
  `%`.
* Every call into the protocol engine (`MSTP_IN_*`) is appended to a trace of
  `EngineCall`s; every outcome of an OS helper or of an engine create call is
  read from an `Env` record, one field per call site.
* The members of `bridge_t` and `port_t` that the protocol engine owns (trees,
  per-tree-ports, the MST configuration and the VID/FID tables) are not part
  of the registry of the tracker; the control handlers read them from an
  `engine_data_t` view, and the outcomes of their engine calls from a `CtlEnv`.
* Values stored in network byte order (`__be16`) are kept as their two bytes
  in memory order, so that no host byte order is assumed.
* A call that never returns is the result `none` of the embedding: when the
  sysfs file cannot be opened, `stp_enabled` runs `fclose` on the null stream
  and the process ends there, inside `set_br_up` and `bridge_notify`.
-/

namespace BridgeTrack

/-! ## Data model -/

/-- An `__u8 macaddr[ETH_ALEN]` array: exactly six bytes. -/
structure MacAddr where
  b0 : Nat
  b1 : Nat
  b2 : Nat
  b3 : Nat
  b4 : Nat
  b5 : Nat
deriving DecidableEq, Repr

/-- The six bytes of a MAC address in memory order. -/
def MacAddr.toList (m : MacAddr) : List Nat := [m.b0, m.b1, m.b2, m.b3, m.b4, m.b5]

/-- The all-zero address left by `calloc`. -/
def MacAddr.zero : MacAddr := ⟨0, 0, 0, 0, 0, 0⟩

/-- The fields of `sysdep_if_data_t` the tracker reads and writes (the
interface name only keys the OS helpers, whose outcomes come from `Env`). -/
structure sysdep_if_data_t where
  if_index : Int
  macaddr : MacAddr
  up : Bool
  speed : Int
  duplex : Int
deriving DecidableEq, Repr

/-- A tracked port (`port_t`): its system dependent data and the bridge port
number handed to the engine when the port was created. -/
structure port_t where
  sysdeps : sysdep_if_data_t
  port_number : Int
deriving DecidableEq, Repr

/-- The fields of `sysdep_br_data_t` the tracker reads and writes. -/
structure sysdep_br_data_t where
  if_index : Int
  macaddr : MacAddr
  up : Bool
  stp_up : Bool
deriving DecidableEq, Repr

/-- A tracked bridge (`bridge_t`) with its ordered port list. -/
structure bridge_t where
  sysdeps : sysdep_br_data_t
  ports : List port_t
deriving DecidableEq, Repr

/-- Calls into the protocol engine, in the order they are made. -/
inductive EngineCall where
  | bridge_create (br_index : Int) (macaddr : MacAddr)
  | port_create_and_add_tail (br_index : Int) (ifc : port_t) (portno : Int)
  | delete_port (ifc : port_t)
  | delete_bridge (br : bridge_t)
  | set_bridge_address (br_index : Int) (macaddr : MacAddr)
  | set_bridge_enable (br_index : Int) (enable : Bool)
  | set_port_enable (if_index : Int) (up : Bool) (speed : Int) (duplex : Int)
  | rx_bpdu (ifc : port_t) (bpdu : List Nat) (size : Int)
deriving DecidableEq, Repr

/-! ## BPDU framing constants -/

/-- Length of an Ethernet address. -/
def ETH_ALEN : Nat := 6
/-- Length of the Ethernet header. -/
def ETH_HLEN : Nat := 14
/-- Largest 802.3 payload. -/
def ETH_DATA_LEN : Nat := 1500
/-- LLC header and one control byte. -/
def LLC_PDU_LEN_U : Nat := 3
/-- U-format PDU: the first two bits of the control byte. -/
def LLC_PDU_TYPE_U : Nat := 3
/-- The bridge spanning tree SAP (7.12.3 of 802.1D). -/
def LLC_SAP_BSPAN : Nat := 0x42
/-- The packed `struct llc_header` occupies 17 bytes. -/
def sizeof_llc_header : Nat := 17

/-- The bridge group address `01:80:c2:00:00:00`. -/
def bridge_group_address : List Nat := [0x01, 0x80, 0xc2, 0x00, 0x00, 0x00]

/-- Byte `i` of a buffer (reads outside the buffer are outside the model and
yield 0). -/
def byteAt (data : List Nat) (i : Nat) : Nat := data.getD i 0

/-- The big-endian 16-bit value stored in two consecutive bytes
(`__be16_to_cpu`). -/
def be16_to_cpu (hi lo : Nat) : Nat := hi * 256 + lo

/-- The two bytes, in memory order, of a value stored big-endian after
truncation to 16 bits (`__cpu_to_be16`). -/
def cpu_to_be16 (v : Int) : List Nat :=
  [((v % 65536) / 256).toNat, ((v % 65536) % 256).toNat]

/-- The 802.3 length field of a frame: `__be16_to_cpu(h->len8023)`. -/
def len8023 (data : List Nat) : Nat := be16_to_cpu (byteAt data 12) (byteAt data 13)

/-! ## Registry lookups -/

/-- The port of `br` found by `find_if`: the first with this interface index. -/
def find_if (br : bridge_t) (if_index : Int) : Option port_t :=
  br.ports.find? (fun ifc => ifc.sysdeps.if_index == if_index)

/-- The loop opening `bridge_bpdu_rcv`: the first bridge, in registry order,
on which `find_if` succeeds, with the port found there. -/
def find_port : List bridge_t → Int → Option (bridge_t × port_t)
  | [], _ => none
  | br :: rest, if_index =>
    match find_if br if_index with
    | some ifc => some (br, ifc)
    | none => find_port rest if_index

/-! ## BPDU ingress and egress -/

/-- Embedding of `bridge_bpdu_rcv`: the engine calls made for a received
frame.  `len` is the signed `int` argument; `len > sizeof(struct llc_header)`
compares after conversion to `size_t` (`len % 2 ^ 64`), and
`l <= len - ETH_HLEN` after conversion to `unsigned int`
(`(len - ETH_HLEN) % 2 ^ 32`).  The check `br == ifc->bridge` holds by the
representation of the back-reference: `ifc` was found in the port list of
`br`.  The pointer `data + sizeof(*h)` handed to the engine is the buffer from
offset 17 on. -/
def bridge_bpdu_rcv (bridges : List bridge_t) (if_index : Int) (data : List Nat)
    (len : Int) : List EngineCall :=
  match find_port bridges if_index with
  | none => []
  | some (br, ifc) =>
    if !ifc.sysdeps.up then []
    else if !br.sysdeps.stp_up then []
    else if ¬ (len % 2 ^ 64 > (sizeof_llc_header : Int)) then []
    else if data.take ETH_ALEN ≠ bridge_group_address then []
    else
      let l : Nat := len8023 data
      if ¬ (l ≤ ETH_DATA_LEN ∧ (l : Int) ≤ (len - ETH_HLEN) % 2 ^ 32 ∧ l ≥ LLC_PDU_LEN_U) then []
      else if ¬ (byteAt data 14 = LLC_SAP_BSPAN ∧ byteAt data 15 = LLC_SAP_BSPAN
                  ∧ byteAt data 16 &&& 0x3 = LLC_PDU_TYPE_U) then []
      else [EngineCall.rx_bpdu ifc (data.drop sizeof_llc_header) ((l : Int) - LLC_PDU_LEN_U)]

/-- A call of `packet_send(if_index, iov, 2, len)`: the gathered bytes of the
two segments and the total length passed. -/
structure PacketSend where
  if_index : Int
  frame : List Nat
  len : Int
deriving DecidableEq, Repr

/-- The 17 header bytes `MSTP_OUT_tx_bpdu` writes into `struct llc_header`. -/
def llc_header_bytes (src : MacAddr) (size : Int) : List Nat :=
  bridge_group_address ++ src.toList ++ cpu_to_be16 (size + LLC_PDU_LEN_U)
    ++ [LLC_SAP_BSPAN, LLC_SAP_BSPAN, LLC_PDU_TYPE_U]

/-- Embedding of `MSTP_OUT_tx_bpdu`: the packet sends it makes.  The second
gather segment is the first `size` bytes at `bpdu`. -/
def MSTP_OUT_tx_bpdu (ifc : port_t) (bpdu : List Nat) (size : Int) : List PacketSend :=
  [{ if_index := ifc.sysdeps.if_index,
     frame := llc_header_bytes ifc.sysdeps.macaddr size ++ bpdu.take size.toNat,
     len := (sizeof_llc_header : Int) + size }]

/-! ## Outcomes of the environment -/

/-- The outcomes, during one call of `bridge_notify`, of every OS helper and
of every engine create call, one field per call site. -/
structure Env where
  /-- whether `calloc` in `create_br` succeeds -/
  br_calloc_ok : Bool
  /-- the address `get_hwaddr` yields in `create_br` (`none`: it fails) -/
  br_hwaddr : Option MacAddr
  /-- the result of `MSTP_IN_bridge_create` -/
  bridge_create_ok : Bool
  /-- the result of `ethtool_get_link` on the bridge -/
  br_link : Int
  /-- the value of `enabled` in `stp_enabled` after the sysfs read; `none`: the
  file could not be opened -/
  stp_state : Option Int
  /-- the address `get_hwaddr` yields in `set_br_up` -/
  br_hwaddr_up : Option MacAddr
  /-- whether `calloc` in `create_if` succeeds -/
  if_calloc_ok : Bool
  /-- the address `get_hwaddr` yields in `create_if` -/
  if_hwaddr : Option MacAddr
  /-- the result of `get_bridge_portno` -/
  portno : Int
  /-- the result of `MSTP_IN_port_create_and_add_tail` -/
  port_create_ok : Bool
  /-- the address `get_hwaddr` yields for the port in `set_if_up` -/
  if_hwaddr_up : Option MacAddr
  /-- the address `get_hwaddr` yields for the bridge in `set_if_up` -/
  br_hwaddr_if : Option MacAddr
  /-- the result of `ethtool_get_speed_duplex` -/
  ethtool_r : Int
  /-- the value of `speed` after `ethtool_get_speed_duplex` -/
  ethtool_speed : Int
  /-- the value of `duplex` after `ethtool_get_speed_duplex` -/
  ethtool_duplex : Int
deriving DecidableEq, Repr

/-! ## Registry operations -/

/-- Embedding of `find_br`: the first bridge with this interface index,
together with its position in the list (the identity of the node). -/
def find_br : List bridge_t → Int → Option (Nat × bridge_t)
  | [], _ => none
  | br :: rest, if_index =>
    if br.sysdeps.if_index == if_index then some (0, br)
    else (find_br rest if_index).map (fun r => (r.1 + 1, r.2))

/-- Embedding of `create_br`: on success the new bridge is appended to the
registry (`list_add_tail`); the result is the registry, the new node and the
engine calls made. -/
def create_br (env : Env) (bridges : List bridge_t) (if_index : Int) :
    List bridge_t × Option (Nat × bridge_t) × List EngineCall :=
  if !env.br_calloc_ok then (bridges, none, [])
  else
    let macaddr := env.br_hwaddr.getD MacAddr.zero
    let br : bridge_t :=
      { sysdeps := { if_index := if_index, macaddr := macaddr, up := false, stp_up := false },
        ports := [] }
    if !env.bridge_create_ok then (bridges, none, [EngineCall.bridge_create if_index macaddr])
    else (bridges ++ [br], some (bridges.length, br), [EngineCall.bridge_create if_index macaddr])

/-- Modelled from the spec: `MSTP_IN_port_create_and_add_tail` belongs to the
protocol engine, which is not part of the source; when it accepts the port it
links it at the tail of the port list of `ifc->bridge`. -/
def port_add_tail (br : bridge_t) (ifc : port_t) : bridge_t :=
  { br with ports := br.ports ++ [ifc] }

/-- Embedding of `create_if`, with `MAX_PORT_NUMBER` (declared outside the
source) as the parameter `max_port_number`: on success the bridge with the new
port linked in, and the port. -/
def create_if (max_port_number : Int) (env : Env) (br : bridge_t) (if_index : Int) :
    Option (bridge_t × port_t) × List EngineCall :=
  if !env.if_calloc_ok then (none, [])
  else
    let macaddr := env.if_hwaddr.getD MacAddr.zero
    let portno := env.portno
    if 0 > portno then (none, [])
    else if portno == 0 || portno > max_port_number then (none, [])
    else
      let ifc : port_t :=
        { sysdeps := { if_index := if_index, macaddr := macaddr, up := false,
                       speed := 0, duplex := 0 },
          port_number := portno }
      let call := EngineCall.port_create_and_add_tail br.sysdeps.if_index ifc portno
      if !env.port_create_ok then (none, [call])
      else (some (port_add_tail br ifc, ifc), [call])

/-- The port list after `list_del` of the first port with this index. -/
def remove_if : List port_t → Int → List port_t
  | [], _ => []
  | ifc :: rest, if_index =>
    if ifc.sysdeps.if_index == if_index then rest else ifc :: remove_if rest if_index

/-- Embedding of `delete_if_byindex` (with `delete_if` inlined): `none` when
`find_if` fails, else the bridge without the port and the engine call. -/
def delete_if_byindex (br : bridge_t) (if_index : Int) : Option (bridge_t × List EngineCall) :=
  match find_if br if_index with
  | none => none
  | some ifc => some ({ br with ports := remove_if br.ports if_index }, [EngineCall.delete_port ifc])

/-- The registry after `list_del` of the first bridge with this index. -/
def remove_br : List bridge_t → Int → List bridge_t
  | [], _ => []
  | br :: rest, if_index =>
    if br.sysdeps.if_index == if_index then rest else br :: remove_br rest if_index

/-- Embedding of `delete_br_byindex`: `none` when `find_br` fails. -/
def delete_br_byindex (bridges : List bridge_t) (if_index : Int) :
    Option (List bridge_t × List EngineCall) :=
  match find_br bridges if_index with
  | none => none
  | some (_, br) => some (remove_br bridges if_index, [EngineCall.delete_bridge br])

/-! ## State refresh -/

/-- Embedding of `check_mac_address`: whether the address changed, and the
address stored afterwards. -/
def check_mac_address (hwaddr : Option MacAddr) (addr : MacAddr) : Bool × MacAddr :=
  match hwaddr with
  | none => (false, addr)
  | some temp_addr => if addr = temp_addr then (false, addr) else (true, temp_addr)

/-- Embedding of `stp_enabled`: user mode STP is state 2.  `stp_state` is the
value of `enabled` after `fscanf` (0 when nothing could be read) when `fopen`
succeeded.  When `fopen` returned `NULL` the function still runs
`fclose(f)`: the behaviour is undefined, the process ends there and the call
never returns, which is the result `none`. -/
def stp_enabled (stp_state : Option Int) : Option Bool :=
  match stp_state with
  | none => none
  | some enabled => some (enabled == 2)

/-- The part of `set_br_up` after `int stp_up = stp_enabled(br)`, given the
value `stp_up` and the MAC reading. -/
def set_br_up_body (stp_up : Bool) (hwaddr : Option MacAddr) (br : bridge_t) (up : Bool) :
    bridge_t × List EngineCall :=
  let changed0 := false
  let (up1, changed1) := if up != br.sysdeps.up then (up, true) else (br.sysdeps.up, changed0)
  let (stp_up1, changed2) :=
    if br.sysdeps.stp_up != stp_up then (stp_up, true) else (br.sysdeps.stp_up, changed1)
  let mac := check_mac_address hwaddr br.sysdeps.macaddr
  let br1 : bridge_t :=
    { br with sysdeps := { br.sysdeps with up := up1, stp_up := stp_up1, macaddr := mac.2 } }
  let calls1 := if mac.1 then [EngineCall.set_bridge_address br.sysdeps.if_index mac.2] else []
  let calls2 :=
    if changed2 then [EngineCall.set_bridge_enable br.sysdeps.if_index (up1 && stp_up1)] else []
  (br1, calls1 ++ calls2)

/-- Embedding of `set_br_up`, given the sysfs reading and the MAC reading:
`none` when the call never returns because `stp_enabled` does not (no field is
stored and no engine call is made before that). -/
def set_br_up (stp_state : Option Int) (hwaddr : Option MacAddr) (br : bridge_t) (up : Bool) :
    Option (bridge_t × List EngineCall) :=
  match stp_enabled stp_state with
  | none => none
  | some stp_up => some (set_br_up_body stp_up hwaddr br up)

/-- The link part of `set_if_up` (`if(!up) ... else ...`), given the ethtool
reading: the values of `up`, `speed` and `duplex` stored afterwards, and the
flag `changed`. -/
def set_if_up_link (r speed duplex : Int) (sys : sysdep_if_data_t) (up : Bool) :
    Bool × Int × Int × Bool :=
  if !up then
    if sys.up then (false, sys.speed, sys.duplex, true)
    else (sys.up, sys.speed, sys.duplex, false)
  else
    let speed1 := if r < 0 || speed < 0 then 10 else speed
    let duplex1 := if r < 0 || duplex < 0 then 0 else duplex
    let (speed2, changed1) := if speed1 != sys.speed then (speed1, true) else (sys.speed, false)
    let (duplex2, changed2) :=
      if duplex1 != sys.duplex then (duplex1, true) else (sys.duplex, changed1)
    let (up2, changed3) := if !sys.up then (true, true) else (sys.up, changed2)
    (up2, speed2, duplex2, changed3)

/-- Embedding of `set_if_up` on the port `ifc` of the bridge `br`
(`ifc->bridge`), given the MAC readings and the ethtool reading. -/
def set_if_up (if_hwaddr br_hwaddr : Option MacAddr) (r speed duplex : Int)
    (br : bridge_t) (ifc : port_t) (up : Bool) : bridge_t × port_t × List EngineCall :=
  let mac := check_mac_address if_hwaddr ifc.sysdeps.macaddr
  let brmac :=
    if mac.1 then check_mac_address br_hwaddr br.sysdeps.macaddr else (false, br.sysdeps.macaddr)
  let calls1 := if brmac.1 then [EngineCall.set_bridge_address br.sysdeps.if_index brmac.2] else []
  let br1 : bridge_t := { br with sysdeps := { br.sysdeps with macaddr := brmac.2 } }
  let s := set_if_up_link r speed duplex ifc.sysdeps up
  let ifc1 : port_t :=
    { ifc with sysdeps := { ifc.sysdeps with macaddr := mac.2, up := s.1, speed := s.2.1,
                                             duplex := s.2.2.1 } }
  let calls2 :=
    if s.2.2.2 then
      [EngineCall.set_port_enable ifc1.sysdeps.if_index ifc1.sysdeps.up ifc1.sysdeps.speed
        ifc1.sysdeps.duplex]
    else []
  (br1, ifc1, calls1 ++ calls2)

/-- The port list with the first port of this index replaced (a write through
the pointer `find_if` returned). -/
def store_if : List port_t → Int → port_t → List port_t
  | [], _, _ => []
  | p :: rest, if_index, ifc =>
    if p.sysdeps.if_index == if_index then ifc :: rest else p :: store_if rest if_index ifc

/-- The call `set_if_up(ifc, up)` of `bridge_notify` on the port of `br` found
or created for `if_index`, with the results written back into the bridge. -/
def notify_set_if_up (env : Env) (br : bridge_t) (ifc : port_t) (up : Bool) :
    bridge_t × List EngineCall :=
  let r := set_if_up env.if_hwaddr_up env.br_hwaddr_if env.ethtool_r env.ethtool_speed
    env.ethtool_duplex br ifc up
  ({ r.1 with ports := store_if r.1.ports ifc.sysdeps.if_index r.2.1 }, r.2.2)

/-! ## The event translator -/

/-- The loop of `bridge_notify` over `bridges` that calls `delete_if_byindex`
on every `other_br != br` and breaks at the first success; `pos` is the
position of `br` and `k` the position of the head of the remaining list. -/
def delete_from_others (pos : Nat) (if_index : Int) :
    Nat → List bridge_t → List bridge_t × List EngineCall
  | _, [] => ([], [])
  | k, other_br :: rest =>
    if k ≠ pos then
      match delete_if_byindex other_br if_index with
      | some (br1, calls) => (br1 :: rest, calls)
      | none =>
        let r := delete_from_others pos if_index (k + 1) rest
        (other_br :: r.1, r.2)
    else
      let r := delete_from_others pos if_index (k + 1) rest
      (other_br :: r.1, r.2)

/-- The loop of the DELLINK branch of `bridge_notify` that calls
`delete_if_byindex` on every bridge and breaks at the first success. -/
def delete_first_if (if_index : Int) : List bridge_t → List bridge_t × List EngineCall
  | [] => ([], [])
  | br :: rest =>
    match delete_if_byindex br if_index with
    | some (br1, calls) => (br1 :: rest, calls)
    | none =>
      let r := delete_first_if if_index rest
      (br :: r.1, r.2)

/-- The steps `find_br` then `create_br` of `bridge_notify`: the registry, the
bridge node obtained (if any) and the engine calls made. -/
def find_or_create_br (env : Env) (bridges : List bridge_t) (br_index : Int) :
    List bridge_t × Option (Nat × bridge_t) × List EngineCall :=
  match find_br bridges br_index with
  | some r => (bridges, some r, [])
  | none => create_br env bridges br_index

/-- The result of one call of `bridge_notify`: its return value (`none`: the
call never returned, the process ended inside `stp_enabled`), the registry it
leaves (at that point, when it did not return) and the engine calls it made. -/
structure NotifyResult where
  ret : Option Int
  bridges : List bridge_t
  calls : List EngineCall
deriving DecidableEq, Repr

/-- The branch `if(br)` of `bridge_notify`: `bridges` holds `br` at position
`pos`; `calls` are the engine calls made so far. -/
def notify_slave (max_port_number : Int) (env : Env) (bridges : List bridge_t) (pos : Nat)
    (br : bridge_t) (calls : List EngineCall) (if_index : Int) (newlink up : Bool) :
    NotifyResult :=
  match find_if br if_index with
  | some ifc =>
    if !newlink then
      { ret := some 0,
        bridges := bridges.set pos { br with ports := remove_if br.ports if_index },
        calls := calls ++ [EngineCall.delete_port ifc] }
    else
      let r := notify_set_if_up env br ifc up
      { ret := some 0, bridges := bridges.set pos r.1, calls := calls ++ r.2 }
  | none =>
    if !newlink then { ret := some (-1), bridges := bridges, calls := calls }
    else
      let d := delete_from_others pos if_index 0 bridges
      match create_if max_port_number env br if_index with
      | (none, calls1) => { ret := some (-1), bridges := d.1, calls := calls ++ d.2 ++ calls1 }
      | (some (br1, ifc), calls1) =>
        let r := notify_set_if_up env br1 ifc up
        { ret := some 0, bridges := d.1.set pos r.1, calls := calls ++ d.2 ++ calls1 ++ r.2 }

/-- The steps `br_up = ethtool_get_link(...); if(br_up >= 0) set_br_up(br,
!!br_up)` of `bridge_notify`: the bridge afterwards and the engine calls made,
or `none` when `set_br_up` never returns. -/
def notify_refresh_br (env : Env) (br : bridge_t) : Option (bridge_t × List EngineCall) :=
  let br_up := env.br_link
  if br_up ≥ 0 then set_br_up env.stp_state env.br_hwaddr_up br (br_up != 0)
  else some (br, [])

/-- Embedding of `bridge_notify`. -/
def bridge_notify (max_port_number : Int) (env : Env) (bridges : List bridge_t)
    (br_index if_index : Int) (newlink up : Bool) : NotifyResult :=
  if br_index ≥ 0 ∧ br_index ≠ if_index then
    match find_or_create_br env bridges br_index with
    | (_, none, calls0) => { ret := some (-1), bridges := bridges, calls := calls0 }
    | (bridges1, some (pos, br), calls0) =>
      match notify_refresh_br env br with
      | none => { ret := none, bridges := bridges1, calls := calls0 }
      | some s =>
        notify_slave max_port_number env (bridges1.set pos s.1) pos s.1 (calls0 ++ s.2)
          if_index newlink up
  else if !newlink then
    match delete_br_byindex bridges if_index with
    | some (bridges1, calls) => { ret := some 0, bridges := bridges1, calls := calls }
    | none =>
      let d := delete_first_if if_index bridges
      { ret := some 0, bridges := d.1, calls := d.2 }
  else if br_index == if_index then
    match find_or_create_br env bridges br_index with
    | (_, none, calls0) => { ret := some (-1), bridges := bridges, calls := calls0 }
    | (bridges1, some (pos, br), calls0) =>
      match set_br_up env.stp_state env.br_hwaddr_up br up with
      | none => { ret := none, bridges := bridges1, calls := calls0 }
      | some s => { ret := some 0, bridges := bridges1.set pos s.1, calls := calls0 ++ s.2 }
  else { ret := some 0, bridges := bridges, calls := [] }

/-- One link notification together with the outcomes of the environment
during the call. -/
structure Notification where
  env : Env
  br_index : Int
  if_index : Int
  newlink : Bool
  up : Bool
deriving DecidableEq, Repr

/-- The registry after a sequence of `bridge_notify` calls; when a call does
not return, the later notifications are never processed and the registry is
the one that call left. -/
def run_notifications (max_port_number : Int) : List bridge_t → List Notification → List bridge_t
  | bridges, [] => bridges
  | bridges, n :: rest =>
    let r := bridge_notify max_port_number n.env bridges n.br_index n.if_index n.newlink n.up
    match r.ret with
    | none => r.bridges
    | some _ => run_notifications max_port_number r.bridges rest

/-! ## Registry invariants and observers -/

/-- The interface indices of all tracked ports, bridge by bridge in registry
order. -/
def port_indices (bridges : List bridge_t) : List Int :=
  (bridges.flatMap (fun br => br.ports)).map (fun ifc => ifc.sysdeps.if_index)

/-- The interface indices of the ports of one bridge, in list order. -/
def indices_of (br : bridge_t) : List Int :=
  br.ports.map (fun ifc => ifc.sysdeps.if_index)

/-- Each interface index occurs at most once among all tracked ports: in at
most one port list, and at most once in that list. -/
def PortsUnique (bridges : List bridge_t) : Prop := (port_indices bridges).Nodup

instance (bridges : List bridge_t) : Decidable (PortsUnique bridges) := by
  unfold PortsUnique; infer_instance

/-- Each bridge `if_index` occurs at most once in the registry. -/
def BridgesUnique (bridges : List bridge_t) : Prop :=
  (bridges.map (fun br => br.sysdeps.if_index)).Nodup

instance (bridges : List bridge_t) : Decidable (BridgesUnique bridges) := by
  unfold BridgesUnique; infer_instance

/-- The bridge with the first port of this index unlinked (the effect of
`delete_if` on the bridge). -/
def without_if (if_index : Int) (br : bridge_t) : bridge_t :=
  { br with ports := remove_if br.ports if_index }

/-- What the claims on the registry compare: for each tracked bridge, in
registry order, its interface index and its port list. -/
def registry_shape (bridges : List bridge_t) : List (Int × List port_t) :=
  bridges.map (fun br => (br.sysdeps.if_index, br.ports))

/-- The engine calls a slave DELLINK for an unknown port can make: creation of
the bridge and the notifications of `set_br_up`. -/
def is_bridge_refresh_call (br_index : Int) : EngineCall → Prop
  | EngineCall.bridge_create i _ => i = br_index
  | EngineCall.set_bridge_address i _ => i = br_index
  | EngineCall.set_bridge_enable i _ => i = br_index
  | _ => False

instance (br_index : Int) (c : EngineCall) : Decidable (is_bridge_refresh_call br_index c) := by
  cases c <;> unfold is_bridge_refresh_call <;> infer_instance

/-- The bytes the engine is handed by a `MSTP_IN_rx_bpdu` call: the first
`size` bytes at the pointer passed. -/
def rx_payload : EngineCall → List Nat
  | EngineCall.rx_bpdu _ bpdu size => bpdu.take size.toNat
  | _ => []

/-! ## Observers used by the claims on `set_br_up` -/

/-- The effect of one engine call on the engine's enabled flag of the bridge
`br_index`: `MSTP_IN_bridge_create` starts it at false and
`MSTP_IN_set_bridge_enable` stores its argument. -/
def engine_enabled_step (br_index : Int) (flag : Bool) : EngineCall → Bool
  | EngineCall.bridge_create i _ => if i = br_index then false else flag
  | EngineCall.set_bridge_enable i enable => if i = br_index then enable else flag
  | _ => flag

/-- The engine's enabled flag of the bridge `br_index` after a trace of engine
calls: false at bridge creation, thereafter the last value passed to
`MSTP_IN_set_bridge_enable`. -/
def engine_enabled (br_index : Int) (calls : List EngineCall) : Bool :=
  calls.foldl (engine_enabled_step br_index) false

/-- One call `set_br_up(br, up)` with the readings of sysfs (`none`: the file
could not be opened) and of the MAC address made during it. -/
structure BrUpCall where
  up : Bool
  stp_state : Option Int
  hwaddr : Option MacAddr
deriving DecidableEq, Repr

/-- A sequence of `set_br_up` calls on one bridge: the bridge afterwards and
all engine calls made, in order; `none` when one of the calls never
returns. -/
def run_set_br_up : bridge_t → List BrUpCall → Option (bridge_t × List EngineCall)
  | br, [] => some (br, [])
  | br, c :: rest =>
    match set_br_up c.stp_state c.hwaddr br c.up with
    | none => none
    | some s =>
      match run_set_br_up s.1 rest with
      | none => none
      | some r => some (r.1, s.2 ++ r.2)

/-! ## Sample data from the scenarios of the specification -/

/-- A port with interface index 12 that is up. -/
def sample_port : port_t :=
  { sysdeps := { if_index := 12, macaddr := ⟨0xaa, 0xbb, 0xcc, 0xdd, 0xee, 0xff⟩, up := true,
                 speed := 10, duplex := 0 },
    port_number := 1 }

/-- A bridge with interface index 5, up and with user mode STP, whose only
port is `sample_port`. -/
def sample_bridge : bridge_t :=
  { sysdeps := { if_index := 5, macaddr := ⟨2, 0, 0, 0, 0, 5⟩, up := true, stp_up := true },
    ports := [sample_port] }

/-- A bridge with interface index 7, down and without user mode STP, with no
ports. -/
def sample_bridge_7 : bridge_t :=
  { sysdeps := { if_index := 7, macaddr := ⟨2, 0, 0, 0, 0, 5⟩, up := false, stp_up := false },
    ports := [] }

/-- Bridge 5 with port 12 followed by bridge 6 without ports (scenario S2
before the move). -/
def sample_registry_S2 : List bridge_t :=
  [sample_bridge,
   { sysdeps := { if_index := 6, macaddr := ⟨2, 0, 0, 0, 0, 6⟩, up := true, stp_up := true },
     ports := [] }]

/-- The frame of scenario S4: `01:80:c2:00:00:00 / aa:bb:cc:dd:ee:ff / 0x0006 /
42 42 03 /` three payload bytes. -/
def frame_S4 : List Nat :=
  [0x01, 0x80, 0xc2, 0x00, 0x00, 0x00, 0xaa, 0xbb, 0xcc, 0xdd, 0xee, 0xff, 0x00, 0x06,
   0x42, 0x42, 0x03, 0x11, 0x22, 0x33]

/-- A frame of exactly 17 bytes: a valid header with length field 3 and no
payload. -/
def frame_17 : List Nat :=
  [0x01, 0x80, 0xc2, 0x00, 0x00, 0x00, 0xaa, 0xbb, 0xcc, 0xdd, 0xee, 0xff, 0x00, 0x03,
   0x42, 0x42, 0x03]

/-- A frame of 18 bytes with length field 3 (boundary test of the
specification). -/
def frame_18 : List Nat := frame_17 ++ [0x00]

/-- An environment in which every helper and every engine create call
succeeds: link up, user mode STP, port number 1, 100 Mbit/s full duplex. -/
def sample_env : Env :=
  { br_calloc_ok := true, br_hwaddr := some ⟨2, 0, 0, 0, 0, 5⟩, bridge_create_ok := true,
    br_link := 1, stp_state := some 2, br_hwaddr_up := some ⟨2, 0, 0, 0, 0, 5⟩,
    if_calloc_ok := true, if_hwaddr := some ⟨0xaa, 0xbb, 0xcc, 0xdd, 0xee, 0xff⟩,
    portno := 1, port_create_ok := true,
    if_hwaddr_up := some ⟨0xaa, 0xbb, 0xcc, 0xdd, 0xee, 0xff⟩, br_hwaddr_if := none,
    ethtool_r := 0, ethtool_speed := 100, ethtool_duplex := 1 }

/-- The outcomes of `sample_env`, except that the sysfs `stp_state` file of the
bridge cannot be opened. -/
def sample_env_no_sysfs : Env := { sample_env with stp_state := none }

/-- Three notifications: port 12 comes up under bridge 5, bridge 6 comes up,
port 12 comes up under bridge 6 without a DELLINK in between. -/
def sample_notifications : List Notification :=
  [⟨sample_env, 5, 12, true, true⟩, ⟨sample_env, 6, 6, true, true⟩,
   ⟨sample_env, 6, 12, true, true⟩]

/-! ## Observers used by the claims on `set_if_up` -/

/-- The number of `MSTP_IN_set_port_enable` calls in a trace. -/
def count_set_port_enable : List EngineCall → Nat
  | [] => 0
  | EngineCall.set_port_enable _ _ _ _ :: rest => count_set_port_enable rest + 1
  | _ :: rest => count_set_port_enable rest

/-- Two calls of `set_if_up` in succession on the same port with the same
`up` argument and the same ethtool reading (the MAC readings of the two calls
are free): the port after the first call, the port after the second, and the
engine calls of the first and of the second call. -/
def set_if_up_twice (if_hwaddr1 br_hwaddr1 if_hwaddr2 br_hwaddr2 : Option MacAddr)
    (r speed duplex : Int) (br : bridge_t) (ifc : port_t) (up : Bool) :
    port_t × port_t × List EngineCall × List EngineCall :=
  let first := set_if_up if_hwaddr1 br_hwaddr1 r speed duplex br ifc up
  let second := set_if_up if_hwaddr2 br_hwaddr2 r speed duplex first.1 first.2.1 up
  (first.2.1, second.2.1, first.2.2, second.2.2)

/-- A port with interface index 12 that is down, as `create_if` leaves it. -/
def sample_port_down : port_t :=
  { sysdeps := { if_index := 12, macaddr := ⟨0xaa, 0xbb, 0xcc, 0xdd, 0xee, 0xff⟩, up := false,
                 speed := 0, duplex := 0 },
    port_number := 1 }

/-! ## Port state commit -/

/-- The bridge port state `BR_STATE_DISABLED` of `<linux/if_bridge.h>`. -/
def BR_STATE_DISABLED : Int := 0
/-- The bridge port state `BR_STATE_LISTENING` of `<linux/if_bridge.h>`. -/
def BR_STATE_LISTENING : Int := 1
/-- The bridge port state `BR_STATE_LEARNING` of `<linux/if_bridge.h>`. -/
def BR_STATE_LEARNING : Int := 2
/-- The bridge port state `BR_STATE_FORWARDING` of `<linux/if_bridge.h>`. -/
def BR_STATE_FORWARDING : Int := 3
/-- The bridge port state `BR_STATE_BLOCKING` of `<linux/if_bridge.h>`. -/
def BR_STATE_BLOCKING : Int := 4

/-- A 16-bit value stored in network byte order (`__be16`): its two bytes in
memory order. -/
structure be16 where
  hi : Nat
  lo : Nat
deriving DecidableEq, Repr

/-- The stored form of a host value (`__cpu_to_be16`), after truncation to 16
bits. -/
def be16.of_cpu (v : Int) : be16 :=
  { hi := ((v % 65536) / 256).toNat, lo := ((v % 65536) % 256).toNat }

/-- The host value of a stored big-endian value (`__be16_to_cpu`). -/
def be16.to_cpu (b : be16) : Nat := be16_to_cpu b.hi b.lo

/-- Modelled from the spec: `per_tree_port_t` is declared by the protocol
engine, outside the source; these are the fields `bridge_track.c` reads or
writes: the MSTID of its tree as stored, its `portId`, its `state`, and the
name `ptp->port->sysdeps.name` of the port it belongs to (as character
codes). -/
structure per_tree_port_t where
  MSTID : be16
  portId : Nat
  state : Int
  port_name : List Nat
deriving DecidableEq, Repr

/-- The `switch` of `MSTP_OUT_set_state`: an invalid state becomes
`BR_STATE_DISABLED`. -/
def set_state_switch (new_state : Int) : Int :=
  if new_state = BR_STATE_LISTENING then new_state
  else if new_state = BR_STATE_LEARNING then new_state
  else if new_state = BR_STATE_FORWARDING then new_state
  else if new_state = BR_STATE_BLOCKING then new_state
  else if new_state = BR_STATE_DISABLED then new_state
  else BR_STATE_DISABLED

/-- Embedding of `MSTP_OUT_set_state`: the per-tree-port afterwards. -/
def MSTP_OUT_set_state (ptp : per_tree_port_t) (new_state : Int) : per_tree_port_t :=
  let new_state1 := set_state_switch new_state
  if ptp.state = new_state1 then ptp
  else { ptp with state := new_state1 }

/-- Every tracked port has a port number in `1 .. max_port_number`. -/
def PortNumbersOk (max_port_number : Int) (bridges : List bridge_t) : Prop :=
  ∀ br ∈ bridges, ∀ ifc ∈ br.ports, 1 ≤ ifc.port_number ∧ ifc.port_number ≤ max_port_number

instance (max_port_number : Int) (bridges : List bridge_t) :
    Decidable (PortNumbersOk max_port_number bridges) := by
  unfold PortNumbersOk; infer_instance

/-! ## Control handlers -/

/-- The size of an interface name buffer. -/
def IFNAMSIZ : Nat := 16

/-- Modelled from the spec: `tree_t` is declared by the protocol engine,
outside the source; these are the fields `bridge_track.c` reads: the MSTID as
stored and the per-tree-ports of the tree in list order (`tree->ports`). -/
structure tree_t where
  MSTID : be16
  ports : List per_tree_port_t
deriving DecidableEq, Repr

/-- Modelled from the spec: the members of `bridge_t` and `port_t` that belong
to the protocol engine, as the control handlers read them.  A bridge is named
by its position in the registry and a port by that position and its interface
index.  `cist` is the tree the macro `GET_CIST_TREE` (declared outside the
source) yields. -/
structure engine_data_t where
  /-- the list `br->trees` -/
  trees : Nat → List tree_t
  /-- the tree `GET_CIST_TREE(br)` -/
  cist : Nat → tree_t
  /-- the list `prt->trees` -/
  port_trees : Nat → Int → List per_tree_port_t
  /-- the bytes of `br->MstConfigId` -/
  MstConfigId : Nat → List Nat
  /-- the table `br->vid2fid`, host order entries -/
  vid2fid : Nat → List Nat
  /-- the table `br->fid2mstid`, entries stored big-endian -/
  fid2mstid : Nat → List be16

/-- A bridge status record as an engine `get` call fills it: the root port
identifier and the remaining fields as bytes. -/
structure BridgeStatus where
  root_port_id : Nat
  fields : List Nat
deriving DecidableEq, Repr

/-- The outcomes of the engine calls a control handler makes. -/
structure CtlEnv where
  /-- what `MSTP_IN_get_cist_bridge_status` or `MSTP_IN_get_msti_bridge_status`
  writes -/
  bridge_status : BridgeStatus
  /-- what `MSTP_IN_get_cist_port_status` or `MSTP_IN_get_msti_port_status`
  writes -/
  port_status : List Nat
  /-- what `MSTP_IN_get_mstilist` writes -/
  mstilist : List Nat
  /-- the result of an engine call returning `int` -/
  ret : Int
  /-- the result of an engine call returning `bool` -/
  ok : Bool
deriving DecidableEq, Repr

/-- The engine functions the control handlers call. -/
inductive MSTP_IN_fn where
  | get_cist_bridge_status | get_msti_bridge_status
  | set_cist_bridge_config | set_msti_bridge_config
  | get_cist_port_status | get_msti_port_status
  | set_cist_port_config | set_msti_port_config
  | port_mcheck | get_mstilist | create_msti | delete_msti
  | set_mst_config_id | set_vid2fid | set_fid2mstid
  | set_all_vids2fids | set_all_fids2mstids
deriving DecidableEq, Repr

/-- What a control handler writes through its output arguments. -/
inductive CtlOutput where
  | bridge_status (status : BridgeStatus) (root_port_name : List Nat)
  | port_status (status : List Nat)
  | mstilist (mstids : List Nat)
  | mstconfid (cfg : List Nat)
  | table (entries : List Nat)
deriving DecidableEq, Repr

/-- The result of a control handler: its return value, the engine calls it
made, and what it wrote to its output arguments (`none`: nothing).  The
handlers never write the registry themselves; it can only change inside a
recorded engine call.  Arguments that are only forwarded to the engine are
left out of the handlers. -/
structure CtlResult where
  ret : Int
  calls : List MSTP_IN_fn
  out : Option CtlOutput
deriving DecidableEq, Repr

/-- The `return -1` of the lookup macros. -/
def ctl_fail : CtlResult := { ret := -1, calls := [], out := none }

/-- Embedding of the macro `CTL_CHECK_BRIDGE`. -/
def CTL_CHECK_BRIDGE (bridges : List bridge_t) (br_index : Int) : Option (Nat × bridge_t) :=
  find_br bridges br_index

/-- Embedding of the macro `CTL_CHECK_BRIDGE_PORT`. -/
def CTL_CHECK_BRIDGE_PORT (bridges : List bridge_t) (br_index port_index : Int) :
    Option (Nat × bridge_t × port_t) :=
  match CTL_CHECK_BRIDGE bridges br_index with
  | none => none
  | some (pos, br) =>
    match find_if br port_index with
    | none => none
    | some prt => some (pos, br, prt)

/-- Embedding of the macro `CTL_CHECK_BRIDGE_TREE`: the first tree of the
bridge whose stored MSTID equals `__cpu_to_be16(mstid)`. -/
def CTL_CHECK_BRIDGE_TREE (bridges : List bridge_t) (eng : engine_data_t)
    (br_index : Int) (mstid : Nat) : Option (Nat × bridge_t × tree_t) :=
  match CTL_CHECK_BRIDGE bridges br_index with
  | none => none
  | some (pos, br) =>
    match (eng.trees pos).find? (fun tree => tree.MSTID == be16.of_cpu mstid) with
    | none => none
    | some tree => some (pos, br, tree)

/-- Embedding of the macro `CTL_CHECK_BRIDGE_PERTREEPORT`: the first
per-tree-port of the port whose stored MSTID equals `__cpu_to_be16(mstid)`. -/
def CTL_CHECK_BRIDGE_PERTREEPORT (bridges : List bridge_t) (eng : engine_data_t)
    (br_index port_index : Int) (mstid : Nat) :
    Option (Nat × bridge_t × port_t × per_tree_port_t) :=
  match CTL_CHECK_BRIDGE_PORT bridges br_index port_index with
  | none => none
  | some (pos, br, prt) =>
    match (eng.port_trees pos port_index).find?
        (fun ptp => ptp.MSTID == be16.of_cpu mstid) with
    | none => none
    | some ptp => some (pos, br, prt, ptp)

/-- The loop "find root port name by root_port_id" of the bridge status
handlers: the name starts empty and receives, by `strncpy` of at most
`IFNAMSIZ` characters, the name of the port of the first per-tree-port with
this `portId`. -/
def find_root_port_name (ports : List per_tree_port_t) (root_port_id : Nat) : List Nat :=
  match ports.find? (fun ptp => ptp.portId == root_port_id) with
  | some ptp => ptp.port_name.take IFNAMSIZ
  | none => []

/-- Embedding of `CTL_get_cist_bridge_status`. -/
def CTL_get_cist_bridge_status (bridges : List bridge_t) (eng : engine_data_t) (env : CtlEnv)
    (br_index : Int) : CtlResult :=
  match CTL_CHECK_BRIDGE bridges br_index with
  | none => ctl_fail
  | some (pos, _) =>
    let status := env.bridge_status
    let cist := eng.cist pos
    { ret := 0, calls := [MSTP_IN_fn.get_cist_bridge_status],
      out := some (CtlOutput.bridge_status status
        (find_root_port_name cist.ports status.root_port_id)) }

/-- Embedding of `CTL_get_msti_bridge_status`. -/
def CTL_get_msti_bridge_status (bridges : List bridge_t) (eng : engine_data_t) (env : CtlEnv)
    (br_index : Int) (mstid : Nat) : CtlResult :=
  match CTL_CHECK_BRIDGE_TREE bridges eng br_index mstid with
  | none => ctl_fail
  | some (_, _, tree) =>
    let status := env.bridge_status
    { ret := 0, calls := [MSTP_IN_fn.get_msti_bridge_status],
      out := some (CtlOutput.bridge_status status
        (find_root_port_name tree.ports status.root_port_id)) }

/-- Embedding of `CTL_set_cist_bridge_config`. -/
def CTL_set_cist_bridge_config (bridges : List bridge_t) (env : CtlEnv) (br_index : Int) :
    CtlResult :=
  match CTL_CHECK_BRIDGE bridges br_index with
  | none => ctl_fail
  | some _ => { ret := env.ret, calls := [MSTP_IN_fn.set_cist_bridge_config], out := none }

/-- Embedding of `CTL_set_msti_bridge_config`. -/
def CTL_set_msti_bridge_config (bridges : List bridge_t) (eng : engine_data_t) (env : CtlEnv)
    (br_index : Int) (mstid : Nat) : CtlResult :=
  match CTL_CHECK_BRIDGE_TREE bridges eng br_index mstid with
  | none => ctl_fail
  | some _ => { ret := env.ret, calls := [MSTP_IN_fn.set_msti_bridge_config], out := none }

/-- Embedding of `CTL_get_cist_port_status`. -/
def CTL_get_cist_port_status (bridges : List bridge_t) (env : CtlEnv)
    (br_index port_index : Int) : CtlResult :=
  match CTL_CHECK_BRIDGE_PORT bridges br_index port_index with
  | none => ctl_fail
  | some _ =>
    { ret := 0, calls := [MSTP_IN_fn.get_cist_port_status],
      out := some (CtlOutput.port_status env.port_status) }

/-- Embedding of `CTL_get_msti_port_status`. -/
def CTL_get_msti_port_status (bridges : List bridge_t) (eng : engine_data_t) (env : CtlEnv)
    (br_index port_index : Int) (mstid : Nat) : CtlResult :=
  match CTL_CHECK_BRIDGE_PERTREEPORT bridges eng br_index port_index mstid with
  | none => ctl_fail
  | some _ =>
    { ret := 0, calls := [MSTP_IN_fn.get_msti_port_status],
      out := some (CtlOutput.port_status env.port_status) }

/-- Embedding of `CTL_set_cist_port_config`. -/
def CTL_set_cist_port_config (bridges : List bridge_t) (env : CtlEnv)
    (br_index port_index : Int) : CtlResult :=
  match CTL_CHECK_BRIDGE_PORT bridges br_index port_index with
  | none => ctl_fail
  | some _ => { ret := env.ret, calls := [MSTP_IN_fn.set_cist_port_config], out := none }

/-- Embedding of `CTL_set_msti_port_config`. -/
def CTL_set_msti_port_config (bridges : List bridge_t) (eng : engine_data_t) (env : CtlEnv)
    (br_index port_index : Int) (mstid : Nat) : CtlResult :=
  match CTL_CHECK_BRIDGE_PERTREEPORT bridges eng br_index port_index mstid with
  | none => ctl_fail
  | some _ => { ret := env.ret, calls := [MSTP_IN_fn.set_msti_port_config], out := none }

/-- Embedding of `CTL_port_mcheck`. -/
def CTL_port_mcheck (bridges : List bridge_t) (env : CtlEnv) (br_index port_index : Int) :
    CtlResult :=
  match CTL_CHECK_BRIDGE_PORT bridges br_index port_index with
  | none => ctl_fail
  | some _ => { ret := env.ret, calls := [MSTP_IN_fn.port_mcheck], out := none }

/-- Embedding of `CTL_get_mstilist`. -/
def CTL_get_mstilist (bridges : List bridge_t) (env : CtlEnv) (br_index : Int) : CtlResult :=
  match CTL_CHECK_BRIDGE bridges br_index with
  | none => ctl_fail
  | some _ =>
    { ret := if env.ok then 0 else -1, calls := [MSTP_IN_fn.get_mstilist],
      out := some (CtlOutput.mstilist env.mstilist) }

/-- The handlers `return MSTP_IN_f(br, ...) ? 0 : -1` after
`CTL_CHECK_BRIDGE`. -/
def ctl_bridge_bool (fn : MSTP_IN_fn) (bridges : List bridge_t) (env : CtlEnv)
    (br_index : Int) : CtlResult :=
  match CTL_CHECK_BRIDGE bridges br_index with
  | none => ctl_fail
  | some _ => { ret := if env.ok then 0 else -1, calls := [fn], out := none }

/-- Embedding of `CTL_create_msti`. -/
def CTL_create_msti (bridges : List bridge_t) (env : CtlEnv) (br_index : Int) : CtlResult :=
  ctl_bridge_bool MSTP_IN_fn.create_msti bridges env br_index

/-- Embedding of `CTL_delete_msti`. -/
def CTL_delete_msti (bridges : List bridge_t) (env : CtlEnv) (br_index : Int) : CtlResult :=
  ctl_bridge_bool MSTP_IN_fn.delete_msti bridges env br_index

/-- Embedding of `CTL_get_mstconfid`. -/
def CTL_get_mstconfid (bridges : List bridge_t) (eng : engine_data_t) (br_index : Int) :
    CtlResult :=
  match CTL_CHECK_BRIDGE bridges br_index with
  | none => ctl_fail
  | some (pos, _) =>
    { ret := 0, calls := [], out := some (CtlOutput.mstconfid (eng.MstConfigId pos)) }

/-- Embedding of `CTL_set_mstconfid`. -/
def CTL_set_mstconfid (bridges : List bridge_t) (br_index : Int) : CtlResult :=
  match CTL_CHECK_BRIDGE bridges br_index with
  | none => ctl_fail
  | some _ => { ret := 0, calls := [MSTP_IN_fn.set_mst_config_id], out := none }

/-- Embedding of `CTL_get_vids2fids`: a `memcpy` of the whole table. -/
def CTL_get_vids2fids (bridges : List bridge_t) (eng : engine_data_t) (br_index : Int) :
    CtlResult :=
  match CTL_CHECK_BRIDGE bridges br_index with
  | none => ctl_fail
  | some (pos, _) =>
    { ret := 0, calls := [], out := some (CtlOutput.table (eng.vid2fid pos)) }

/-- Embedding of `CTL_get_fids2mstids`: every entry of the table converted by
`__be16_to_cpu`. -/
def CTL_get_fids2mstids (bridges : List bridge_t) (eng : engine_data_t) (br_index : Int) :
    CtlResult :=
  match CTL_CHECK_BRIDGE bridges br_index with
  | none => ctl_fail
  | some (pos, _) =>
    { ret := 0, calls := [],
      out := some (CtlOutput.table ((eng.fid2mstid pos).map be16.to_cpu)) }

/-- Embedding of `CTL_set_vid2fid`. -/
def CTL_set_vid2fid (bridges : List bridge_t) (env : CtlEnv) (br_index : Int) : CtlResult :=
  ctl_bridge_bool MSTP_IN_fn.set_vid2fid bridges env br_index

/-- Embedding of `CTL_set_fid2mstid`. -/
def CTL_set_fid2mstid (bridges : List bridge_t) (env : CtlEnv) (br_index : Int) : CtlResult :=
  ctl_bridge_bool MSTP_IN_fn.set_fid2mstid bridges env br_index

/-- Embedding of `CTL_set_vids2fids`. -/
def CTL_set_vids2fids (bridges : List bridge_t) (env : CtlEnv) (br_index : Int) : CtlResult :=
  ctl_bridge_bool MSTP_IN_fn.set_all_vids2fids bridges env br_index

/-- Embedding of `CTL_set_fids2mstids`. -/
def CTL_set_fids2mstids (bridges : List bridge_t) (env : CtlEnv) (br_index : Int) : CtlResult :=
  ctl_bridge_bool MSTP_IN_fn.set_all_fids2mstids bridges env br_index

/-- An engine view of a bridge that has only the CIST (MSTID 0), with one
per-tree-port of identifier 0x8001 for the port named `eth0`. -/
def sample_engine_data : engine_data_t :=
  { trees := fun _ => [{ MSTID := ⟨0, 0⟩, ports := [⟨⟨0, 0⟩, 0x8001, 3, [0x65, 0x74, 0x68, 0x30]⟩] }],
    cist := fun _ => { MSTID := ⟨0, 0⟩, ports := [⟨⟨0, 0⟩, 0x8001, 3, [0x65, 0x74, 0x68, 0x30]⟩] },
    port_trees := fun _ _ => [⟨⟨0, 0⟩, 0x8001, 3, [0x65, 0x74, 0x68, 0x30]⟩],
    MstConfigId := fun _ => [],
    vid2fid := fun _ => [0, 1, 2],
    fid2mstid := fun _ => [⟨0, 0⟩, ⟨0, 100⟩, ⟨1, 2⟩] }

/-- The tree of MSTI 100 (stored MSTID bytes `00 64`) with two per-tree-ports:
identifier 0x8002 for the port named `eth1`, then 0x8001 for `eth0`. -/
def sample_msti_tree : tree_t :=
  { MSTID := ⟨0, 100⟩,
    ports := [⟨⟨0, 100⟩, 0x8002, 3, [0x65, 0x74, 0x68, 0x31]⟩,
              ⟨⟨0, 100⟩, 0x8001, 3, [0x65, 0x74, 0x68, 0x30]⟩] }

/-- An engine view of a bridge that has the CIST of `sample_engine_data`
followed by the tree of MSTI 100. -/
def sample_engine_data_msti : engine_data_t :=
  { sample_engine_data with
    trees := fun _ =>
      [{ MSTID := ⟨0, 0⟩, ports := [⟨⟨0, 0⟩, 0x8001, 3, [0x65, 0x74, 0x68, 0x30]⟩] },
       sample_msti_tree] }

/-- Engine outcomes in which every call succeeds and the root port identifier
reported is 0x8001. -/
def sample_ctl_env : CtlEnv :=
  { bridge_status := { root_port_id := 0x8001, fields := [] }, port_status := [],
    mstilist := [], ret := 0, ok := true }

/-- Written after the claim on the root port name: `name` is the name (cut to
`IFNAMSIZ` characters by `strncpy`) of the port of the first per-tree-port of
`ports` whose `portId` is `root_port_id`, and the empty string when no
per-tree-port of `ports` has that `portId`. -/
def is_root_port_name (ports : List per_tree_port_t) (root_port_id : Nat)
    (name : List Nat) : Prop :=
  (∃ before ptp after, ports = before ++ ptp :: after
      ∧ (∀ q ∈ before, q.portId ≠ root_port_id) ∧ ptp.portId = root_port_id
      ∧ name = ptp.port_name.take IFNAMSIZ
      ∧ (ptp.port_name.length ≤ IFNAMSIZ → name = ptp.port_name))
  ∨ ((∀ q ∈ ports, q.portId ≠ root_port_id) ∧ name = [])

/-! # Theorems -/

/-! ## Lookup lemmas -/

theorem port_indices_cons (br : bridge_t) (rest : List bridge_t) :
    port_indices (br :: rest)
      = br.ports.map (fun ifc => ifc.sysdeps.if_index) ++ port_indices rest := by
  simp [port_indices]

theorem find_if_none_of_not_mem (br : bridge_t) (i : Int)
    (h : i ∉ br.ports.map (fun ifc => ifc.sysdeps.if_index)) : find_if br i = none := by
  unfold find_if
  rw [List.find?_eq_none]
  intro p hp hpi
  apply h
  simp only [List.mem_map]
  exact ⟨p, hp, by simpa using hpi⟩

theorem find_in_ports_of_nodup (ports : List port_t) (ifc : port_t)
    (hnd : (ports.map (fun p => p.sysdeps.if_index)).Nodup) (hmem : ifc ∈ ports) :
    ports.find? (fun p => p.sysdeps.if_index == ifc.sysdeps.if_index) = some ifc := by
  induction ports with
  | nil => simp at hmem
  | cons p rest ih =>
    simp only [List.map_cons, List.nodup_cons] at hnd
    rcases List.mem_cons.mp hmem with h | h
    · subst h; simp
    · have hne : p.sysdeps.if_index ≠ ifc.sysdeps.if_index := by
        intro he
        apply hnd.1
        rw [he]
        exact List.mem_map_of_mem _ h
      simp [List.find?_cons, hne, ih hnd.2 h]

/-- In a registry with unique port indices the receive path resolves the index
of a tracked port to that port and its bridge. -/
theorem find_port_of_mem (bridges : List bridge_t) (br : bridge_t) (ifc : port_t)
    (huniq : PortsUnique bridges) (hbr : br ∈ bridges) (hifc : ifc ∈ br.ports) :
    find_port bridges ifc.sysdeps.if_index = some (br, ifc) := by
  induction bridges with
  | nil => simp at hbr
  | cons b rest ih =>
    unfold PortsUnique at huniq ih
    rw [port_indices_cons, List.nodup_append] at huniq
    obtain ⟨hnd, hrest, hdisj⟩ := huniq
    rcases List.mem_cons.mp hbr with h | h
    · subst h
      have := find_in_ports_of_nodup br.ports ifc hnd hifc
      simp [find_port, find_if, this]
    · have hin : ifc.sysdeps.if_index ∈ port_indices rest := by
        unfold port_indices
        simp only [List.mem_map, List.mem_flatMap]
        exact ⟨ifc, ⟨br, h, hifc⟩, rfl⟩
      have hnot : ifc.sysdeps.if_index ∉ b.ports.map (fun p => p.sysdeps.if_index) :=
        fun hc => hdisj hc hin
      simp [find_port, find_if_none_of_not_mem b _ hnot, ih hrest h]

theorem find_port_mem (bridges : List bridge_t) (i : Int) (br : bridge_t) (ifc : port_t)
    (h : find_port bridges i = some (br, ifc)) :
    br ∈ bridges ∧ ifc ∈ br.ports ∧ ifc.sysdeps.if_index = i := by
  induction bridges with
  | nil => simp [find_port] at h
  | cons b rest ih =>
    unfold find_port at h
    cases hf : find_if b i with
    | none =>
      rw [hf] at h
      obtain ⟨h1, h2⟩ := ih h
      exact ⟨List.mem_cons_of_mem _ h1, h2⟩
    | some p =>
      rw [hf] at h
      simp only [Option.some.injEq, Prod.mk.injEq] at h
      obtain ⟨rfl, rfl⟩ := h
      unfold find_if at hf
      refine ⟨List.mem_cons_self _ _, List.mem_of_find?_eq_some hf, ?_⟩
      simpa using List.find?_some hf

/-! ## BPDU ingress: acceptance and inversion -/

theorem bridge_bpdu_rcv_eq_of_find (bridges : List bridge_t) (if_index : Int) (br : bridge_t)
    (ifc : port_t) (data : List Nat) (len : Int)
    (hfind : find_port bridges if_index = some (br, ifc))
    (hup : ifc.sysdeps.up = true) (hstp : br.sysdeps.stp_up = true)
    (hlen : 18 ≤ len) (hint : len < 2 ^ 31)
    (hda : data.take 6 = [0x01, 0x80, 0xc2, 0x00, 0x00, 0x00])
    (hL3 : 3 ≤ len8023 data) (hL1500 : len8023 data ≤ 1500)
    (hLlen : (len8023 data : Int) ≤ len - 14)
    (hd : byteAt data 14 = 0x42) (hs : byteAt data 15 = 0x42)
    (hc : byteAt data 16 &&& 0x3 = 3) :
    bridge_bpdu_rcv bridges if_index data len
      = [EngineCall.rx_bpdu ifc (data.drop 17) ((len8023 data : Int) - 3)] := by
  have h64 : len % 2 ^ 64 = len := Int.emod_eq_of_lt (by omega) (by omega)
  unfold bridge_bpdu_rcv
  rw [hfind]
  simp only [hup, hstp, h64, sizeof_llc_header, ETH_ALEN, bridge_group_address, ETH_DATA_LEN,
    ETH_HLEN, LLC_PDU_LEN_U, LLC_SAP_BSPAN, LLC_PDU_TYPE_U, hda, hd, hs, hc]
  simp only [hL3, hL1500, Nat.reducePow, Int.reducePow, not_lt, not_le, not_and, Nat.cast_ofNat, ge_iff_le, gt_iff_lt, true_and, and_true, not_true_eq_false, ite_false, if_false, Bool.not_true, Bool.false_eq_true, ne_eq, List.take, not_false_eq_true, ite_not]
  have h32b : (len - 14) % 4294967296 = len - 14 := by omega
  rw [if_neg (by omega), if_neg (by omega)]

/-- Inversion of `bridge_bpdu_rcv`: a call is made only when a port was
resolved and every check passed, and then it is the single `rx_bpdu` call. -/
theorem bridge_bpdu_rcv_inv (bridges : List bridge_t) (if_index : Int) (data : List Nat)
    (len : Int) (c : EngineCall) (hc : c ∈ bridge_bpdu_rcv bridges if_index data len) :
    ∃ br ifc, find_port bridges if_index = some (br, ifc)
      ∧ ifc.sysdeps.up = true ∧ br.sysdeps.stp_up = true
      ∧ len % 2 ^ 64 > 17
      ∧ data.take 6 = [0x01, 0x80, 0xc2, 0x00, 0x00, 0x00]
      ∧ len8023 data ≤ 1500 ∧ (len8023 data : Int) ≤ (len - 14) % 2 ^ 32 ∧ 3 ≤ len8023 data
      ∧ byteAt data 14 = 0x42 ∧ byteAt data 15 = 0x42 ∧ byteAt data 16 &&& 0x3 = 3
      ∧ c = EngineCall.rx_bpdu ifc (data.drop 17) ((len8023 data : Int) - 3)
      ∧ bridge_bpdu_rcv bridges if_index data len = [c] := by
  unfold bridge_bpdu_rcv at hc ⊢
  cases hf : find_port bridges if_index with
  | none => rw [hf] at hc; simp at hc
  | some r =>
    obtain ⟨br, ifc⟩ := r
    rw [hf] at hc
    simp only [] at hc ⊢
    refine ⟨br, ifc, rfl, ?_⟩
    by_cases h1 : ifc.sysdeps.up = true
    swap
    · simp [h1] at hc
    by_cases h2 : br.sysdeps.stp_up = true
    swap
    · simp [h1, h2] at hc
    by_cases h3 : len % 2 ^ 64 > (sizeof_llc_header : Int)
    swap
    · rw [if_neg (by simp [h1]), if_neg (by simp [h2]), if_pos h3] at hc; simp at hc
    by_cases h4 : data.take ETH_ALEN = bridge_group_address
    swap
    · rw [if_neg (by simp [h1]), if_neg (by simp [h2]), if_neg (by simpa using h3),
        if_pos h4] at hc
      simp at hc
    by_cases h5 : (len8023 data ≤ ETH_DATA_LEN
        ∧ (len8023 data : Int) ≤ (len - ETH_HLEN) % 2 ^ 32 ∧ len8023 data ≥ LLC_PDU_LEN_U)
    swap
    · rw [if_neg (by simp [h1]), if_neg (by simp [h2]), if_neg (by simpa using h3),
        if_neg (by simpa using h4)] at hc
      rw [if_pos h5] at hc
      simp at hc
    by_cases h6 : (byteAt data 14 = LLC_SAP_BSPAN ∧ byteAt data 15 = LLC_SAP_BSPAN
                  ∧ byteAt data 16 &&& 0x3 = LLC_PDU_TYPE_U)
    swap
    · rw [if_neg (by simp [h1]), if_neg (by simp [h2]), if_neg (by simpa using h3),
        if_neg (by simpa using h4)] at hc
      rw [if_neg (by simpa using h5), if_pos h6] at hc
      simp at hc
    rw [if_neg (by simp [h1]), if_neg (by simp [h2]), if_neg (by simpa using h3),
        if_neg (by simpa using h4)] at hc ⊢
    rw [if_neg (by simpa using h5), if_neg (by simpa using h6)] at hc ⊢
    simp only [List.mem_singleton] at hc
    subst hc
    simp only [sizeof_llc_header, ETH_ALEN, bridge_group_address, ETH_DATA_LEN,
      ETH_HLEN, LLC_PDU_LEN_U, LLC_SAP_BSPAN, LLC_PDU_TYPE_U] at h3 h4 h5 h6 ⊢
    exact ⟨h1, h2, by simpa using h3, h4, h5.1, by simpa using h5.2.1, h5.2.2, h6.1, h6.2.1,
      h6.2.2, by simp, by simp⟩

/-! ## Claims on BPDU ingress and egress -/

/-- C2 (counterexample): a frame of exactly 17 bytes that meets every condition
of the claim (bridge group address, length field 3 with 3 ≤ 17 − 14, both SAPs
0x42, U-format control byte), received on a tracked port that is up on a bridge
with `stp_up`, is not delivered to the engine. -/
theorem bpdu_rcv_17_byte_frame_not_delivered :
    (PortsUnique [sample_bridge] ∧ sample_bridge ∈ [sample_bridge]
      ∧ sample_port ∈ sample_bridge.ports
      ∧ sample_port.sysdeps.up = true ∧ sample_bridge.sysdeps.stp_up = true)
    ∧ (17 ≤ frame_17.length ∧ frame_17.take 6 = [0x01, 0x80, 0xc2, 0x00, 0x00, 0x00]
      ∧ 3 ≤ len8023 frame_17 ∧ len8023 frame_17 ≤ 1500
      ∧ (len8023 frame_17 : Int) ≤ (frame_17.length : Int) - 14
      ∧ byteAt frame_17 14 = 0x42 ∧ byteAt frame_17 15 = 0x42
      ∧ byteAt frame_17 16 &&& 0x3 = 3)
    ∧ bridge_bpdu_rcv [sample_bridge] sample_port.sysdeps.if_index frame_17 frame_17.length
        = [] := by
  decide

/-- C2 (amended): on a tracked port that is up on a bridge with `stp_up` set, in
a registry with unique port indices, `bridge_bpdu_rcv` delivers to the engine
every frame of at least 18 bytes (`len > 17`) whose destination is the bridge
group address, whose 802.3 length field `L` satisfies 3 ≤ L ≤ 1500 and
L ≤ len − 14, whose DSAP and SSAP are 0x42 and whose control byte has low two
bits 3: exactly one `MSTP_IN_rx_bpdu` call is made, for that port. -/
theorem bridge_bpdu_rcv_accepts_valid_frame (bridges : List bridge_t) (br : bridge_t)
    (ifc : port_t) (data : List Nat) (len : Int)
    (huniq : PortsUnique bridges) (hbr : br ∈ bridges) (hifc : ifc ∈ br.ports)
    (hup : ifc.sysdeps.up = true) (hstp : br.sysdeps.stp_up = true)
    (hlen : 18 ≤ len) (hint : len < 2 ^ 31)
    (hda : data.take 6 = [0x01, 0x80, 0xc2, 0x00, 0x00, 0x00])
    (hL3 : 3 ≤ len8023 data) (hL1500 : len8023 data ≤ 1500)
    (hLlen : (len8023 data : Int) ≤ len - 14)
    (hd : byteAt data 14 = 0x42) (hs : byteAt data 15 = 0x42)
    (hc : byteAt data 16 &&& 0x3 = 3) :
    bridge_bpdu_rcv bridges ifc.sysdeps.if_index data len
      = [EngineCall.rx_bpdu ifc (data.drop 17) ((len8023 data : Int) - 3)] :=
  bridge_bpdu_rcv_eq_of_find bridges _ br ifc data len
    (find_port_of_mem bridges br ifc huniq hbr hifc) hup hstp hlen hint hda hL3 hL1500 hLlen
    hd hs hc

/-- C2 (witness): the 18-byte frame with length field 3 of the specification
is accepted, with a 0-byte payload. -/
theorem bridge_bpdu_rcv_accepts_valid_frame_witness :
    bridge_bpdu_rcv [sample_bridge] sample_port.sysdeps.if_index frame_18 18
      = [EngineCall.rx_bpdu sample_port (frame_18.drop 17) ((len8023 frame_18 : Int) - 3)]
    ∧ (len8023 frame_18 : Int) - 3 = 0 :=
  ⟨bridge_bpdu_rcv_accepts_valid_frame [sample_bridge] sample_bridge sample_port frame_18 18
    (by decide) (by decide) (by decide) (by decide) (by decide) (by decide) (by decide)
    (by decide) (by decide) (by decide) (by decide) (by decide) (by decide) (by decide),
   by decide⟩

/-- C3: for every registry and every received frame, with `len` the number of
bytes of the frame, `bridge_bpdu_rcv` makes no engine call when the destination
differs from the bridge group address, or the 802.3 length field `L` is below
3, exceeds 1500 or exceeds `len − 14`, or DSAP or SSAP is not 0x42, or the low
two bits of the control byte are not 3. -/
theorem bridge_bpdu_rcv_drops_invalid_frame (bridges : List bridge_t) (if_index : Int)
    (data : List Nat) (hint : (data.length : Int) < 2 ^ 31)
    (hbad : data.take 6 ≠ [0x01, 0x80, 0xc2, 0x00, 0x00, 0x00]
      ∨ len8023 data < 3 ∨ 1500 < len8023 data
      ∨ (data.length : Int) - 14 < (len8023 data : Int)
      ∨ byteAt data 14 ≠ 0x42 ∨ byteAt data 15 ≠ 0x42
      ∨ byteAt data 16 &&& 0x3 ≠ 3) :
    bridge_bpdu_rcv bridges if_index data data.length = [] := by
  rw [List.eq_nil_iff_forall_not_mem]
  intro c hc
  obtain ⟨br, ifc, -, -, -, h17, hda, h1500, hlen, h3, hd, hs, hctl, -, -⟩ :=
    bridge_bpdu_rcv_inv bridges if_index data data.length c hc
  have hnn : (0 : Int) ≤ data.length := Int.natCast_nonneg _
  rcases hbad with h | h | h | h | h | h | h
  · exact h hda
  · omega
  · omega
  · omega
  · exact h hd
  · exact h hs
  · exact h hctl

/-- C3 (witness): the S4 frame with DSAP 0x43 is dropped, and so is the S4
frame with length field 0x0002, while the S4 frame itself is delivered. -/
theorem bridge_bpdu_rcv_drops_invalid_frame_witness :
    bridge_bpdu_rcv [sample_bridge] 12 (frame_S4.set 14 0x43) (frame_S4.set 14 0x43).length
      = []
    ∧ bridge_bpdu_rcv [sample_bridge] 12 (frame_S4.set 13 0x02) (frame_S4.set 13 0x02).length
      = []
    ∧ bridge_bpdu_rcv [sample_bridge] 12 frame_S4 frame_S4.length
      = [EngineCall.rx_bpdu sample_port [0x11, 0x22, 0x33] 3] :=
  ⟨bridge_bpdu_rcv_drops_invalid_frame [sample_bridge] 12 (frame_S4.set 14 0x43) (by decide)
    (by decide),
   bridge_bpdu_rcv_drops_invalid_frame [sample_bridge] 12 (frame_S4.set 13 0x02) (by decide)
    (by decide),
   by decide⟩

theorem cpu_to_be16_of_lt (n : Nat) (h : n < 65536) :
    cpu_to_be16 (n : Int) = [n / 256, n % 256] := by
  unfold cpu_to_be16
  have h1 : (n : Int) % 65536 = n := Int.emod_eq_of_lt (by omega) (by omega)
  rw [h1]
  have h2 : ((n : Int) / 256).toNat = n / 256 := by omega
  have h3 : ((n : Int) % 256).toNat = n % 256 := by omega
  rw [h2, h3]

/-- C4: for every port and every BPDU payload of `n` bytes with `n + 3`
representable in 16 bits, `MSTP_OUT_tx_bpdu` sends exactly one frame, on the
port's `if_index`, of total length `17 + n`: the bridge group address, the
port's six MAC bytes, `n + 3` big-endian, `42 42 03`, then the payload. -/
theorem MSTP_OUT_tx_bpdu_frame (ifc : port_t) (bpdu : List Nat)
    (h16 : bpdu.length + 3 < 65536) :
    MSTP_OUT_tx_bpdu ifc bpdu bpdu.length
      = [{ if_index := ifc.sysdeps.if_index,
           frame := [0x01, 0x80, 0xc2, 0x00, 0x00, 0x00] ++ ifc.sysdeps.macaddr.toList
             ++ [(bpdu.length + 3) / 256, (bpdu.length + 3) % 256] ++ [0x42, 0x42, 0x03]
             ++ bpdu,
           len := 17 + (bpdu.length : Int) }]
    ∧ ([0x01, 0x80, 0xc2, 0x00, 0x00, 0x00] ++ ifc.sysdeps.macaddr.toList
        ++ [(bpdu.length + 3) / 256, (bpdu.length + 3) % 256] ++ [0x42, 0x42, 0x03]
        ++ bpdu).length = 17 + bpdu.length
    ∧ ifc.sysdeps.macaddr.toList.length = 6 := by
  refine ⟨?_, ?_, rfl⟩
  · have hb := cpu_to_be16_of_lt (bpdu.length + 3) h16
    simp only [Nat.cast_add, Nat.cast_ofNat] at hb
    simp [MSTP_OUT_tx_bpdu, llc_header_bytes, bridge_group_address, LLC_PDU_LEN_U,
      LLC_SAP_BSPAN, LLC_PDU_TYPE_U, sizeof_llc_header, hb]
  · simp [MacAddr.toList]
    omega

/-- C4 (witness): the three payload bytes of scenario S4 sent on `sample_port`
give the S4 frame. -/
theorem MSTP_OUT_tx_bpdu_frame_witness :
    MSTP_OUT_tx_bpdu sample_port [0x11, 0x22, 0x33] 3
      = [{ if_index := 12, frame := frame_S4, len := 20 }] :=
  (MSTP_OUT_tx_bpdu_frame sample_port [0x11, 0x22, 0x33] (by decide)).1

/-- The header fields `bridge_bpdu_rcv` reads back from a frame emitted by
`MSTP_OUT_tx_bpdu` for a payload of `n` bytes, `n + 3 < 65536`. -/
theorem tx_frame_fields (m : MacAddr) (bpdu : List Nat) (h16 : bpdu.length + 3 < 65536) :
    let data := llc_header_bytes m bpdu.length ++ bpdu.take (bpdu.length : Int).toNat
    data.take 6 = [0x01, 0x80, 0xc2, 0x00, 0x00, 0x00]
      ∧ len8023 data = bpdu.length + 3
      ∧ byteAt data 14 = 0x42 ∧ byteAt data 15 = 0x42 ∧ byteAt data 16 &&& 0x3 = 3
      ∧ data.drop 17 = bpdu := by
  have hb := cpu_to_be16_of_lt (bpdu.length + 3) h16
  simp only [Nat.cast_add, Nat.cast_ofNat] at hb
  simp only [llc_header_bytes, bridge_group_address, MacAddr.toList, LLC_PDU_LEN_U,
    LLC_SAP_BSPAN, LLC_PDU_TYPE_U, hb, Nat.cast_ofNat, Int.toNat_ofNat, List.take_length,
    List.cons_append, List.nil_append, List.append_assoc]
  refine ⟨rfl, ?_, rfl, rfl, (by show (3 : Nat) &&& 0x3 = 3; decide), rfl⟩
  simp only [len8023, byteAt, be16_to_cpu, List.getD_cons_succ, List.getD_cons_zero]
  omega

/-- C5 (counterexample): the frame emitted for the empty payload is not
delivered when fed back to a tracked port that is up on a bridge with
`stp_up`; neither is the frame emitted for a payload of 1498 bytes. -/
theorem bpdu_round_trip_fails_for_empty_and_oversized :
    (∀ s ∈ MSTP_OUT_tx_bpdu sample_port [] 0,
      bridge_bpdu_rcv [sample_bridge] 12 s.frame s.len = [])
    ∧ (∀ s ∈ MSTP_OUT_tx_bpdu sample_port (List.replicate 1498 0) 1498,
      bridge_bpdu_rcv [sample_bridge] 12 s.frame s.len = []) := by
  constructor
  · decide
  · intro s hs
    simp only [MSTP_OUT_tx_bpdu, List.mem_singleton] at hs
    subst hs
    rw [List.eq_nil_iff_forall_not_mem]
    intro c hc
    obtain ⟨br, ifc, -, -, -, -, -, h1500, -⟩ := bridge_bpdu_rcv_inv _ _ _ _ c hc
    have hf := (tx_frame_fields sample_port.sysdeps.macaddr (List.replicate 1498 0)
      (by rw [List.length_replicate]; omega)).2.1
    simp only [List.length_replicate, Nat.cast_ofNat] at hf
    simp only [] at h1500
    rw [hf] at h1500
    omega

/-- C5 (amended): round trip for payloads of 1 to 1497 bytes.  The frame
`MSTP_OUT_tx_bpdu` emits for such a payload (on any port), fed to
`bridge_bpdu_rcv` on a tracked port that is up on a bridge with `stp_up` set,
in a registry with unique port indices, results in exactly one
`MSTP_IN_rx_bpdu` call, whose payload is the original payload and whose length
is the original size. -/
theorem bpdu_round_trip (bridges : List bridge_t) (br : bridge_t) (rx_port tx_port : port_t)
    (bpdu : List Nat)
    (huniq : PortsUnique bridges) (hbr : br ∈ bridges) (hifc : rx_port ∈ br.ports)
    (hup : rx_port.sysdeps.up = true) (hstp : br.sysdeps.stp_up = true)
    (h1 : 1 ≤ bpdu.length) (h1497 : bpdu.length ≤ 1497) :
    ∃ s, MSTP_OUT_tx_bpdu tx_port bpdu bpdu.length = [s]
      ∧ bridge_bpdu_rcv bridges rx_port.sysdeps.if_index s.frame s.len
          = [EngineCall.rx_bpdu rx_port bpdu bpdu.length]
      ∧ rx_payload (EngineCall.rx_bpdu rx_port bpdu bpdu.length) = bpdu := by
  refine ⟨_, rfl, ?_, by simp [rx_payload]⟩
  obtain ⟨hda, hL, hd, hs, hc, hdrop⟩ :=
    tx_frame_fields tx_port.sysdeps.macaddr bpdu (by omega)
  have h := bridge_bpdu_rcv_eq_of_find bridges _ br rx_port _
    ((sizeof_llc_header : Int) + bpdu.length)
    (find_port_of_mem bridges br rx_port huniq hbr hifc) hup hstp
    (by simp only [sizeof_llc_header]; omega) (by simp only [sizeof_llc_header]; omega)
    hda (by omega) (by omega) (by simp only [sizeof_llc_header]; omega) hd hs hc
  rw [hdrop, hL] at h
  rw [h]
  congr 2
  push_cast
  omega

/-- C5 (witness): the three payload bytes of scenario S4 survive the round
trip. -/
theorem bpdu_round_trip_witness :
    ∃ s, MSTP_OUT_tx_bpdu sample_port [0x11, 0x22, 0x33] 3 = [s]
      ∧ bridge_bpdu_rcv [sample_bridge] 12 s.frame s.len
          = [EngineCall.rx_bpdu sample_port [0x11, 0x22, 0x33] 3]
      ∧ rx_payload (EngineCall.rx_bpdu sample_port [0x11, 0x22, 0x33] 3)
          = [0x11, 0x22, 0x33] :=
  bpdu_round_trip [sample_bridge] sample_bridge sample_port sample_port [0x11, 0x22, 0x33]
    (by decide) (by decide) (by decide) (by decide) (by decide) (by decide) (by decide)

/-- C6: for every frame whose length `len` is at most 17 (a frame has a
length `0 ≤ len`; this covers every length below 17 and the length 17 itself),
`bridge_bpdu_rcv` makes no engine call, hence no `MSTP_IN_rx_bpdu` call,
whatever the bytes `data` of the frame, the receiving interface and the
registry. -/
theorem bridge_bpdu_rcv_short_frame (bridges : List bridge_t) (if_index : Int)
    (data : List Nat) (len : Int) (h0 : 0 ≤ len) (h17 : len ≤ 17) :
    bridge_bpdu_rcv bridges if_index data len = [] := by
  rw [List.eq_nil_iff_forall_not_mem]
  intro c hc
  obtain ⟨br, ifc, -, -, -, hlen, -⟩ := bridge_bpdu_rcv_inv bridges if_index data len c hc
  omega

/-- C6 (witness): the 17-byte frame of headers only, received on the tracked
port 12, is not delivered. -/
theorem bridge_bpdu_rcv_short_frame_witness :
    (0 : Int) ≤ 17 ∧ (17 : Int) ≤ 17 ∧ bridge_bpdu_rcv [sample_bridge] 12 frame_17 17 = [] :=
  ⟨by decide, by decide,
    bridge_bpdu_rcv_short_frame [sample_bridge] 12 frame_17 17 (by decide) (by decide)⟩

/-- The bound `0 ≤ len` above is the one a frame length meets: the comparisons
`len > sizeof(struct llc_header)` and `l <= len - ETH_HLEN` convert `len` to
unsigned types, so a negative value of the `int` argument would pass them. -/
theorem bridge_bpdu_rcv_negative_len_delivered :
    bridge_bpdu_rcv [sample_bridge] 12 frame_S4 (-1)
      = [EngineCall.rx_bpdu sample_port [0x11, 0x22, 0x33] 3] := by
  decide

/-- C7: whenever `bridge_bpdu_rcv` makes an engine call, it is the single call
`MSTP_IN_rx_bpdu(ifc, data + 17, L − 3)` with `L` the big-endian length field
at offsets 12..13 and `L ≥ 3`; the bytes handed over are those at offsets
17 .. 14 + L − 1 of the frame; and `ifc` is a tracked port whose `if_index` is
the receive index (the only such port when port indices are unique). -/
theorem bridge_bpdu_rcv_delivers_payload (bridges : List bridge_t) (if_index : Int)
    (data : List Nat) (len : Int) (c : EngineCall)
    (hc : c ∈ bridge_bpdu_rcv bridges if_index data len) :
    ∃ br ifc, br ∈ bridges ∧ ifc ∈ br.ports ∧ ifc.sysdeps.if_index = if_index
      ∧ 3 ≤ len8023 data
      ∧ bridge_bpdu_rcv bridges if_index data len
          = [EngineCall.rx_bpdu ifc (data.drop 17) ((len8023 data : Int) - 3)]
      ∧ rx_payload c = (data.drop 17).take (len8023 data - 3)
      ∧ (PortsUnique bridges → ∀ br2 ∈ bridges, ∀ p ∈ br2.ports,
          p.sysdeps.if_index = if_index → p = ifc) := by
  obtain ⟨br, ifc, hfind, -, -, -, -, -, -, h3, -, -, -, hceq, hall⟩ :=
    bridge_bpdu_rcv_inv bridges if_index data len c hc
  obtain ⟨hbr, hifc, hidx⟩ := find_port_mem bridges if_index br ifc hfind
  refine ⟨br, ifc, hbr, hifc, hidx, h3, ?_, ?_, ?_⟩
  · rw [hall, hceq]
  · rw [hceq]
    simp only [rx_payload]
    congr 1
    omega
  · intro huniq br2 hbr2 p hp hpi
    have h := find_port_of_mem bridges br2 p huniq hbr2 hp
    rw [hpi, hfind] at h
    simp only [Option.some.injEq, Prod.mk.injEq] at h
    exact h.2.symm

/-- C7 (witness): the S4 frame. -/
theorem bridge_bpdu_rcv_delivers_payload_witness :
    ∃ br ifc, br ∈ [sample_bridge] ∧ ifc ∈ br.ports ∧ ifc.sysdeps.if_index = 12
      ∧ 3 ≤ len8023 frame_S4
      ∧ bridge_bpdu_rcv [sample_bridge] 12 frame_S4 20
          = [EngineCall.rx_bpdu ifc (frame_S4.drop 17) ((len8023 frame_S4 : Int) - 3)]
      ∧ rx_payload (EngineCall.rx_bpdu sample_port [0x11, 0x22, 0x33] 3)
          = (frame_S4.drop 17).take (len8023 frame_S4 - 3)
      ∧ (PortsUnique [sample_bridge] → ∀ br2 ∈ [sample_bridge], ∀ p ∈ br2.ports,
          p.sysdeps.if_index = 12 → p = ifc) :=
  bridge_bpdu_rcv_delivers_payload [sample_bridge] 12 frame_S4 20
    (EngineCall.rx_bpdu sample_port [0x11, 0x22, 0x33] 3) (by decide)

/-! ## Claims on `set_br_up` -/

theorem set_br_up_some (v : Int) (hwaddr : Option MacAddr) (br : bridge_t) (up : Bool) :
    set_br_up (some v) hwaddr br up = some (set_br_up_body (v == 2) hwaddr br up) := rfl

theorem set_br_up_none (hwaddr : Option MacAddr) (br : bridge_t) (up : Bool) :
    set_br_up none hwaddr br up = none := rfl

theorem set_br_up_eq_some (stp_state : Option Int) (hwaddr : Option MacAddr) (br : bridge_t)
    (up : Bool) (s : bridge_t × List EngineCall)
    (h : set_br_up stp_state hwaddr br up = some s) :
    ∃ v, stp_state = some v ∧ s = set_br_up_body (v == 2) hwaddr br up := by
  cases stp_state with
  | none => simp [set_br_up_none] at h
  | some v =>
    rw [set_br_up_some] at h
    exact ⟨v, rfl, (Option.some.inj h).symm⟩

theorem set_br_up_index (stp_up : Bool) (hwaddr : Option MacAddr) (br : bridge_t) (up : Bool) :
    (set_br_up_body stp_up hwaddr br up).1.sysdeps.if_index = br.sysdeps.if_index
      ∧ (set_br_up_body stp_up hwaddr br up).1.ports = br.ports := by
  unfold set_br_up_body
  constructor <;> rfl

theorem set_br_up_flags (stp_up : Bool) (hwaddr : Option MacAddr) (br : bridge_t) (up : Bool) :
    (set_br_up_body stp_up hwaddr br up).1.sysdeps.up = up
      ∧ (set_br_up_body stp_up hwaddr br up).1.sysdeps.stp_up = stp_up := by
  unfold set_br_up_body
  cases up <;> cases hu : br.sysdeps.up <;> cases hs : br.sysdeps.stp_up
    <;> cases stp_up <;> simp [hu, hs]

theorem set_br_up_some_index (stp_state : Option Int) (hwaddr : Option MacAddr) (br : bridge_t)
    (up : Bool) (s : bridge_t × List EngineCall)
    (h : set_br_up stp_state hwaddr br up = some s) :
    s.1.sysdeps.if_index = br.sysdeps.if_index ∧ s.1.ports = br.ports := by
  obtain ⟨v, -, rfl⟩ := set_br_up_eq_some stp_state hwaddr br up s h
  exact set_br_up_index _ _ _ _

theorem notify_refresh_br_pos (env : Env) (br : bridge_t) (h : env.br_link ≥ 0) :
    notify_refresh_br env br
      = set_br_up env.stp_state env.br_hwaddr_up br (env.br_link != 0) := by
  show (if env.br_link ≥ 0 then _ else _) = _
  rw [if_pos h]

theorem notify_refresh_br_neg (env : Env) (br : bridge_t) (h : ¬ env.br_link ≥ 0) :
    notify_refresh_br env br = some (br, []) := by
  show (if env.br_link ≥ 0 then _ else _) = _
  rw [if_neg h]

theorem notify_refresh_br_index (env : Env) (br : bridge_t) (s : bridge_t × List EngineCall)
    (h : notify_refresh_br env br = some s) :
    s.1.sysdeps.if_index = br.sysdeps.if_index ∧ s.1.ports = br.ports := by
  by_cases hb : env.br_link ≥ 0
  · rw [notify_refresh_br_pos env br hb] at h
    exact set_br_up_some_index _ _ _ _ _ h
  · rw [notify_refresh_br_neg env br hb, Option.some.injEq] at h
    subst h
    exact ⟨rfl, rfl⟩

/-- The refresh of the bridge in `bridge_notify` returns when the bridge's
link state could not be read or the sysfs file could be opened. -/
theorem notify_refresh_br_returns (env : Env) (br : bridge_t)
    (hopen : env.br_link ≥ 0 → env.stp_state ≠ none) :
    ∃ s, notify_refresh_br env br = some s := by
  by_cases hb : env.br_link ≥ 0
  · obtain ⟨v, hv⟩ := Option.ne_none_iff_exists'.mp (hopen hb)
    rw [notify_refresh_br_pos env br hb, hv, set_br_up_some]
    exact ⟨_, rfl⟩
  · exact ⟨_, notify_refresh_br_neg env br hb⟩

theorem engine_enabled_append (i : Int) (t1 t2 : List EngineCall) :
    engine_enabled i (t1 ++ t2) = t2.foldl (engine_enabled_step i) (engine_enabled i t1) := by
  simp [engine_enabled, List.foldl_append]

/-- One returning `set_br_up` call keeps the engine's enabled flag equal to
`up && stp_up`. -/
theorem set_br_up_keeps_enabled (stp_up : Bool) (hwaddr : Option MacAddr) (br : bridge_t)
    (up : Bool) (trace : List EngineCall)
    (hinv : engine_enabled br.sysdeps.if_index trace = (br.sysdeps.up && br.sysdeps.stp_up)) :
    engine_enabled br.sysdeps.if_index (trace ++ (set_br_up_body stp_up hwaddr br up).2)
      = ((set_br_up_body stp_up hwaddr br up).1.sysdeps.up
          && (set_br_up_body stp_up hwaddr br up).1.sysdeps.stp_up) := by
  rw [engine_enabled_append, hinv]
  unfold set_br_up_body
  cases up <;> cases hu : br.sysdeps.up <;> cases hs : br.sysdeps.stp_up
    <;> cases stp_up
    <;> cases hm : (check_mac_address hwaddr br.sysdeps.macaddr).1
    <;> simp [hu, hs, hm, engine_enabled_step]

theorem run_set_br_up_cons_some (v : Int) (c : BrUpCall) (rest : List BrUpCall) (br : bridge_t)
    (hv : c.stp_state = some v) :
    run_set_br_up br (c :: rest)
      = match run_set_br_up (set_br_up_body (v == 2) c.hwaddr br c.up).1 rest with
        | none => none
        | some r => some (r.1, (set_br_up_body (v == 2) c.hwaddr br c.up).2 ++ r.2) := by
  simp only [run_set_br_up, hv, set_br_up_some]

theorem run_set_br_up_cons_none (c : BrUpCall) (rest : List BrUpCall) (br : bridge_t)
    (hv : c.stp_state = none) : run_set_br_up br (c :: rest) = none := by
  simp only [run_set_br_up, hv, set_br_up_none]

/-- A sequence of `set_br_up` calls returns when every sysfs file could be
opened. -/
theorem run_set_br_up_returns (cs : List BrUpCall) :
    ∀ br : bridge_t, (∀ x ∈ cs, x.stp_state ≠ none) → ∃ r, run_set_br_up br cs = some r := by
  induction cs with
  | nil => intro br _; exact ⟨_, rfl⟩
  | cons c rest ih =>
    intro br h
    have hc := h c (List.mem_cons_self _ _)
    obtain ⟨v, hv⟩ := Option.ne_none_iff_exists'.mp hc
    obtain ⟨r, hr⟩ := ih (set_br_up_body (v == 2) c.hwaddr br c.up).1
      (fun x hx => h x (List.mem_cons_of_mem _ hx))
    rw [run_set_br_up_cons_some v c rest br hv, hr]
    exact ⟨_, rfl⟩

theorem run_set_br_up_keeps_enabled (cs : List BrUpCall) :
    ∀ (br : bridge_t) (trace : List EngineCall) (r : bridge_t × List EngineCall),
      engine_enabled br.sysdeps.if_index trace = (br.sysdeps.up && br.sysdeps.stp_up) →
      run_set_br_up br cs = some r →
      r.1.sysdeps.if_index = br.sysdeps.if_index
      ∧ engine_enabled br.sysdeps.if_index (trace ++ r.2)
        = (r.1.sysdeps.up && r.1.sysdeps.stp_up) := by
  induction cs with
  | nil =>
    intro br trace r h hr
    simp only [run_set_br_up, Option.some.injEq] at hr
    subst hr
    simpa using h
  | cons c rest ih =>
    intro br trace r h hr
    cases hv : c.stp_state with
    | none => rw [run_set_br_up_cons_none c rest br hv] at hr; exact absurd hr (by simp)
    | some v =>
      rw [run_set_br_up_cons_some v c rest br hv] at hr
      have h1 := set_br_up_keeps_enabled (v == 2) c.hwaddr br c.up trace h
      have hi := (set_br_up_index (v == 2) c.hwaddr br c.up).1
      rw [← hi] at h1
      cases hr2 : run_set_br_up (set_br_up_body (v == 2) c.hwaddr br c.up).1 rest with
      | none => rw [hr2] at hr; exact absurd hr (by simp)
      | some r2 =>
        rw [hr2] at hr
        simp only [Option.some.injEq] at hr
        subst hr
        obtain ⟨h2, h3⟩ := ih _ _ r2 h1 hr2
        rw [hi] at h2 h3
        refine ⟨h2, ?_⟩
        rw [← List.append_assoc]
        exact h3

/-- The bridge flags after a returning sequence of `set_br_up` calls are those
of its last call. -/
theorem run_set_br_up_last (cs : List BrUpCall) (c : BrUpCall) :
    ∀ (br : bridge_t) (r : bridge_t × List EngineCall),
      run_set_br_up br (cs ++ [c]) = some r →
      r.1.sysdeps.up = c.up ∧ r.1.sysdeps.stp_up = decide (c.stp_state = some 2) := by
  induction cs with
  | nil =>
    intro br r hr
    cases hv : c.stp_state with
    | none =>
      rw [List.nil_append, run_set_br_up_cons_none c [] br hv] at hr
      exact absurd hr (by simp)
    | some v =>
      rw [List.nil_append, run_set_br_up_cons_some v c [] br hv] at hr
      simp only [run_set_br_up, List.append_nil, Option.some.injEq] at hr
      subst hr
      have := set_br_up_flags (v == 2) c.hwaddr br c.up
      simpa using this
  | cons c0 rest ih =>
    intro br r hr
    cases hv : c0.stp_state with
    | none =>
      rw [List.cons_append, run_set_br_up_cons_none c0 _ br hv] at hr
      exact absurd hr (by simp)
    | some v =>
      rw [List.cons_append, run_set_br_up_cons_some v c0 _ br hv] at hr
      cases hr2 : run_set_br_up (set_br_up_body (v == 2) c0.hwaddr br c0.up).1 (rest ++ [c]) with
      | none => rw [hr2] at hr; exact absurd hr (by simp)
      | some r2 =>
        rw [hr2] at hr
        simp only [Option.some.injEq] at hr
        subst hr
        exact ih _ r2 hr2

/-- C10: for a bridge created by `create_br` and any sequence of `set_br_up`
calls on it (any `up` arguments, any MAC readings, any value read from the
sysfs `stp_state` file, the reading being 0 when the opened file holds no
number), every call returns, and after the last call (hence after
every call) the engine's enabled flag, false at creation and thereafter the
last value passed to `MSTP_IN_set_bridge_enable`, equals
`br.up && br.stp_up`, where `br.up` is the `up` argument of that call and
`br.stp_up` is `stp_state reading == 2`.  A call for which the sysfs file could
not be opened yields no reading and does not return; the hypothesis `hread`
says that each call of the sequence has a reading. -/
theorem set_br_up_engine_enabled (env : Env) (bridges bridges1 : List bridge_t)
    (if_index : Int) (pos : Nat) (br : bridge_t) (calls0 : List EngineCall)
    (cs : List BrUpCall) (c : BrUpCall)
    (hcreate : create_br env bridges if_index = (bridges1, some (pos, br), calls0))
    (hread : ∀ x ∈ cs ++ [c], x.stp_state ≠ none) :
    ∃ br1 trace, run_set_br_up br (cs ++ [c]) = some (br1, trace)
      ∧ engine_enabled if_index (calls0 ++ trace) = (br1.sysdeps.up && br1.sysdeps.stp_up)
      ∧ br1.sysdeps.up = c.up
      ∧ br1.sysdeps.stp_up = decide (c.stp_state = some 2) := by
  unfold create_br at hcreate
  by_cases h1 : env.br_calloc_ok = true
  swap
  · simp [h1] at hcreate
  by_cases h2 : env.bridge_create_ok = true
  swap
  · simp [h1, h2] at hcreate
  simp only [h1, h2, Bool.not_true, Bool.false_eq_true, if_false, Prod.mk.injEq,
    Option.some.injEq] at hcreate
  obtain ⟨-, ⟨-, hbr⟩, hcalls⟩ := hcreate
  have hidx : br.sysdeps.if_index = if_index := by rw [← hbr]
  have hinit : engine_enabled br.sysdeps.if_index calls0
      = (br.sysdeps.up && br.sysdeps.stp_up) := by
    rw [← hcalls, ← hbr]
    simp [engine_enabled, engine_enabled_step]
  obtain ⟨r, hr⟩ := run_set_br_up_returns (cs ++ [c]) br hread
  obtain ⟨-, hen⟩ := run_set_br_up_keeps_enabled (cs ++ [c]) br calls0 r hinit hr
  rw [hidx] at hen
  obtain ⟨hup, hstp⟩ := run_set_br_up_last cs c br r hr
  exact ⟨r.1, r.2, hr, hen, hup, hstp⟩

/-- C10 (witness): a bridge created for index 5, brought up without user mode
STP and then with it. -/
theorem set_br_up_engine_enabled_witness :
    ∃ br1 trace,
      run_set_br_up ⟨⟨5, ⟨2, 0, 0, 0, 0, 5⟩, false, false⟩, []⟩
          ([⟨true, some 0, none⟩] ++ [⟨true, some 2, none⟩]) = some (br1, trace)
      ∧ engine_enabled 5 ([EngineCall.bridge_create 5 ⟨2, 0, 0, 0, 0, 5⟩] ++ trace)
          = (br1.sysdeps.up && br1.sysdeps.stp_up)
      ∧ br1.sysdeps.up = true
      ∧ br1.sysdeps.stp_up = decide ((some 2 : Option Int) = some 2) :=
  set_br_up_engine_enabled sample_env []
    [⟨⟨5, ⟨2, 0, 0, 0, 0, 5⟩, false, false⟩, []⟩] 5 0
    ⟨⟨5, ⟨2, 0, 0, 0, 0, 5⟩, false, false⟩, []⟩ [EngineCall.bridge_create 5 ⟨2, 0, 0, 0, 0, 5⟩]
    [⟨true, some 0, none⟩] ⟨true, some 2, none⟩
    (by decide) (by decide)

/-! ## Lemmas on port lists -/

theorem port_indices_cons_eq (br : bridge_t) (rest : List bridge_t) :
    port_indices (br :: rest) = indices_of br ++ port_indices rest :=
  port_indices_cons br rest

theorem port_indices_nil : port_indices [] = [] := rfl

theorem port_indices_append (l1 l2 : List bridge_t) :
    port_indices (l1 ++ l2) = port_indices l1 ++ port_indices l2 := by
  simp [port_indices]

theorem find_if_eq_none_iff (br : bridge_t) (i : Int) :
    find_if br i = none ↔ i ∉ indices_of br := by
  unfold find_if indices_of
  rw [List.find?_eq_none]
  simp only [List.mem_map, not_exists, not_and, beq_iff_eq]

theorem find_if_some (br : bridge_t) (i : Int) (ifc : port_t) (h : find_if br i = some ifc) :
    ifc ∈ br.ports ∧ ifc.sysdeps.if_index = i := by
  unfold find_if at h
  exact ⟨List.mem_of_find?_eq_some h, by simpa using List.find?_some h⟩

theorem remove_if_of_not_mem (ports : List port_t) (i : Int)
    (h : i ∉ ports.map (fun ifc => ifc.sysdeps.if_index)) : remove_if ports i = ports := by
  induction ports with
  | nil => rfl
  | cons p rest ih =>
    simp only [List.map_cons, List.mem_cons, not_or] at h
    have hne : p.sysdeps.if_index ≠ i := fun he => h.1 he.symm
    simp [remove_if, hne, ih h.2]

theorem remove_if_sublist (ports : List port_t) (i : Int) :
    List.Sublist (remove_if ports i) ports := by
  induction ports with
  | nil => exact List.Sublist.refl _
  | cons p rest ih =>
    unfold remove_if
    split
    · exact List.sublist_cons_self _ _
    · exact List.Sublist.cons₂ _ ih

theorem not_mem_remove_if (ports : List port_t) (i : Int)
    (hnd : (ports.map (fun ifc => ifc.sysdeps.if_index)).Nodup) :
    i ∉ (remove_if ports i).map (fun ifc => ifc.sysdeps.if_index) := by
  induction ports with
  | nil => simp [remove_if]
  | cons p rest ih =>
    simp only [List.map_cons, List.nodup_cons] at hnd
    unfold remove_if
    split
    · rename_i he
      have he2 : p.sysdeps.if_index = i := by simpa using he
      rw [← he2]; exact hnd.1
    · rename_i he
      have he2 : ¬ p.sysdeps.if_index = i := by simpa using he
      simp only [List.map_cons, List.mem_cons, not_or]
      exact ⟨fun h => he2 h.symm, ih hnd.2⟩

theorem without_if_of_not_mem (i : Int) (br : bridge_t) (h : i ∉ indices_of br) :
    without_if i br = br := by
  unfold without_if
  rw [remove_if_of_not_mem br.ports i h]

theorem indices_of_without_if_sublist (i : Int) (br : bridge_t) :
    List.Sublist (indices_of (without_if i br)) (indices_of br) :=
  List.Sublist.map _ (remove_if_sublist br.ports i)

theorem map_without_if_of_not_mem (i : Int) (l : List bridge_t) (h : i ∉ port_indices l) :
    l.map (without_if i) = l := by
  induction l with
  | nil => rfl
  | cons b rest ih =>
    rw [port_indices_cons_eq, List.mem_append, not_or] at h
    rw [List.map_cons, without_if_of_not_mem i b h.1, ih h.2]

theorem port_indices_map_without_if_sublist (i : Int) (l : List bridge_t) :
    List.Sublist (port_indices (l.map (without_if i))) (port_indices l) := by
  induction l with
  | nil => exact List.Sublist.refl _
  | cons b rest ih =>
    rw [List.map_cons, port_indices_cons_eq, port_indices_cons_eq]
    exact List.Sublist.append (indices_of_without_if_sublist i b) ih

theorem not_mem_port_indices_map_without_if (i : Int) (l : List bridge_t)
    (hnd : (port_indices l).Nodup) : i ∉ port_indices (l.map (without_if i)) := by
  induction l with
  | nil => simp [port_indices]
  | cons b rest ih =>
    rw [port_indices_cons_eq, List.nodup_append] at hnd
    rw [List.map_cons, port_indices_cons_eq, List.mem_append, not_or]
    exact ⟨not_mem_remove_if b.ports i hnd.1, ih hnd.2.1⟩

/-- Writing a bridge at a position replaces its segment of the index list. -/
theorem port_indices_split (l : List bridge_t) (pos : Nat) (b : bridge_t)
    (h : l[pos]? = some b) :
    ∃ pre post, port_indices l = pre ++ indices_of b ++ post
      ∧ ∀ b1, port_indices (l.set pos b1) = pre ++ indices_of b1 ++ post := by
  induction l generalizing pos with
  | nil => simp at h
  | cons x rest ih =>
    cases pos with
    | zero =>
      simp only [List.getElem?_cons_zero, Option.some.injEq] at h
      subst h
      exact ⟨[], port_indices rest, by simp [port_indices_cons_eq],
        fun b1 => by simp [port_indices_cons_eq]⟩
    | succ n =>
      simp only [List.getElem?_cons_succ] at h
      obtain ⟨pre, post, h1, h2⟩ := ih n h
      refine ⟨indices_of x ++ pre, post, ?_, fun b1 => ?_⟩
      · rw [port_indices_cons_eq, h1]; simp
      · rw [List.set_cons_succ, port_indices_cons_eq, h2 b1]; simp

theorem port_indices_set_of_same (l : List bridge_t) (pos : Nat) (b b1 : bridge_t)
    (h : l[pos]? = some b) (hsame : indices_of b1 = indices_of b) :
    port_indices (l.set pos b1) = port_indices l := by
  obtain ⟨pre, post, h1, h2⟩ := port_indices_split l pos b h
  rw [h2 b1, h1, hsame]

theorem getElem?_set_self_of_some (l : List bridge_t) (pos : Nat) (b b1 : bridge_t)
    (h : l[pos]? = some b) : (l.set pos b1)[pos]? = some b1 := by
  have hlt : pos < l.length := by
    by_contra hc
    rw [List.getElem?_eq_none (by omega)] at h
    simp at h
  simp [List.getElem?_set, hlt]

/-! ## Lemmas on the registry operations -/

theorem delete_if_byindex_none (br : bridge_t) (i : Int) (h : find_if br i = none) :
    delete_if_byindex br i = none := by
  simp [delete_if_byindex, h]

theorem delete_if_byindex_some (br : bridge_t) (i : Int) (ifc : port_t)
    (h : find_if br i = some ifc) :
    delete_if_byindex br i = some (without_if i br, [EngineCall.delete_port ifc]) := by
  simp [delete_if_byindex, h, without_if]

/-- The calls the eviction loops make in a registry: one `delete_port` for the
port `find_port` resolves, if any. -/
theorem delete_first_if_eq (i : Int) (l : List bridge_t) (hnd : (port_indices l).Nodup) :
    delete_first_if i l
      = (l.map (without_if i),
         match find_port l i with
         | some (_, ifc) => [EngineCall.delete_port ifc]
         | none => []) := by
  induction l with
  | nil => rfl
  | cons b rest ih =>
    rw [port_indices_cons_eq, List.nodup_append] at hnd
    obtain ⟨hb, hrest, hdisj⟩ := hnd
    unfold delete_first_if find_port
    cases hf : find_if b i with
    | none =>
      rw [delete_if_byindex_none b i hf]
      simp only [ih hrest, List.map_cons]
      rw [without_if_of_not_mem i b ((find_if_eq_none_iff b i).mp hf)]
    | some ifc =>
      rw [delete_if_byindex_some b i ifc hf]
      have hin : i ∈ indices_of b := by
        by_contra hc
        rw [(find_if_eq_none_iff b i).mpr hc] at hf
        simp at hf
      have hnot : i ∉ port_indices rest := fun hc => hdisj hin hc
      simp only [List.map_cons, map_without_if_of_not_mem i rest hnot]

theorem find_port_none_of_not_mem (l : List bridge_t) (i : Int) (h : i ∉ port_indices l) :
    find_port l i = none := by
  induction l with
  | nil => rfl
  | cons b rest ih =>
    rw [port_indices_cons_eq, List.mem_append, not_or] at h
    unfold find_port
    rw [(find_if_eq_none_iff b i).mpr h.1]
    exact ih h.2

/-- In a registry with unique port indices, when the bridge at `pos` has no
port `i`, the loop over the other bridges unlinks port `i` wherever it is and
makes one `delete_port` call for it if it exists. -/
theorem delete_from_others_eq (pos : Nat) (i : Int) (l : List bridge_t) (k : Nat)
    (hnd : (port_indices l).Nodup)
    (hskip : ∀ j b, l[j]? = some b → k + j = pos → i ∉ indices_of b) :
    delete_from_others pos i k l
      = (l.map (without_if i),
         match find_port l i with
         | some (_, ifc) => [EngineCall.delete_port ifc]
         | none => []) := by
  induction l generalizing k with
  | nil => rfl
  | cons b rest ih =>
    rw [port_indices_cons_eq, List.nodup_append] at hnd
    obtain ⟨hb, hrest, hdisj⟩ := hnd
    have hrec := ih (k + 1) hrest (fun j b1 hj hk =>
      hskip (j + 1) b1 (by simpa using hj) (by omega))
    unfold delete_from_others find_port
    by_cases hk : k = pos
    · have hnone := hskip 0 b (by simp) (by omega)
      rw [if_neg (by simpa using hk), (find_if_eq_none_iff b i).mpr hnone, hrec]
      simp only [List.map_cons, without_if_of_not_mem i b hnone]
    · rw [if_pos hk]
      cases hf : find_if b i with
      | none =>
        rw [delete_if_byindex_none b i hf]
        simp only [hrec, List.map_cons]
        rw [without_if_of_not_mem i b ((find_if_eq_none_iff b i).mp hf)]
      | some ifc =>
        rw [delete_if_byindex_some b i ifc hf]
        have hin : i ∈ indices_of b := by
          by_contra hc
          rw [(find_if_eq_none_iff b i).mpr hc] at hf
          simp at hf
        have hnot : i ∉ port_indices rest := fun hc => hdisj hin hc
        simp only [List.map_cons, map_without_if_of_not_mem i rest hnot]

theorem find_br_some (l : List bridge_t) (i : Int) (pos : Nat) (br : bridge_t)
    (h : find_br l i = some (pos, br)) : l[pos]? = some br ∧ br.sysdeps.if_index = i := by
  induction l generalizing pos with
  | nil => simp [find_br] at h
  | cons b rest ih =>
    unfold find_br at h
    by_cases hb : b.sysdeps.if_index = i
    · simp only [hb, beq_self_eq_true, if_true, Option.some.injEq, Prod.mk.injEq] at h
      obtain ⟨rfl, rfl⟩ := h
      exact ⟨by simp, hb⟩
    · have hb2 : (b.sysdeps.if_index == i) = false := by simpa using hb
      simp only [hb2, Bool.false_eq_true, if_false, Option.map_eq_some'] at h
      obtain ⟨⟨n, b1⟩, h1, h2⟩ := h
      simp only [Prod.mk.injEq] at h2
      obtain ⟨rfl, rfl⟩ := h2
      obtain ⟨h3, h4⟩ := ih n h1
      exact ⟨by simpa using h3, h4⟩

/-- What `create_br` returns: either nothing changes and no node is obtained,
or a bridge without ports, down, is appended. -/
theorem create_br_cases (env : Env) (l : List bridge_t) (i : Int) :
    (∃ calls, create_br env l i = (l, none, calls))
    ∨ (∃ br calls, create_br env l i = (l ++ [br], some (l.length, br), calls)
        ∧ br.ports = [] ∧ br.sysdeps.if_index = i
        ∧ br.sysdeps.up = false ∧ br.sysdeps.stp_up = false) := by
  unfold create_br
  by_cases h1 : env.br_calloc_ok = true
  swap
  · left; exact ⟨[], by simp [h1]⟩
  by_cases h2 : env.bridge_create_ok = true
  swap
  · left; exact ⟨_, by simp [h1, h2]; rfl⟩
  right
  exact ⟨_, _, by simp [h1, h2]; exact ⟨rfl, rfl⟩, rfl, rfl, rfl, rfl⟩

/-- The node `find_or_create_br` yields sits at its position in the registry
returned, which has the same port indices as before and the old registry as a
prefix. -/
theorem find_or_create_br_some (env : Env) (l l1 : List bridge_t) (i : Int) (pos : Nat)
    (br : bridge_t) (calls : List EngineCall)
    (h : find_or_create_br env l i = (l1, some (pos, br), calls)) :
    l1[pos]? = some br ∧ port_indices l1 = port_indices l ∧ br.sysdeps.if_index = i
      ∧ ((l1 = l ∧ find_br l i = some (pos, br) ∧ calls = [])
          ∨ (l1 = l ++ [br] ∧ pos = l.length ∧ br.ports = [] ∧ find_br l i = none)) := by
  unfold find_or_create_br at h
  cases hf : find_br l i with
  | some r =>
    rw [hf] at h
    simp only [Prod.mk.injEq, Option.some.injEq] at h
    obtain ⟨rfl, rfl, rfl⟩ := h
    obtain ⟨h1, h2⟩ := find_br_some l i pos br hf
    exact ⟨h1, rfl, h2, Or.inl ⟨rfl, rfl, rfl⟩⟩
  | none =>
    rw [hf] at h
    simp only [] at h
    rcases create_br_cases env l i with ⟨c, hc⟩ | ⟨b, c, hc, hp, hi, -, -⟩
    · rw [hc] at h; simp at h
    · rw [hc] at h
      simp only [Prod.mk.injEq, Option.some.injEq] at h
      obtain ⟨rfl, ⟨rfl, rfl⟩, rfl⟩ := h
      refine ⟨by simp, ?_, hi, Or.inr ⟨rfl, rfl, hp, rfl⟩⟩
      rw [port_indices_append, port_indices_cons_eq]
      simp [indices_of, hp, port_indices_nil]

theorem set_if_up_index (h1 h2 : Option MacAddr) (r speed duplex : Int) (br : bridge_t)
    (ifc : port_t) (up : Bool) :
    (set_if_up h1 h2 r speed duplex br ifc up).2.1.sysdeps.if_index = ifc.sysdeps.if_index
      ∧ (set_if_up h1 h2 r speed duplex br ifc up).2.1.port_number = ifc.port_number
      ∧ (set_if_up h1 h2 r speed duplex br ifc up).1.ports = br.ports
      ∧ (set_if_up h1 h2 r speed duplex br ifc up).1.sysdeps.if_index
          = br.sysdeps.if_index := by
  exact ⟨rfl, rfl, rfl, rfl⟩

theorem store_if_indices (ports : List port_t) (i : Int) (ifc : port_t)
    (h : ifc.sysdeps.if_index = i) :
    (store_if ports i ifc).map (fun p => p.sysdeps.if_index)
      = ports.map (fun p => p.sysdeps.if_index) := by
  induction ports with
  | nil => rfl
  | cons p rest ih =>
    unfold store_if
    split
    · rename_i he
      have he2 : p.sysdeps.if_index = i := by simpa using he
      simp [h, he2]
    · simp [ih]

theorem store_if_append_of_not_mem (ports : List port_t) (i : Int) (old ifc : port_t)
    (hnot : i ∉ ports.map (fun p => p.sysdeps.if_index)) (hold : old.sysdeps.if_index = i) :
    store_if (ports ++ [old]) i ifc = ports ++ [ifc] := by
  induction ports with
  | nil => simp [store_if, hold]
  | cons p rest ih =>
    simp only [List.map_cons, List.mem_cons, not_or] at hnot
    have hne : ¬ p.sysdeps.if_index = i := fun he => hnot.1 he.symm
    simp [store_if, hne, ih hnot.2]

theorem notify_set_if_up_indices (env : Env) (br : bridge_t) (ifc : port_t) (up : Bool) :
    indices_of (notify_set_if_up env br ifc up).1 = indices_of br
      ∧ (notify_set_if_up env br ifc up).1.sysdeps.if_index = br.sysdeps.if_index := by
  unfold notify_set_if_up indices_of
  obtain ⟨h1, -, h3, h4⟩ := set_if_up_index env.if_hwaddr_up env.br_hwaddr_if env.ethtool_r
    env.ethtool_speed env.ethtool_duplex br ifc up
  simp only []
  rw [store_if_indices _ _ _ h1, h3]
  exact ⟨rfl, h4⟩

/-- What `create_if` returns on success: the bridge with a new port of this
index linked at the tail. -/
theorem create_if_some (m : Int) (env : Env) (br br1 : bridge_t) (i : Int) (ifc : port_t)
    (calls : List EngineCall) (h : create_if m env br i = (some (br1, ifc), calls)) :
    br1 = port_add_tail br ifc ∧ ifc.sysdeps.if_index = i
      ∧ calls = [EngineCall.port_create_and_add_tail br.sysdeps.if_index ifc env.portno]
      ∧ 0 < env.portno ∧ env.portno ≤ m ∧ ifc.port_number = env.portno := by
  unfold create_if at h
  by_cases h1 : env.if_calloc_ok = true
  swap
  · simp [h1] at h
  by_cases h2 : 0 > env.portno
  · simp [h1, h2] at h
  by_cases h3 : (env.portno == 0 || decide (env.portno > m)) = true
  · simp only [h1, h2, h3, Bool.not_true, Bool.false_eq_true, if_false, if_true] at h
    simp at h
  by_cases h4 : env.port_create_ok = true
  swap
  · simp only [h1, h2, h3, h4, Bool.not_true, Bool.false_eq_true, if_false, Bool.not_false,
      if_true] at h
    simp at h
  simp only [h1, h2, h3, h4, Bool.not_true, Bool.false_eq_true, if_false, Prod.mk.injEq,
    Option.some.injEq] at h
  obtain ⟨⟨rfl, rfl⟩, rfl⟩ := h
  simp only [Bool.or_eq_true, beq_iff_eq, decide_eq_true_eq, not_or, not_lt] at h3
  refine ⟨rfl, rfl, rfl, ?_, by omega, rfl⟩
  omega

/-- The branch `if(br)` of `bridge_notify` preserves uniqueness of port
indices. -/
theorem notify_slave_unique (m : Int) (env : Env) (l : List bridge_t) (pos : Nat)
    (br : bridge_t) (calls : List EngineCall) (i : Int) (newlink up : Bool)
    (hpos : l[pos]? = some br) (hnd : PortsUnique l) :
    PortsUnique (notify_slave m env l pos br calls i newlink up).bridges := by
  unfold PortsUnique at hnd ⊢
  unfold notify_slave
  obtain ⟨pre, post, hsplit, hset⟩ := port_indices_split l pos br hpos
  cases hf : find_if br i with
  | some ifc =>
    simp only []
    cases newlink with
    | false =>
      simp only [Bool.not_false, if_true]
      rw [hset]
      rw [hsplit] at hnd
      refine List.Nodup.sublist ?_ hnd
      exact List.Sublist.append (List.Sublist.append (List.Sublist.refl _)
        (indices_of_without_if_sublist i br)) (List.Sublist.refl _)
    | true =>
      simp only [Bool.not_true, Bool.false_eq_true, if_false]
      rw [port_indices_set_of_same l pos br _ hpos (notify_set_if_up_indices env br ifc up).1]
      exact hnd
  | none =>
    simp only []
    have hnone : i ∉ indices_of br := (find_if_eq_none_iff br i).mp hf
    cases newlink with
    | false => simpa using hnd
    | true =>
      simp only [Bool.not_true, Bool.false_eq_true, if_false]
      have hd := delete_from_others_eq pos i l 0 hnd (fun j b hj hk => by
        have : j = pos := by omega
        subst this
        rw [hpos] at hj
        simp only [Option.some.injEq] at hj
        subst hj
        exact hnone)
      rw [hd]
      simp only []
      have hsub := port_indices_map_without_if_sublist i l
      have hnd1 : (port_indices (l.map (without_if i))).Nodup := List.Nodup.sublist hsub hnd
      have hnot1 : i ∉ port_indices (l.map (without_if i)) :=
        not_mem_port_indices_map_without_if i l hnd
      cases hc : create_if m env br i with
      | mk res calls1 =>
        cases res with
        | none => simpa using hnd1
        | some r =>
          obtain ⟨br1, ifc⟩ := r
          simp only []
          obtain ⟨hbr1, hidx, -⟩ := create_if_some m env br br1 i ifc calls1 hc
          have hpos1 : (l.map (without_if i))[pos]? = some br := by
            rw [List.getElem?_map, hpos]
            simp [without_if_of_not_mem i br hnone]
          obtain ⟨pre1, post1, hsplit1, hset1⟩ :=
            port_indices_split (l.map (without_if i)) pos br hpos1
          rw [hset1, (notify_set_if_up_indices env br1 ifc up).1]
          have hind : indices_of br1 = indices_of br ++ [i] := by
            rw [hbr1]; simp [indices_of, port_add_tail, hidx]
          rw [hind]
          rw [hsplit1] at hnd1 hnot1
          rw [List.nodup_iff_count_le_one] at hnd1 ⊢
          intro a
          have ha := hnd1 a
          have hi0 := List.count_eq_zero.mpr hnot1
          simp only [List.count_append, List.count_cons, List.count_nil] at ha hi0 ⊢
          by_cases hai : i = a
          · subst hai
            simp only [beq_self_eq_true, if_true]
            omega
          · have : (i == a) = false := by simpa using hai
            simp only [this, Bool.false_eq_true, if_false]
            omega

theorem port_indices_remove_br_sublist (l : List bridge_t) (i : Int) :
    List.Sublist (port_indices (remove_br l i)) (port_indices l) := by
  induction l with
  | nil => exact List.Sublist.refl _
  | cons b rest ih =>
    unfold remove_br
    split
    · rw [port_indices_cons_eq]
      exact List.sublist_append_right _ _
    · rw [port_indices_cons_eq, port_indices_cons_eq]
      exact List.Sublist.append (List.Sublist.refl _) ih

/-- One call of `bridge_notify` preserves uniqueness of port indices, whatever
the outcomes of the environment. -/
theorem bridge_notify_unique (m : Int) (env : Env) (l : List bridge_t)
    (br_index if_index : Int) (newlink up : Bool) (hnd : PortsUnique l) :
    PortsUnique (bridge_notify m env l br_index if_index newlink up).bridges := by
  unfold bridge_notify
  split
  · -- slave event
    cases hfc : find_or_create_br env l br_index with
    | mk l1 rest =>
      obtain ⟨node, calls0⟩ := rest
      cases node with
      | none => exact hnd
      | some nb =>
        obtain ⟨pos, br⟩ := nb
        simp only []
        obtain ⟨hpos, hind, -, -⟩ := find_or_create_br_some env l l1 br_index pos br calls0 hfc
        cases hs : notify_refresh_br env br with
        | none =>
          simp only []
          unfold PortsUnique at hnd ⊢
          rw [hind]
          exact hnd
        | some s =>
          simp only []
          apply notify_slave_unique
          · exact getElem?_set_self_of_some l1 pos br _ hpos
          · unfold PortsUnique at hnd ⊢
            rw [port_indices_set_of_same l1 pos br _ hpos, hind]
            · exact hnd
            · unfold indices_of
              rw [(notify_refresh_br_index env br s hs).2]
  · split
    · -- DELLINK of a non-slave
      unfold delete_br_byindex
      cases hf : find_br l if_index with
      | some r =>
        simp only []
        exact List.Nodup.sublist (port_indices_remove_br_sublist l if_index) hnd
      | none =>
        simp only []
        rw [delete_first_if_eq if_index l hnd]
        exact List.Nodup.sublist (port_indices_map_without_if_sublist if_index l) hnd
    · split
      · -- NEWLINK of a bridge master
        cases hfc : find_or_create_br env l br_index with
        | mk l1 rest =>
          obtain ⟨node, calls0⟩ := rest
          cases node with
          | none => exact hnd
          | some nb =>
            obtain ⟨pos, br⟩ := nb
            simp only []
            obtain ⟨hpos, hind, -, -⟩ :=
              find_or_create_br_some env l l1 br_index pos br calls0 hfc
            cases hs : set_br_up env.stp_state env.br_hwaddr_up br up with
            | none =>
              simp only []
              unfold PortsUnique at hnd ⊢
              rw [hind]
              exact hnd
            | some s =>
              simp only []
              unfold PortsUnique at hnd ⊢
              rw [port_indices_set_of_same l1 pos br _ hpos, hind]
              · exact hnd
              · unfold indices_of
                rw [(set_br_up_some_index _ _ _ _ s hs).2]
      · exact hnd

theorem run_notifications_unique (m : Int) (ns : List Notification) :
    ∀ l : List bridge_t, PortsUnique l → PortsUnique (run_notifications m l ns) := by
  induction ns with
  | nil => intro l h; exact h
  | cons n rest ih =>
    intro l h
    have h1 := bridge_notify_unique m n.env l n.br_index n.if_index n.newlink n.up h
    unfold run_notifications
    simp only []
    split
    · exact h1
    · exact ih _ h1

/-! ## Claims on `bridge_notify` -/

/-- C1: from any registry in which each port `if_index` occurs at most once
among all port lists, after every call of any finite sequence of
`bridge_notify` calls, with arbitrary outcomes of the OS helpers and of the
engine's create calls, each `if_index` still occurs in at most one port list
and at most once in it. -/
theorem bridge_notify_ports_unique (max_port_number : Int) (bridges : List bridge_t)
    (ns : List Notification) (k : Nat) (hinit : PortsUnique bridges) :
    PortsUnique (run_notifications max_port_number bridges (ns.take k)) :=
  run_notifications_unique max_port_number (ns.take k) bridges hinit

/-- C1 (witness): from the empty registry, a port 12 appears under bridge 5,
bridge 6 appears, and port 12 is then reported under bridge 6; port 12 is
tracked once, under bridge 6. -/
theorem bridge_notify_ports_unique_witness :
    PortsUnique []
      ∧ PortsUnique (run_notifications 4095 [] (sample_notifications.take 3))
      ∧ (run_notifications 4095 [] (sample_notifications.take 3)).map
          (fun br => (br.sysdeps.if_index, indices_of br)) = [(5, []), (6, [12])] :=
  ⟨by decide, bridge_notify_ports_unique 4095 [] sample_notifications 3 (by decide),
   by decide⟩

theorem registry_shape_set_of_same (l : List bridge_t) (pos : Nat) (b b1 : bridge_t)
    (h : l[pos]? = some b) (hi : b1.sysdeps.if_index = b.sysdeps.if_index)
    (hp : b1.ports = b.ports) : registry_shape (l.set pos b1) = registry_shape l := by
  unfold registry_shape
  induction l generalizing pos with
  | nil => simp
  | cons x rest ih =>
    cases pos with
    | zero =>
      simp only [List.getElem?_cons_zero, Option.some.injEq] at h
      subst h
      simp [hi, hp]
    | succ n =>
      simp only [List.getElem?_cons_succ] at h
      simp only [List.set_cons_succ, List.map_cons, ih n h]

theorem mem_ite_singleton {p : Prop} [Decidable p] {x c : EngineCall}
    (h : c ∈ (if p then [x] else [])) : c = x := by
  split at h
  · simpa using h
  · simp at h

theorem set_br_up_calls (stp_up : Bool) (hwaddr : Option MacAddr) (br : bridge_t)
    (up : Bool) :
    ∀ c ∈ (set_br_up_body stp_up hwaddr br up).2,
      is_bridge_refresh_call br.sysdeps.if_index c := by
  intro c hc
  unfold set_br_up_body at hc
  simp only [List.mem_append] at hc
  rcases hc with hc | hc
  · have := mem_ite_singleton hc; subst this; rfl
  · have := mem_ite_singleton hc; subst this; rfl

theorem notify_refresh_br_calls (env : Env) (br : bridge_t) (s : bridge_t × List EngineCall)
    (h : notify_refresh_br env br = some s) :
    ∀ c ∈ s.2, is_bridge_refresh_call br.sysdeps.if_index c := by
  by_cases hb : env.br_link ≥ 0
  · rw [notify_refresh_br_pos env br hb] at h
    obtain ⟨v, -, rfl⟩ := set_br_up_eq_some _ _ _ _ s h
    exact set_br_up_calls _ _ _ _
  · rw [notify_refresh_br_neg env br hb, Option.some.injEq] at h
    subst h
    intro c hc
    simp at hc

theorem find_or_create_br_calls (env : Env) (l : List bridge_t) (i : Int) :
    ∀ c ∈ (find_or_create_br env l i).2.2, is_bridge_refresh_call i c := by
  intro c hc
  unfold find_or_create_br at hc
  cases hf : find_br l i with
  | some r => rw [hf] at hc; simp at hc
  | none =>
    rw [hf] at hc
    simp only [create_br] at hc
    split at hc
    · simp at hc
    · split at hc
      · simp only [List.mem_singleton] at hc; subst hc; rfl
      · simp only [List.mem_singleton] at hc; subst hc; rfl

/-- C8 (counterexample): a slave DELLINK for bridge 7 and the never seen port
99 returns −1 but changes the registry: on the empty registry it creates
bridge 7, and on a registry holding bridge 7 (down, no ports) it rewrites the
status fields of bridge 7.  And when the sysfs `stp_state` file of bridge 7
cannot be opened, the call does not return at all. -/
theorem bridge_notify_unknown_dellink_changes_registry :
    ((bridge_notify 4095 sample_env [] 7 99 false false).ret = some (-1)
      ∧ (bridge_notify 4095 sample_env [] 7 99 false false).bridges ≠ []
      ∧ ((bridge_notify 4095 sample_env [] 7 99 false false).bridges.map
          (fun br => br.sysdeps.if_index)) = [7])
    ∧ (find_if sample_bridge_7 99 = none
      ∧ (bridge_notify 4095 sample_env [sample_bridge_7] 7 99 false false).ret = some (-1)
      ∧ (bridge_notify 4095 sample_env [sample_bridge_7] 7 99 false false).bridges
          = [{ sample_bridge_7 with
                sysdeps := { sample_bridge_7.sysdeps with up := true, stp_up := true } }]
      ∧ (bridge_notify 4095 sample_env [sample_bridge_7] 7 99 false false).bridges
          ≠ [sample_bridge_7])
    ∧ (bridge_notify 4095 sample_env_no_sysfs [sample_bridge_7] 7 99 false false).ret = none := by
  decide

/-- C8 (amended): for every registry and every slave DELLINK notification
(`br_index ≥ 0`, `br_index ≠ if_index`, `newlink = false`) in which no port
with `if_index` is tracked under bridge `br_index`, and in which the sysfs
`stp_state` file can be opened if `set_br_up` is run (`hopen`: it is run when
the link state of the bridge could be read, `br_link ≥ 0`), `bridge_notify`
returns −1 and changes no port list: the bridges tracked before keep their
place, index and ports, and every bridge with another index is untouched.  The
only changes are that bridge `br_index` is created, without ports, at the tail
when it was not tracked and the engine accepted it, and that `set_br_up`
rewrites the status fields of bridge `br_index`; the only engine calls are
`MSTP_IN_bridge_create`, `MSTP_IN_set_bridge_address` and
`MSTP_IN_set_bridge_enable` for bridge `br_index`. -/
theorem bridge_notify_unknown_dellink (max_port_number : Int) (env : Env)
    (bridges : List bridge_t) (br_index if_index : Int) (up : Bool)
    (h0 : 0 ≤ br_index) (hne : br_index ≠ if_index)
    (hnone : ∀ br ∈ bridges, br.sysdeps.if_index = br_index → find_if br if_index = none)
    (hopen : env.br_link ≥ 0 → env.stp_state ≠ none) :
    (bridge_notify max_port_number env bridges br_index if_index false up).ret = some (-1)
      ∧ (registry_shape
            (bridge_notify max_port_number env bridges br_index if_index false up).bridges
          = registry_shape bridges
        ∨ (find_br bridges br_index = none
            ∧ registry_shape
                (bridge_notify max_port_number env bridges br_index if_index false up).bridges
              = registry_shape bridges ++ [(br_index, [])]))
      ∧ (∀ (j : Nat) (b : bridge_t), bridges[j]? = some b → b.sysdeps.if_index ≠ br_index →
          (bridge_notify max_port_number env bridges br_index if_index false up).bridges[j]?
            = some b)
      ∧ (∀ c ∈ (bridge_notify max_port_number env bridges br_index if_index false up).calls,
          is_bridge_refresh_call br_index c) := by
  have hno : ∀ pos br, find_br bridges br_index = some (pos, br) →
      find_if br if_index = none := by
    intro pos br hf
    obtain ⟨h1, h2⟩ := find_br_some bridges br_index pos br hf
    exact hnone br (List.getElem?_mem h1) h2
  unfold bridge_notify
  rw [if_pos ⟨h0, hne⟩]
  have hcalls0 := find_or_create_br_calls env bridges br_index
  cases hfc : find_or_create_br env bridges br_index with
  | mk l1 rest =>
    obtain ⟨node, calls0⟩ := rest
    rw [hfc] at hcalls0
    simp only [] at hcalls0
    cases node with
    | none =>
      exact ⟨rfl, Or.inl rfl, fun j b hj _ => hj, hcalls0⟩
    | some nb =>
      obtain ⟨pos, br⟩ := nb
      simp only []
      obtain ⟨hpos, -, hidx, hcase⟩ :=
        find_or_create_br_some env bridges l1 br_index pos br calls0 hfc
      -- the bridge after the optional `set_br_up`
      obtain ⟨s, hs⟩ := notify_refresh_br_returns env br hopen
      rw [hs]
      simp only []
      have hsi := notify_refresh_br_index env br s hs
      have hsc : ∀ c ∈ s.2, is_bridge_refresh_call br_index c := by
        rw [← hidx]; exact notify_refresh_br_calls env br s hs
      have hbrnone : find_if br if_index = none := by
        rcases hcase with ⟨-, hf, -⟩ | ⟨-, -, hp, -⟩
        · exact hno pos br hf
        · simp [find_if, hp]
      have hsnone : find_if s.1 if_index = none := by
        unfold find_if at hbrnone ⊢
        rw [hsi.2]; exact hbrnone
      unfold notify_slave
      rw [hsnone]
      simp only [Bool.not_false, if_true]
      have hshape := registry_shape_set_of_same l1 pos br s.1 hpos hsi.1 hsi.2
      refine ⟨trivial, ?_, ?_, ?_⟩
      · rw [hshape]
        rcases hcase with ⟨h1, -, -⟩ | ⟨h1, -, hp, hf⟩
        · left; rw [h1]
        · right
          refine ⟨hf, ?_⟩
          rw [h1]
          simp [registry_shape, hidx, hp]
      · intro j b hj hb
        have hjl1 : l1[j]? = some b := by
          rcases hcase with ⟨h1, -, -⟩ | ⟨h1, -, -, -⟩
          · rw [h1]; exact hj
          · rw [h1]
            have hlt : j < bridges.length := by
              by_contra hc
              rw [List.getElem?_eq_none (by omega)] at hj
              simp at hj
            rw [List.getElem?_append_left hlt]; exact hj
        have hjpos : pos ≠ j := by
          intro he
          subst he
          rw [hpos] at hjl1
          simp only [Option.some.injEq] at hjl1
          subst hjl1
          exact hb hidx
        rw [List.getElem?_set_ne hjpos]
        exact hjl1
      · intro c hc
        rcases List.mem_append.mp hc with h | h
        · exact hcalls0 c h
        · exact hsc c h

/-- C8 (witness): scenario S3 on a registry that tracks bridge 7 without
ports. -/
theorem bridge_notify_unknown_dellink_witness :
    (bridge_notify 4095 sample_env [sample_bridge_7] 7 99 false false).ret = some (-1)
      ∧ (registry_shape
            (bridge_notify 4095 sample_env [sample_bridge_7] 7 99 false false).bridges
          = registry_shape [sample_bridge_7]
        ∨ (find_br [sample_bridge_7] 7 = none
            ∧ registry_shape
                (bridge_notify 4095 sample_env [sample_bridge_7] 7 99 false false).bridges
              = registry_shape [sample_bridge_7] ++ [(7, [])]))
      ∧ (∀ (j : Nat) (b : bridge_t), [sample_bridge_7][j]? = some b → b.sysdeps.if_index ≠ 7 →
          (bridge_notify 4095 sample_env [sample_bridge_7] 7 99 false false).bridges[j]?
            = some b)
      ∧ (∀ c ∈ (bridge_notify 4095 sample_env [sample_bridge_7] 7 99 false false).calls,
          is_bridge_refresh_call 7 c) :=
  bridge_notify_unknown_dellink 4095 sample_env [sample_bridge_7] 7 99 false (by decide)
    (by decide) (by decide) (by decide)

theorem find_br_of_unique (l : List bridge_t) (pos : Nat) (b : bridge_t)
    (hu : BridgesUnique l) (h : l[pos]? = some b) :
    find_br l b.sysdeps.if_index = some (pos, b) := by
  unfold BridgesUnique at hu
  induction l generalizing pos with
  | nil => simp at h
  | cons x rest ih =>
    simp only [List.map_cons, List.nodup_cons] at hu
    cases pos with
    | zero =>
      simp only [List.getElem?_cons_zero, Option.some.injEq] at h
      subst h
      simp [find_br]
    | succ n =>
      simp only [List.getElem?_cons_succ] at h
      have hne : ¬ x.sysdeps.if_index = b.sysdeps.if_index := by
        intro he
        apply hu.1
        rw [he]
        exact List.mem_map_of_mem _ (List.getElem?_mem h)
      simp [find_br, hne, ih n hu.2 h]

theorem mem_port_indices_of_getElem? (l : List bridge_t) (j : Nat) (b : bridge_t) (p : Int)
    (h : l[j]? = some b) (hp : p ∈ indices_of b) : p ∈ port_indices l := by
  obtain ⟨pre, post, h1, -⟩ := port_indices_split l j b h
  rw [h1]
  simp [hp]

/-- With unique port indices, a port index is found under one position only. -/
theorem position_unique_of_mem (l : List bridge_t) (a j : Nat) (A b : bridge_t) (p : Int)
    (hu : PortsUnique l) (hA : l[a]? = some A) (hpA : p ∈ indices_of A)
    (hb : l[j]? = some b) (hpb : p ∈ indices_of b) : j = a := by
  unfold PortsUnique at hu
  induction l generalizing a j with
  | nil => simp at hA
  | cons x rest ih =>
    rw [port_indices_cons_eq, List.nodup_append] at hu
    obtain ⟨-, hrest, hdisj⟩ := hu
    cases a with
    | zero =>
      cases j with
      | zero => rfl
      | succ n =>
        simp only [List.getElem?_cons_zero, Option.some.injEq] at hA
        simp only [List.getElem?_cons_succ] at hb
        subst hA
        exact absurd (mem_port_indices_of_getElem? rest n b p hb hpb) (fun h => hdisj hpA h)
    | succ k =>
      simp only [List.getElem?_cons_succ] at hA
      cases j with
      | zero =>
        simp only [List.getElem?_cons_zero, Option.some.injEq] at hb
        subst hb
        exact absurd (mem_port_indices_of_getElem? rest k A p hA hpA) (fun h => hdisj hpb h)
      | succ n =>
        simp only [List.getElem?_cons_succ] at hb
        rw [ih k n hrest hA hb]

/-- What `create_if` returns when every step succeeds. -/
theorem create_if_ok (m : Int) (env : Env) (br : bridge_t) (i : Int)
    (hcalloc : env.if_calloc_ok = true) (hpn0 : 0 < env.portno) (hpn : env.portno ≤ m)
    (hok : env.port_create_ok = true) :
    ∃ ifc, create_if m env br i
        = (some (port_add_tail br ifc, ifc),
           [EngineCall.port_create_and_add_tail br.sysdeps.if_index ifc env.portno])
      ∧ ifc.sysdeps.if_index = i := by
  unfold create_if
  have h2 : ¬ (0 > env.portno) := by omega
  have h3 : (env.portno == 0 || decide (env.portno > m)) = false := by
    simp only [Bool.or_eq_false_iff, beq_eq_false_iff_ne, ne_eq, decide_eq_false_iff_not, not_lt]
    exact ⟨by omega, hpn⟩
  simp only [hcalloc, h2, h3, hok, Bool.not_true, Bool.false_eq_true, if_false]
  exact ⟨_, rfl, rfl⟩

theorem notify_set_if_up_tail (env : Env) (br : bridge_t) (ifc : port_t) (up : Bool)
    (hnot : ifc.sysdeps.if_index ∉ indices_of br) :
    ∃ ifc1, (notify_set_if_up env (port_add_tail br ifc) ifc up).1.ports = br.ports ++ [ifc1]
      ∧ ifc1.sysdeps.if_index = ifc.sysdeps.if_index
      ∧ (notify_set_if_up env (port_add_tail br ifc) ifc up).1.sysdeps.if_index
          = br.sysdeps.if_index := by
  refine ⟨(set_if_up env.if_hwaddr_up env.br_hwaddr_if env.ethtool_r env.ethtool_speed
    env.ethtool_duplex (port_add_tail br ifc) ifc up).2.1, ?_, rfl, rfl⟩
  unfold notify_set_if_up
  simp only []
  rw [(set_if_up_index _ _ _ _ _ _ _ _).2.2.1]
  exact store_if_append_of_not_mem br.ports _ ifc _ hnot rfl

/-- C9: port move.  In a registry with unique bridge and port indices, let
bridge `A` (at position `a`) have the port `old` with index `p`, and let the
tracked bridge `B` (at position `pos`) have no port `p`.  A slave NEWLINK
`bridge_notify(B, p, true, up)` for which port creation succeeds returns 0,
keeps the same bridges, leaves `A` without port `p` and otherwise unchanged,
leaves `B` with its former ports followed by a new port `p`, leaves every other
bridge unchanged, and calls `MSTP_IN_delete_port` for `old` immediately before
`MSTP_IN_port_create_and_add_tail` for the new port.  Port creation succeeds
when the call reaches `create_if` (`hopen`: the `set_br_up` before it returns,
that is, the link state of `B` could not be read or the sysfs `stp_state` file
could be opened) and `create_if` succeeds (`hcalloc`, `hpn0`, `hpn`, `hok`). -/
theorem bridge_notify_port_move (max_port_number : Int) (env : Env) (bridges : List bridge_t)
    (a pos : Nat) (A B : bridge_t) (old : port_t) (p : Int) (up : Bool)
    (hports : PortsUnique bridges) (hbridges : BridgesUnique bridges)
    (hA : bridges[a]? = some A) (hold : find_if A p = some old)
    (hB : bridges[pos]? = some B) (hBnone : find_if B p = none)
    (hb0 : 0 ≤ B.sysdeps.if_index) (hbp : B.sysdeps.if_index ≠ p)
    (hopen : env.br_link ≥ 0 → env.stp_state ≠ none)
    (hcalloc : env.if_calloc_ok = true) (hpn0 : 0 < env.portno)
    (hpn : env.portno ≤ max_port_number) (hok : env.port_create_ok = true) :
    (bridge_notify max_port_number env bridges B.sysdeps.if_index p true up).ret = some 0
      ∧ (bridge_notify max_port_number env bridges B.sysdeps.if_index p true up).bridges.length
          = bridges.length
      ∧ (bridge_notify max_port_number env bridges B.sysdeps.if_index p true up).bridges[a]?
          = some (without_if p A)
      ∧ p ∉ indices_of (without_if p A)
      ∧ (∃ B1 created,
          (bridge_notify max_port_number env bridges B.sysdeps.if_index p true up).bridges[pos]?
            = some B1
          ∧ B1.sysdeps.if_index = B.sysdeps.if_index
          ∧ B1.ports = B.ports ++ [created] ∧ created.sysdeps.if_index = p)
      ∧ (∀ j : Nat, j ≠ a → j ≠ pos →
          (bridge_notify max_port_number env bridges B.sysdeps.if_index p true up).bridges[j]?
            = bridges[j]?)
      ∧ (∃ before after created,
          (bridge_notify max_port_number env bridges B.sysdeps.if_index p true up).calls
            = before ++ [EngineCall.delete_port old,
                EngineCall.port_create_and_add_tail B.sysdeps.if_index created env.portno]
              ++ after
          ∧ created.sysdeps.if_index = p) := by
  have hfind := find_br_of_unique bridges pos B hbridges hB
  have hpA : p ∈ indices_of A := by
    by_contra hc
    rw [(find_if_eq_none_iff A p).mpr hc] at hold
    simp at hold
  have hpB : p ∉ indices_of B := (find_if_eq_none_iff B p).mp hBnone
  have hapos : a ≠ pos := by
    intro he
    subst he
    rw [hA] at hB
    simp only [Option.some.injEq] at hB
    subst hB
    exact hpB hpA
  unfold bridge_notify
  rw [if_pos ⟨hb0, hbp⟩]
  have hfc : find_or_create_br env bridges B.sysdeps.if_index = (bridges, some (pos, B), []) := by
    simp [find_or_create_br, hfind]
  rw [hfc]
  obtain ⟨s, hs⟩ := notify_refresh_br_returns env B hopen
  simp only [hs, List.nil_append]
  have hsi := notify_refresh_br_index env B s hs
  have hsind : indices_of s.1 = indices_of B := by unfold indices_of; rw [hsi.2]
  have hpS : p ∉ indices_of s.1 := by rw [hsind]; exact hpB
  -- the registry once the bridge has been refreshed
  have hl2pos : (bridges.set pos s.1)[pos]? = some s.1 :=
    getElem?_set_self_of_some bridges pos B s.1 hB
  have hl2a : (bridges.set pos s.1)[a]? = some A := by
    rw [List.getElem?_set_ne (fun h => hapos h.symm)]; exact hA
  have hl2u : PortsUnique (bridges.set pos s.1) := by
    unfold PortsUnique
    rw [port_indices_set_of_same bridges pos B s.1 hB hsind]
    exact hports
  unfold notify_slave
  rw [(find_if_eq_none_iff s.1 p).mpr hpS]
  simp only [Bool.not_true, Bool.false_eq_true, if_false]
  have hd := delete_from_others_eq pos p (bridges.set pos s.1) 0 hl2u (fun j b hj hk => by
    have : j = pos := by omega
    subst this
    rw [hl2pos] at hj
    simp only [Option.some.injEq] at hj
    subst hj
    exact hpS)
  have holdmem := find_if_some A p old hold
  have hfp : find_port (bridges.set pos s.1) p = some (A, old) := by
    have := find_port_of_mem (bridges.set pos s.1) A old hl2u (List.getElem?_mem hl2a)
      holdmem.1
    rw [holdmem.2] at this
    exact this
  rw [hfp] at hd
  rw [hd]
  obtain ⟨ifc, hci, hidx⟩ := create_if_ok max_port_number env s.1 p hcalloc hpn0 hpn hok
  rw [hci]
  simp only []
  obtain ⟨ifc1, ht1, ht2, ht3⟩ := notify_set_if_up_tail env s.1 ifc up (by rw [hidx]; exact hpS)
  have hwA : p ∉ indices_of (without_if p A) := by
    unfold PortsUnique at hports
    obtain ⟨pre, post, hsp, -⟩ := port_indices_split bridges a A hA
    rw [hsp] at hports
    have hndA : (indices_of A).Nodup :=
      (List.nodup_append.mp (List.nodup_append.mp hports).1).2.1
    exact not_mem_remove_if A.ports p hndA
  refine ⟨trivial, ?_, ?_, hwA, ?_, ?_, ?_⟩
  · simp
  · rw [List.getElem?_set_ne (fun h => hapos h.symm), List.getElem?_map, hl2a]
    rfl
  · refine ⟨(notify_set_if_up env (port_add_tail s.1 ifc) ifc up).1, ifc1, ?_, ?_, ?_, ?_⟩
    · apply getElem?_set_self_of_some _ pos (without_if p s.1)
      rw [List.getElem?_map, hl2pos]; rfl
    · rw [ht3, hsi.1]
    · rw [ht1, hsi.2]
    · rw [ht2, hidx]
  · intro j hja hjpos
    rw [List.getElem?_set_ne (fun h => hjpos h.symm), List.getElem?_map,
      List.getElem?_set_ne (fun h => hjpos h.symm)]
    cases hj : bridges[j]? with
    | none => rfl
    | some b =>
      have hpb : p ∉ indices_of b := fun hc =>
        hja (position_unique_of_mem bridges a j A b p hports hA hpA hj hc)
      simp [without_if_of_not_mem p b hpb]
  · refine ⟨s.2, (notify_set_if_up env (port_add_tail s.1 ifc) ifc up).2, ifc, ?_, hidx⟩
    rw [hsi.1]
    simp

/-- C9 (witness): scenario S2 with port 12 on bridge 5 reported under
bridge 6. -/
theorem bridge_notify_port_move_witness :
    (bridge_notify 4095 sample_env sample_registry_S2 6 12 true true).ret = some 0
      ∧ registry_shape (bridge_notify 4095 sample_env sample_registry_S2 6 12 true true).bridges
          = [(5, []), (6, [{ sample_port with
                sysdeps := { sample_port.sysdeps with speed := 100, duplex := 1 } }])]
      ∧ (bridge_notify 4095 sample_env sample_registry_S2 6 12 true true).bridges[0]?
          = some (without_if 12 sample_bridge) :=
  have h := bridge_notify_port_move 4095 sample_env sample_registry_S2 0 1 sample_bridge
    { sysdeps := { if_index := 6, macaddr := ⟨2, 0, 0, 0, 0, 6⟩, up := true, stp_up := true },
      ports := [] }
    sample_port 12 true (by decide) (by decide) (by decide) (by decide) (by decide)
    (by decide) (by decide) (by decide) (by decide) (by decide) (by decide) (by decide)
    (by decide)
  ⟨h.1, by decide, h.2.2.1⟩

/-! ## Claims on `set_br_up` and `set_if_up` -/

/-- The engine calls of a returning `set_br_up`, in terms of its inputs. -/
theorem set_br_up_body_calls (stp_up : Bool) (hwaddr : Option MacAddr) (br : bridge_t)
    (up : Bool) :
    (set_br_up_body stp_up hwaddr br up).2
      = (match hwaddr with
          | some m => if m ≠ br.sysdeps.macaddr then
              [EngineCall.set_bridge_address br.sysdeps.if_index m] else []
          | none => [])
        ++ (if up ≠ br.sysdeps.up ∨ stp_up ≠ br.sysdeps.stp_up then
            [EngineCall.set_bridge_enable br.sysdeps.if_index (up && stp_up)]
          else []) := by
  have hmac : (if (check_mac_address hwaddr br.sysdeps.macaddr).1 = true then
        [EngineCall.set_bridge_address br.sysdeps.if_index
          (check_mac_address hwaddr br.sysdeps.macaddr).2] else [])
      = (match hwaddr with
          | some m => if m ≠ br.sysdeps.macaddr then
              [EngineCall.set_bridge_address br.sysdeps.if_index m] else []
          | none => []) := by
    cases hwaddr with
    | none => simp [check_mac_address]
    | some m =>
      by_cases h : br.sysdeps.macaddr = m
      · simp [check_mac_address, h]
      · have h2 : ¬ m = br.sysdeps.macaddr := fun e => h e.symm
        simp [check_mac_address, h, h2]
  rw [← hmac]
  unfold set_br_up_body
  cases up <;> cases hu : br.sysdeps.up <;> cases hs : br.sysdeps.stp_up
    <;> cases stp_up <;> simp [hu, hs]

/-- C20: for every bridge and every call `set_br_up(br, up)` in which the sysfs
`stp_state` file could be opened (reading `v`, which is 0 when no number could
be read from it), the call returns with `br.up = up` and
`br.stp_up = (v == 2)`, and the engine calls made are, in this order:
`MSTP_IN_set_bridge_address` with the address read, present iff the MAC read
succeeded and differs from the stored address; then
`MSTP_IN_set_bridge_enable`, present iff `up` or `stp_up` changed in this call,
exactly once and with argument (new `up` ∧ new `stp_up`).  When the sysfs file
could not be opened the call does not return: nothing is stored and no engine
call is made. -/
theorem set_br_up_calls_exact (v : Int) (hwaddr : Option MacAddr) (br : bridge_t)
    (up : Bool) :
    (∃ br1, set_br_up (some v) hwaddr br up
        = some (br1,
            (match hwaddr with
              | some m => if m ≠ br.sysdeps.macaddr then
                  [EngineCall.set_bridge_address br.sysdeps.if_index m] else []
              | none => [])
            ++ (if up ≠ br.sysdeps.up ∨ decide (v = 2) ≠ br.sysdeps.stp_up then
                [EngineCall.set_bridge_enable br.sysdeps.if_index (up && decide (v = 2))]
              else []))
      ∧ br1.sysdeps.up = up
      ∧ br1.sysdeps.stp_up = decide (v = 2)
      ∧ br1.sysdeps.if_index = br.sysdeps.if_index
      ∧ br1.ports = br.ports)
    ∧ set_br_up none hwaddr br up = none := by
  refine ⟨⟨(set_br_up_body (v == 2) hwaddr br up).1, ?_, ?_, ?_, ?_, ?_⟩, rfl⟩
  · rw [set_br_up_some]
    have h := set_br_up_body_calls (v == 2) hwaddr br up
    have e : (v == 2) = decide (v = 2) := rfl
    rw [e] at h ⊢
    rw [← h]
  · exact (set_br_up_flags _ _ _ _).1
  · exact (set_br_up_flags _ _ _ _).2
  · exact (set_br_up_index _ _ _ _).1
  · exact (set_br_up_index _ _ _ _).2

theorem count_set_port_enable_append (t1 t2 : List EngineCall) :
    count_set_port_enable (t1 ++ t2) = count_set_port_enable t1 + count_set_port_enable t2 := by
  induction t1 with
  | nil => simp [count_set_port_enable]
  | cons c rest ih =>
    cases c <;> simp [count_set_port_enable, ih]
    omega

/-- The values `set_if_up_link` stores for `up = true`: the substituted ethtool
reading, and `changed` iff one of the three stored fields differs. -/
theorem set_if_up_link_up (r speed duplex : Int) (sys : sysdep_if_data_t) :
    set_if_up_link r speed duplex sys true
      = (true, (if r < 0 ∨ speed < 0 then 10 else speed),
         (if r < 0 ∨ duplex < 0 then 0 else duplex),
         decide (sys.up ≠ true ∨ sys.speed ≠ (if r < 0 ∨ speed < 0 then 10 else speed)
           ∨ sys.duplex ≠ (if r < 0 ∨ duplex < 0 then 0 else duplex))) := by
  unfold set_if_up_link
  simp only [Bool.not_true, Bool.false_eq_true, if_false, Bool.or_eq_true, decide_eq_true_eq]
  generalize (if r < 0 ∨ speed < 0 then (10 : Int) else speed) = speed1
  generalize (if r < 0 ∨ duplex < 0 then (0 : Int) else duplex) = duplex1
  obtain ⟨idx, mac, u, sp, du⟩ := sys
  simp only []
  have e1 : (sp = speed1) = (speed1 = sp) := propext eq_comm
  have e2 : (du = duplex1) = (duplex1 = du) := propext eq_comm
  by_cases h1 : speed1 = sp <;> by_cases h2 : duplex1 = du <;> cases u
    <;> simp [h1, h2, e1, e2]

/-- The values `set_if_up_link` stores for `up = false`: speed and duplex are
kept, and `changed` iff the port was up. -/
theorem set_if_up_link_down (r speed duplex : Int) (sys : sysdep_if_data_t) :
    set_if_up_link r speed duplex sys false = (false, sys.speed, sys.duplex, sys.up) := by
  unfold set_if_up_link
  cases h : sys.up <;> simp [h]

theorem count_ite_address (c : Bool) (i : Int) (m : MacAddr) :
    count_set_port_enable (if c then [EngineCall.set_bridge_address i m] else []) = 0 := by
  cases c <;> rfl

theorem set_if_up_calls_shape (h1 h2 : Option MacAddr) (r speed duplex : Int) (br : bridge_t)
    (ifc : port_t) (up : Bool) :
    ∃ before, count_set_port_enable before = 0
      ∧ (set_if_up h1 h2 r speed duplex br ifc up).2.2
        = before ++ (if (set_if_up_link r speed duplex ifc.sysdeps up).2.2.2 then
            [EngineCall.set_port_enable ifc.sysdeps.if_index
              (set_if_up_link r speed duplex ifc.sysdeps up).1
              (set_if_up_link r speed duplex ifc.sysdeps up).2.1
              (set_if_up_link r speed duplex ifc.sysdeps up).2.2.1]
          else []) := by
  unfold set_if_up
  exact ⟨_, count_ite_address _ _ _, rfl⟩

theorem set_if_up_count (h1 h2 : Option MacAddr) (r speed duplex : Int) (br : bridge_t)
    (ifc : port_t) (up : Bool) :
    count_set_port_enable (set_if_up h1 h2 r speed duplex br ifc up).2.2
      = if (set_if_up_link r speed duplex ifc.sysdeps up).2.2.2 then 1 else 0 := by
  obtain ⟨before, h0, heq⟩ := set_if_up_calls_shape h1 h2 r speed duplex br ifc up
  rw [heq, count_set_port_enable_append, h0]
  cases (set_if_up_link r speed duplex ifc.sysdeps up).2.2.2 <;> simp [count_set_port_enable]

/-- C12 (counterexample): a port that is already up at 10 Mbit/s half duplex,
given `up = true` and the reading 10 Mbit/s half duplex twice, produces no
`MSTP_IN_set_port_enable` call at all; neither does a port that is down given
`up = false` twice. -/
theorem set_if_up_twice_no_call :
    count_set_port_enable
        ((set_if_up_twice none none none none 0 10 0 sample_bridge sample_port true).2.2.1
          ++ (set_if_up_twice none none none none 0 10 0 sample_bridge sample_port true).2.2.2)
      = 0
    ∧ count_set_port_enable
        ((set_if_up_twice none none none none 0 10 0 sample_bridge sample_port_down
            false).2.2.1
          ++ (set_if_up_twice none none none none 0 10 0 sample_bridge sample_port_down
            false).2.2.2)
      = 0 := by
  decide

/-- C12 (amended): for every port state and every input (the `up` argument with
the ethtool reading), two calls of `set_if_up` in succession with that input
produce exactly one `MSTP_IN_set_port_enable` call in total, made by the first
call, unless the port already holds the input state, in which case they
produce none.  The port holds the input state when, for `up = true`, it is up
and its stored speed and duplex are those of the reading (10 and 0 put in place
of a value that is negative or could not be read), and when, for `up = false`,
it is down.  After the first call the port holds the input state (for
`up = false`: it is down, speed and duplex kept), and the second call stores
the same `up`, `speed` and `duplex` again. -/
theorem set_if_up_twice_one_call_unless_held
    (if_hwaddr1 br_hwaddr1 if_hwaddr2 br_hwaddr2 : Option MacAddr)
    (r speed duplex : Int) (br : bridge_t) (ifc : port_t) (up : Bool) :
    count_set_port_enable
        ((set_if_up_twice if_hwaddr1 br_hwaddr1 if_hwaddr2 br_hwaddr2 r speed duplex br ifc
            up).2.2.1
          ++ (set_if_up_twice if_hwaddr1 br_hwaddr1 if_hwaddr2 br_hwaddr2 r speed duplex br ifc
            up).2.2.2)
        = (if (if up = true then
                ifc.sysdeps.up = true
                  ∧ ifc.sysdeps.speed = (if r < 0 ∨ speed < 0 then 10 else speed)
                  ∧ ifc.sysdeps.duplex = (if r < 0 ∨ duplex < 0 then 0 else duplex)
              else ifc.sysdeps.up = false)
            then 0 else 1)
      ∧ count_set_port_enable
          (set_if_up_twice if_hwaddr1 br_hwaddr1 if_hwaddr2 br_hwaddr2 r speed duplex br ifc
            up).2.2.2 = 0
      ∧ (set_if_up_twice if_hwaddr1 br_hwaddr1 if_hwaddr2 br_hwaddr2 r speed duplex br ifc
            up).1.sysdeps.up = up
      ∧ (set_if_up_twice if_hwaddr1 br_hwaddr1 if_hwaddr2 br_hwaddr2 r speed duplex br ifc
            up).1.sysdeps.speed
          = (if up = true then (if r < 0 ∨ speed < 0 then 10 else speed)
              else ifc.sysdeps.speed)
      ∧ (set_if_up_twice if_hwaddr1 br_hwaddr1 if_hwaddr2 br_hwaddr2 r speed duplex br ifc
            up).1.sysdeps.duplex
          = (if up = true then (if r < 0 ∨ duplex < 0 then 0 else duplex)
              else ifc.sysdeps.duplex)
      ∧ (set_if_up_twice if_hwaddr1 br_hwaddr1 if_hwaddr2 br_hwaddr2 r speed duplex br ifc
            up).2.1.sysdeps.up
          = (set_if_up_twice if_hwaddr1 br_hwaddr1 if_hwaddr2 br_hwaddr2 r speed duplex br ifc
            up).1.sysdeps.up
      ∧ (set_if_up_twice if_hwaddr1 br_hwaddr1 if_hwaddr2 br_hwaddr2 r speed duplex br ifc
            up).2.1.sysdeps.speed
          = (set_if_up_twice if_hwaddr1 br_hwaddr1 if_hwaddr2 br_hwaddr2 r speed duplex br ifc
            up).1.sysdeps.speed
      ∧ (set_if_up_twice if_hwaddr1 br_hwaddr1 if_hwaddr2 br_hwaddr2 r speed duplex br ifc
            up).2.1.sysdeps.duplex
          = (set_if_up_twice if_hwaddr1 br_hwaddr1 if_hwaddr2 br_hwaddr2 r speed duplex br ifc
            up).1.sysdeps.duplex := by
  unfold set_if_up_twice
  simp only [count_set_port_enable_append, set_if_up_count]
  have hf : ∀ (a b : Option MacAddr) (b0 : bridge_t) (p : port_t),
      (set_if_up a b r speed duplex b0 p up).2.1.sysdeps.up
          = (set_if_up_link r speed duplex p.sysdeps up).1
        ∧ (set_if_up a b r speed duplex b0 p up).2.1.sysdeps.speed
          = (set_if_up_link r speed duplex p.sysdeps up).2.1
        ∧ (set_if_up a b r speed duplex b0 p up).2.1.sysdeps.duplex
          = (set_if_up_link r speed duplex p.sysdeps up).2.2.1 :=
    fun _ _ _ _ => ⟨rfl, rfl, rfl⟩
  cases up
  · simp only [hf, set_if_up_link_down]
    cases hu : ifc.sysdeps.up <;> simp
  · simp only [hf, set_if_up_link_up]
    by_cases h1 : ifc.sysdeps.speed = (if r < 0 ∨ speed < 0 then (10 : Int) else speed)
      <;> by_cases h2 : ifc.sysdeps.duplex = (if r < 0 ∨ duplex < 0 then (0 : Int) else duplex)
      <;> cases hu : ifc.sysdeps.up
      <;> simp [h1, h2, Ne.symm, eq_comm]

/-- C13: when `up = true`, `set_if_up` leaves the port up with stored speed 10
if the ethtool read failed or reported a negative speed and the reported speed
otherwise, and stored duplex 0 if the read failed or reported a negative duplex
and the reported duplex otherwise.  In particular, for a port that is down and
a failed read, it stores speed 10 and duplex 0 and makes exactly one
`MSTP_IN_set_port_enable` call, `(port, true, 10, 0)`, as its last engine
call. -/
theorem set_if_up_speed_duplex (if_hwaddr br_hwaddr : Option MacAddr) (r speed duplex : Int)
    (br : bridge_t) (ifc : port_t) :
    ((set_if_up if_hwaddr br_hwaddr r speed duplex br ifc true).2.1.sysdeps.up = true
      ∧ (set_if_up if_hwaddr br_hwaddr r speed duplex br ifc true).2.1.sysdeps.speed
          = (if r < 0 ∨ speed < 0 then 10 else speed)
      ∧ (set_if_up if_hwaddr br_hwaddr r speed duplex br ifc true).2.1.sysdeps.duplex
          = (if r < 0 ∨ duplex < 0 then 0 else duplex))
    ∧ (ifc.sysdeps.up = false → r < 0 →
        (set_if_up if_hwaddr br_hwaddr r speed duplex br ifc true).2.1.sysdeps.speed = 10
        ∧ (set_if_up if_hwaddr br_hwaddr r speed duplex br ifc true).2.1.sysdeps.duplex = 0
        ∧ ∃ before, count_set_port_enable before = 0
            ∧ (set_if_up if_hwaddr br_hwaddr r speed duplex br ifc true).2.2
              = before ++ [EngineCall.set_port_enable ifc.sysdeps.if_index true 10 0]) := by
  have hf : (set_if_up if_hwaddr br_hwaddr r speed duplex br ifc true).2.1.sysdeps.up
          = (set_if_up_link r speed duplex ifc.sysdeps true).1
        ∧ (set_if_up if_hwaddr br_hwaddr r speed duplex br ifc true).2.1.sysdeps.speed
          = (set_if_up_link r speed duplex ifc.sysdeps true).2.1
        ∧ (set_if_up if_hwaddr br_hwaddr r speed duplex br ifc true).2.1.sysdeps.duplex
          = (set_if_up_link r speed duplex ifc.sysdeps true).2.2.1 := ⟨rfl, rfl, rfl⟩
  rw [hf.1, hf.2.1, hf.2.2, set_if_up_link_up]
  refine ⟨⟨rfl, rfl, rfl⟩, ?_⟩
  intro hdown hr
  obtain ⟨before, h0, heq⟩ := set_if_up_calls_shape if_hwaddr br_hwaddr r speed duplex br ifc true
  rw [set_if_up_link_up] at heq
  simp only [hr, true_or, if_true, hdown] at heq ⊢
  exact ⟨trivial, trivial, before, h0, by simpa using heq⟩

/-- C13 (witness): a port that is down, brought up while ethtool fails. -/
theorem set_if_up_speed_duplex_witness :
    (set_if_up none none (-1) (-1) (-1) sample_bridge sample_port_down true).2.1.sysdeps.speed
        = 10
      ∧ (set_if_up none none (-1) (-1) (-1) sample_bridge sample_port_down true).2.1.sysdeps.duplex
        = 0
      ∧ ∃ before, count_set_port_enable before = 0
          ∧ (set_if_up none none (-1) (-1) (-1) sample_bridge sample_port_down true).2.2
            = before ++ [EngineCall.set_port_enable sample_port_down.sysdeps.if_index true 10 0] :=
  (set_if_up_speed_duplex none none (-1) (-1) (-1) sample_bridge sample_port_down).2
    (by decide) (by decide)

/-! ## Claims on `MSTP_OUT_set_state` -/

/-- C14: for every per-tree-port and every integer `new_state`, after
`MSTP_OUT_set_state(ptp, new_state)` the stored state is `new_state` when it is
one of Listening, Learning, Forwarding, Blocking, Disabled, and Disabled for
every other value; no other field changes; and when the coerced state equals
the current state the per-tree-port is unchanged. -/
theorem MSTP_OUT_set_state_spec (ptp : per_tree_port_t) (new_state : Int) :
    ((new_state = BR_STATE_LISTENING ∨ new_state = BR_STATE_LEARNING
        ∨ new_state = BR_STATE_FORWARDING ∨ new_state = BR_STATE_BLOCKING
        ∨ new_state = BR_STATE_DISABLED) →
      (MSTP_OUT_set_state ptp new_state).state = new_state)
    ∧ (¬ (new_state = BR_STATE_LISTENING ∨ new_state = BR_STATE_LEARNING
        ∨ new_state = BR_STATE_FORWARDING ∨ new_state = BR_STATE_BLOCKING
        ∨ new_state = BR_STATE_DISABLED) →
      (MSTP_OUT_set_state ptp new_state).state = BR_STATE_DISABLED)
    ∧ (MSTP_OUT_set_state ptp new_state).MSTID = ptp.MSTID
    ∧ (MSTP_OUT_set_state ptp new_state).portId = ptp.portId
    ∧ (MSTP_OUT_set_state ptp new_state).port_name = ptp.port_name
    ∧ ((MSTP_OUT_set_state ptp new_state).state = ptp.state →
        MSTP_OUT_set_state ptp new_state = ptp) := by
  have hstate : (MSTP_OUT_set_state ptp new_state).state = set_state_switch new_state := by
    unfold MSTP_OUT_set_state
    simp only []
    split
    · assumption
    · rfl
  have hother : (MSTP_OUT_set_state ptp new_state).MSTID = ptp.MSTID
      ∧ (MSTP_OUT_set_state ptp new_state).portId = ptp.portId
      ∧ (MSTP_OUT_set_state ptp new_state).port_name = ptp.port_name := by
    unfold MSTP_OUT_set_state
    simp only []
    split <;> exact ⟨rfl, rfl, rfl⟩
  refine ⟨?_, ?_, hother.1, hother.2.1, hother.2.2, ?_⟩
  · intro h
    rw [hstate]
    unfold set_state_switch
    rcases h with h | h | h | h | h <;> simp [h]
  · intro h
    rw [hstate]
    unfold set_state_switch
    simp only [not_or] at h
    simp [h.1, h.2.1, h.2.2.1, h.2.2.2.1, h.2.2.2.2]
  · intro h
    rw [hstate] at h
    unfold MSTP_OUT_set_state
    simp [h]

/-- C14 (witness): state 7 is not a bridge port state and is stored as
Disabled; state Forwarding is stored as such; committing the current state
again changes nothing. -/
theorem MSTP_OUT_set_state_spec_witness :
    (MSTP_OUT_set_state ⟨⟨0, 0⟩, 0x8001, BR_STATE_FORWARDING, [0x65, 0x74, 0x68, 0x30]⟩ 7).state
        = BR_STATE_DISABLED
      ∧ (MSTP_OUT_set_state ⟨⟨0, 0⟩, 0x8001, BR_STATE_BLOCKING, [0x65, 0x74, 0x68, 0x30]⟩
          BR_STATE_FORWARDING).state = BR_STATE_FORWARDING
      ∧ MSTP_OUT_set_state ⟨⟨0, 0⟩, 0x8001, BR_STATE_FORWARDING, [0x65, 0x74, 0x68, 0x30]⟩
          BR_STATE_FORWARDING
        = ⟨⟨0, 0⟩, 0x8001, BR_STATE_FORWARDING, [0x65, 0x74, 0x68, 0x30]⟩ :=
  ⟨(MSTP_OUT_set_state_spec ⟨⟨0, 0⟩, 0x8001, BR_STATE_FORWARDING, [0x65, 0x74, 0x68, 0x30]⟩
      7).2.1 (by decide),
   (MSTP_OUT_set_state_spec ⟨⟨0, 0⟩, 0x8001, BR_STATE_BLOCKING, [0x65, 0x74, 0x68, 0x30]⟩
      BR_STATE_FORWARDING).1 (by decide),
   (MSTP_OUT_set_state_spec ⟨⟨0, 0⟩, 0x8001, BR_STATE_FORWARDING, [0x65, 0x74, 0x68, 0x30]⟩
      BR_STATE_FORWARDING).2.2.2.2.2 (by decide)⟩

/-! ## Port numbers -/

theorem mem_remove_if (ports : List port_t) (i : Int) (p : port_t)
    (h : p ∈ remove_if ports i) : p ∈ ports :=
  (remove_if_sublist ports i).subset h

theorem mem_store_if (ports : List port_t) (i : Int) (x p : port_t)
    (h : p ∈ store_if ports i x) : p ∈ ports ∨ p = x := by
  induction ports with
  | nil => simp [store_if] at h
  | cons q rest ih =>
    unfold store_if at h
    split at h
    · rcases List.mem_cons.mp h with h1 | h1
      · exact Or.inr h1
      · exact Or.inl (List.mem_cons_of_mem _ h1)
    · rcases List.mem_cons.mp h with h1 | h1
      · exact Or.inl (h1 ▸ List.mem_cons_self _ _)
      · rcases ih h1 with h2 | h2
        · exact Or.inl (List.mem_cons_of_mem _ h2)
        · exact Or.inr h2

theorem PortNumbersOk_set (m : Int) (l : List bridge_t) (pos : Nat) (b1 : bridge_t)
    (h : PortNumbersOk m l)
    (hb : ∀ ifc ∈ b1.ports, 1 ≤ ifc.port_number ∧ ifc.port_number ≤ m) :
    PortNumbersOk m (l.set pos b1) := by
  intro br hbr
  rcases List.mem_or_eq_of_mem_set hbr with h1 | h1
  · exact h br h1
  · rw [h1]; exact hb

theorem PortNumbersOk_of_getElem? (m : Int) (l : List bridge_t) (pos : Nat) (b : bridge_t)
    (h : PortNumbersOk m l) (hpos : l[pos]? = some b) :
    ∀ ifc ∈ b.ports, 1 ≤ ifc.port_number ∧ ifc.port_number ≤ m :=
  h b (List.getElem?_mem hpos)

/-- Both eviction loops only unlink ports: every bridge afterwards holds a
part of the ports of a bridge tracked before. -/
theorem delete_from_others_ports (pos : Nat) (i : Int) (l : List bridge_t) (k : Nat) :
    ∀ b1 ∈ (delete_from_others pos i k l).1, ∃ b ∈ l, ∀ p ∈ b1.ports, p ∈ b.ports := by
  induction l generalizing k with
  | nil => intro b1 h; simp [delete_from_others] at h
  | cons x rest ih =>
    intro b1 h
    unfold delete_from_others at h
    have hrec : ∀ b1 ∈ x :: (delete_from_others pos i (k + 1) rest).1,
        ∃ b ∈ x :: rest, ∀ p ∈ b1.ports, p ∈ b.ports := by
      intro b2 h2
      rcases List.mem_cons.mp h2 with h3 | h3
      · exact ⟨x, List.mem_cons_self _ _, fun p hp => h3 ▸ hp⟩
      · obtain ⟨b, hb, hsub⟩ := ih (k + 1) b2 h3
        exact ⟨b, List.mem_cons_of_mem _ hb, hsub⟩
    split at h
    · cases hf : find_if x i with
      | none =>
        rw [delete_if_byindex_none x i hf] at h
        exact hrec b1 h
      | some ifc =>
        rw [delete_if_byindex_some x i ifc hf] at h
        simp only [] at h
        rcases List.mem_cons.mp h with h3 | h3
        · refine ⟨x, List.mem_cons_self _ _, fun p hp => ?_⟩
          rw [h3] at hp
          exact mem_remove_if x.ports i p hp
        · exact ⟨b1, List.mem_cons_of_mem _ h3, fun p hp => hp⟩
    · exact hrec b1 h

theorem delete_first_if_ports (i : Int) (l : List bridge_t) :
    ∀ b1 ∈ (delete_first_if i l).1, ∃ b ∈ l, ∀ p ∈ b1.ports, p ∈ b.ports := by
  induction l with
  | nil => intro b1 h; simp [delete_first_if] at h
  | cons x rest ih =>
    intro b1 h
    unfold delete_first_if at h
    cases hf : find_if x i with
    | none =>
      rw [delete_if_byindex_none x i hf] at h
      simp only [] at h
      rcases List.mem_cons.mp h with h3 | h3
      · exact ⟨x, List.mem_cons_self _ _, fun p hp => h3 ▸ hp⟩
      · obtain ⟨b, hb, hsub⟩ := ih b1 h3
        exact ⟨b, List.mem_cons_of_mem _ hb, hsub⟩
    | some ifc =>
      rw [delete_if_byindex_some x i ifc hf] at h
      simp only [] at h
      rcases List.mem_cons.mp h with h3 | h3
      · refine ⟨x, List.mem_cons_self _ _, fun p hp => ?_⟩
        rw [h3] at hp
        exact mem_remove_if x.ports i p hp
      · exact ⟨b1, List.mem_cons_of_mem _ h3, fun p hp => hp⟩

theorem PortNumbersOk_of_ports (m : Int) (l l1 : List bridge_t) (h : PortNumbersOk m l)
    (hsub : ∀ b1 ∈ l1, ∃ b ∈ l, ∀ p ∈ b1.ports, p ∈ b.ports) : PortNumbersOk m l1 := by
  intro b1 hb1 p hp
  obtain ⟨b, hb, hs⟩ := hsub b1 hb1
  exact h b hb p (hs p hp)

theorem remove_br_sublist (l : List bridge_t) (i : Int) : List.Sublist (remove_br l i) l := by
  induction l with
  | nil => exact List.Sublist.refl _
  | cons b rest ih =>
    unfold remove_br
    split
    · exact List.sublist_cons_self _ _
    · exact List.Sublist.cons₂ _ ih

theorem notify_set_if_up_port_numbers (m : Int) (env : Env) (br : bridge_t) (ifc : port_t)
    (up : Bool) (hbr : ∀ p ∈ br.ports, 1 ≤ p.port_number ∧ p.port_number ≤ m)
    (hifc : 1 ≤ ifc.port_number ∧ ifc.port_number ≤ m) :
    ∀ p ∈ (notify_set_if_up env br ifc up).1.ports, 1 ≤ p.port_number ∧ p.port_number ≤ m := by
  intro p hp
  unfold notify_set_if_up at hp
  simp only [] at hp
  rw [(set_if_up_index _ _ _ _ _ _ _ _).2.2.1] at hp
  rcases mem_store_if _ _ _ _ hp with h | h
  · exact hbr p h
  · rw [h, (set_if_up_index _ _ _ _ _ _ _ _).2.1]; exact hifc

theorem notify_slave_port_numbers (m : Int) (env : Env) (l : List bridge_t) (pos : Nat)
    (br : bridge_t) (calls : List EngineCall) (i : Int) (newlink up : Bool)
    (hpos : l[pos]? = some br) (hok : PortNumbersOk m l) :
    PortNumbersOk m (notify_slave m env l pos br calls i newlink up).bridges := by
  have hbr := PortNumbersOk_of_getElem? m l pos br hok hpos
  unfold notify_slave
  cases hf : find_if br i with
  | some ifc =>
    simp only []
    have hifc := hbr ifc (find_if_some br i ifc hf).1
    cases newlink with
    | false =>
      simp only [Bool.not_false, if_true]
      exact PortNumbersOk_set m l pos _ hok (fun p hp => hbr p (mem_remove_if _ _ _ hp))
    | true =>
      simp only [Bool.not_true, Bool.false_eq_true, if_false]
      exact PortNumbersOk_set m l pos _ hok
        (notify_set_if_up_port_numbers m env br ifc up hbr hifc)
  | none =>
    simp only []
    cases newlink with
    | false => simpa using hok
    | true =>
      simp only [Bool.not_true, Bool.false_eq_true, if_false]
      have hd : PortNumbersOk m (delete_from_others pos i 0 l).1 :=
        PortNumbersOk_of_ports m l _ hok (delete_from_others_ports pos i l 0)
      cases hc : create_if m env br i with
      | mk res calls1 =>
        cases res with
        | none => simpa using hd
        | some r =>
          obtain ⟨br1, ifc⟩ := r
          simp only []
          obtain ⟨hbr1, -, -, h0, hm, hpn⟩ := create_if_some m env br br1 i ifc calls1 hc
          have hifc : 1 ≤ ifc.port_number ∧ ifc.port_number ≤ m := by
            rw [hpn]; exact ⟨by omega, hm⟩
          apply PortNumbersOk_set m _ pos _ hd
          apply notify_set_if_up_port_numbers m env br1 ifc up _ hifc
          intro p hp
          rw [hbr1] at hp
          simp only [port_add_tail, List.mem_append, List.mem_singleton] at hp
          rcases hp with h | h
          · exact hbr p h
          · rw [h]; exact hifc

theorem find_or_create_br_port_numbers (m : Int) (env : Env) (l l1 : List bridge_t) (i : Int)
    (pos : Nat) (br : bridge_t) (calls : List EngineCall)
    (h : find_or_create_br env l i = (l1, some (pos, br), calls)) (hok : PortNumbersOk m l) :
    PortNumbersOk m l1 := by
  obtain ⟨-, -, -, hcase⟩ := find_or_create_br_some env l l1 i pos br calls h
  rcases hcase with ⟨h1, -, -⟩ | ⟨h1, -, hp, -⟩
  · rw [h1]; exact hok
  · rw [h1]
    intro b hb
    rcases List.mem_append.mp hb with h2 | h2
    · exact hok b h2
    · simp only [List.mem_singleton] at h2
      rw [h2, hp]
      intro p hp2
      simp at hp2

theorem bridge_notify_port_numbers (m : Int) (env : Env) (l : List bridge_t)
    (br_index if_index : Int) (newlink up : Bool) (hok : PortNumbersOk m l) :
    PortNumbersOk m (bridge_notify m env l br_index if_index newlink up).bridges := by
  unfold bridge_notify
  split
  · cases hfc : find_or_create_br env l br_index with
    | mk l1 rest =>
      obtain ⟨node, calls0⟩ := rest
      cases node with
      | none => exact hok
      | some nb =>
        obtain ⟨pos, br⟩ := nb
        simp only []
        obtain ⟨hpos, -, -, -⟩ := find_or_create_br_some env l l1 br_index pos br calls0 hfc
        have hok1 := find_or_create_br_port_numbers m env l l1 br_index pos br calls0 hfc hok
        have hbr := PortNumbersOk_of_getElem? m l1 pos br hok1 hpos
        cases hs : notify_refresh_br env br with
        | none => exact hok1
        | some s =>
          simp only []
          apply notify_slave_port_numbers
          · exact getElem?_set_self_of_some l1 pos br _ hpos
          · apply PortNumbersOk_set m l1 pos _ hok1
            rw [(notify_refresh_br_index env br s hs).2]; exact hbr
  · split
    · unfold delete_br_byindex
      cases hf : find_br l if_index with
      | some r =>
        simp only []
        intro b hb
        exact hok b ((remove_br_sublist l if_index).subset hb)
      | none =>
        simp only []
        exact PortNumbersOk_of_ports m l _ hok (delete_first_if_ports if_index l)
    · split
      · cases hfc : find_or_create_br env l br_index with
        | mk l1 rest =>
          obtain ⟨node, calls0⟩ := rest
          cases node with
          | none => exact hok
          | some nb =>
            obtain ⟨pos, br⟩ := nb
            simp only []
            obtain ⟨hpos, -, -, -⟩ := find_or_create_br_some env l l1 br_index pos br calls0 hfc
            have hok1 := find_or_create_br_port_numbers m env l l1 br_index pos br calls0 hfc hok
            have hbr := PortNumbersOk_of_getElem? m l1 pos br hok1 hpos
            cases hs : set_br_up env.stp_state env.br_hwaddr_up br up with
            | none => exact hok1
            | some s =>
              simp only []
              apply PortNumbersOk_set m l1 pos _ hok1
              rw [(set_br_up_some_index _ _ _ _ s hs).2]; exact hbr
      · exact hok

theorem run_notifications_port_numbers (m : Int) (ns : List Notification) :
    ∀ l : List bridge_t, PortNumbersOk m l → PortNumbersOk m (run_notifications m l ns) := by
  induction ns with
  | nil => intro l h; exact h
  | cons n rest ih =>
    intro l h
    have h1 := bridge_notify_port_numbers m n.env l n.br_index n.if_index n.newlink n.up h
    unfold run_notifications
    simp only []
    split
    · exact h1
    · exact ih _ h1

/-- C11: `create_if` returns null and makes no engine call when the bridge port
number reported is negative, 0 or above `MAX_PORT_NUMBER` (nothing is linked
into any port list); for every port number in `1 .. MAX_PORT_NUMBER` it calls
`MSTP_IN_port_create_and_add_tail` with a port of index `if_index` and that
number, and returns the port, linked at the tail of `br`, iff the engine
accepts.  Consequently, after any sequence of `bridge_notify` calls every
tracked port has a port number in `1 .. MAX_PORT_NUMBER` if that held
before. -/
theorem create_if_port_number (max_port_number : Int) (env : Env) (br : bridge_t)
    (if_index : Int) :
    ((env.portno < 0 ∨ env.portno = 0 ∨ max_port_number < env.portno) →
        create_if max_port_number env br if_index = (none, []))
    ∧ (env.if_calloc_ok = true → 1 ≤ env.portno → env.portno ≤ max_port_number →
        ∃ ifc, ifc.sysdeps.if_index = if_index ∧ ifc.port_number = env.portno
          ∧ create_if max_port_number env br if_index
            = (if env.port_create_ok then some (port_add_tail br ifc, ifc) else none,
               [EngineCall.port_create_and_add_tail br.sysdeps.if_index ifc env.portno]))
    ∧ (∀ (bridges : List bridge_t) (ns : List Notification),
        PortNumbersOk max_port_number bridges →
        PortNumbersOk max_port_number (run_notifications max_port_number bridges ns)) := by
  refine ⟨?_, ?_, fun bridges ns h => run_notifications_port_numbers max_port_number ns bridges h⟩
  · intro h
    unfold create_if
    by_cases hc : env.if_calloc_ok = true
    swap
    · simp [hc]
    by_cases hneg : 0 > env.portno
    · simp [hc, hneg]
    have h3 : (env.portno == 0 || decide (env.portno > max_port_number)) = true := by
      simp only [Bool.or_eq_true, beq_iff_eq, decide_eq_true_eq]
      rcases h with h | h | h
      · omega
      · exact Or.inl h
      · exact Or.inr h
    simp only [hc, hneg, h3, Bool.not_true, Bool.false_eq_true, if_false, if_true]
  · intro hc h1 hm
    unfold create_if
    have h2 : ¬ (0 > env.portno) := by omega
    have h3 : (env.portno == 0 || decide (env.portno > max_port_number)) = false := by
      simp only [Bool.or_eq_false_iff, beq_eq_false_iff_ne, ne_eq, decide_eq_false_iff_not,
        not_lt]
      exact ⟨by omega, hm⟩
    simp only [hc, h2, h3, Bool.not_true, Bool.false_eq_true, if_false]
    refine ⟨{ sysdeps := { if_index := if_index, macaddr := env.if_hwaddr.getD MacAddr.zero,
                           up := false, speed := 0, duplex := 0 },
              port_number := env.portno }, rfl, rfl, ?_⟩
    cases env.port_create_ok <;> simp

/-- C11 (witness): with `MAX_PORT_NUMBER` 4095, port numbers 0 and 4096 are
rejected without an engine call and port number 4095 is accepted. -/
theorem create_if_port_number_witness :
    create_if 4095 { sample_env with portno := 0 } sample_bridge 13 = (none, [])
      ∧ create_if 4095 { sample_env with portno := 4096 } sample_bridge 13 = (none, [])
      ∧ (∃ ifc, ifc.sysdeps.if_index = 13 ∧ ifc.port_number = 4095
          ∧ create_if 4095 { sample_env with portno := 4095 } sample_bridge 13
            = (if ({ sample_env with portno := 4095 } : Env).port_create_ok then
                some (port_add_tail sample_bridge ifc, ifc) else none,
               [EngineCall.port_create_and_add_tail sample_bridge.sysdeps.if_index ifc 4095]))
      ∧ PortNumbersOk 4095 (run_notifications 4095 [] sample_notifications) :=
  ⟨(create_if_port_number 4095 { sample_env with portno := 0 } sample_bridge 13).1
      (by decide),
   (create_if_port_number 4095 { sample_env with portno := 4096 } sample_bridge 13).1
      (by decide),
   (create_if_port_number 4095 { sample_env with portno := 4095 } sample_bridge 13).2.1
      (by decide) (by decide) (by decide),
   (create_if_port_number 4095 sample_env sample_bridge 13).2.2 [] sample_notifications
      (by decide)⟩

/-! ## Claims on DELLINK of a non-slave and on failed port creation -/

theorem remove_br_eq_eraseIdx (l : List bridge_t) (i : Int) (pos : Nat) (br : bridge_t)
    (h : find_br l i = some (pos, br)) : remove_br l i = l.eraseIdx pos := by
  induction l generalizing pos with
  | nil => simp [find_br] at h
  | cons b rest ih =>
    unfold find_br at h
    unfold remove_br
    by_cases hb : b.sysdeps.if_index = i
    · simp only [hb, beq_self_eq_true, if_true, Option.some.injEq, Prod.mk.injEq] at h ⊢
      obtain ⟨rfl, -⟩ := h
      rfl
    · have hb2 : (b.sysdeps.if_index == i) = false := by simpa using hb
      simp only [hb2, Bool.false_eq_true, if_false, Option.map_eq_some'] at h ⊢
      obtain ⟨⟨n, b1⟩, h1, h2⟩ := h
      simp only [Prod.mk.injEq] at h2
      obtain ⟨rfl, rfl⟩ := h2
      rw [ih n h1]
      rfl

/-- The port `find_if` returns is the first of its index: the ports before it
have other indices, and `delete_if` leaves the ports around it. -/
theorem remove_if_split (ports : List port_t) (i : Int) (ifc : port_t)
    (h : ports.find? (fun p => p.sysdeps.if_index == i) = some ifc) :
    ∃ ps1 ps2, ports = ps1 ++ ifc :: ps2
      ∧ i ∉ ps1.map (fun p => p.sysdeps.if_index)
      ∧ remove_if ports i = ps1 ++ ps2 := by
  induction ports with
  | nil => simp at h
  | cons p rest ih =>
    by_cases hp : p.sysdeps.if_index = i
    · simp only [List.find?_cons, hp, beq_self_eq_true, Option.some.injEq] at h
      subst h
      exact ⟨[], rest, rfl, by simp, by simp [remove_if, hp]⟩
    · have hp2 : (p.sysdeps.if_index == i) = false := by simpa using hp
      simp only [List.find?_cons, hp2] at h
      obtain ⟨ps1, ps2, h1, h2, h3⟩ := ih h
      refine ⟨p :: ps1, ps2, by rw [h1]; rfl, ?_, ?_⟩
      · simp only [List.map_cons, List.mem_cons, not_or]
        exact ⟨fun e => hp e.symm, h2⟩
      · simp [remove_if, hp2, h3]

/-- The loop of the DELLINK branch, without any assumption on the registry: it
unlinks the port `find_port` resolves and makes one `delete_port` call, or does
nothing when there is none. -/
theorem delete_first_if_split (i : Int) (l : List bridge_t) :
    (find_port l i = none → delete_first_if i l = (l, []))
    ∧ (∀ br ifc, find_port l i = some (br, ifc) →
        ∃ before after, l = before ++ br :: after ∧ find_port before i = none
          ∧ find_if br i = some ifc
          ∧ delete_first_if i l
            = (before ++ without_if i br :: after, [EngineCall.delete_port ifc])) := by
  induction l with
  | nil =>
    refine ⟨fun _ => rfl, fun br ifc h => ?_⟩
    simp [find_port] at h
  | cons b rest ih =>
    unfold find_port delete_first_if
    cases hf : find_if b i with
    | none =>
      rw [delete_if_byindex_none b i hf]
      simp only []
      refine ⟨fun h => by rw [ih.1 h], fun br ifc h => ?_⟩
      obtain ⟨before, after, h1, h2, hfi, h3⟩ := ih.2 br ifc h
      refine ⟨b :: before, after, by rw [h1]; rfl, ?_, hfi, by rw [h3]; rfl⟩
      simp [find_port, hf, h2]
    | some p =>
      rw [delete_if_byindex_some b i p hf]
      simp only []
      refine ⟨fun h => by simp at h, fun br ifc h => ?_⟩
      simp only [Option.some.injEq, Prod.mk.injEq] at h
      obtain ⟨rfl, rfl⟩ := h
      exact ⟨[], rest, rfl, rfl, hf, rfl⟩

/-- C18: for every registry and every non-slave DELLINK notification
(`newlink = false` with `br_index < 0` or `br_index = if_index`),
`bridge_notify` returns 0 and: if a bridge with `if_index` is tracked, that
bridge (the one `find_br` yields) is taken out of the registry with one
`MSTP_IN_delete_bridge` call and every other bridge stays as it was; otherwise
the first port with that index found scanning the bridges in order is unlinked
with one `MSTP_IN_delete_port` call and nothing else changes; if neither
exists, the registry is unchanged and no engine call is made. -/
theorem bridge_notify_dellink_non_slave (max_port_number : Int) (env : Env)
    (bridges : List bridge_t) (br_index if_index : Int) (up : Bool)
    (hns : br_index < 0 ∨ br_index = if_index) :
    (bridge_notify max_port_number env bridges br_index if_index false up).ret = some 0
      ∧ (∀ pos br, find_br bridges if_index = some (pos, br) →
          (bridge_notify max_port_number env bridges br_index if_index false up).bridges
              = bridges.eraseIdx pos
            ∧ (bridge_notify max_port_number env bridges br_index if_index false up).calls
              = [EngineCall.delete_bridge br])
      ∧ (find_br bridges if_index = none →
          ∀ br ifc, find_port bridges if_index = some (br, ifc) →
            ∃ before after ps1 ps2, bridges = before ++ br :: after
              ∧ find_port before if_index = none
              ∧ br.ports = ps1 ++ ifc :: ps2
              ∧ if_index ∉ ps1.map (fun p => p.sysdeps.if_index)
              ∧ (bridge_notify max_port_number env bridges br_index if_index false up).bridges
                  = before ++ { br with ports := ps1 ++ ps2 } :: after
              ∧ (bridge_notify max_port_number env bridges br_index if_index false up).calls
                  = [EngineCall.delete_port ifc])
      ∧ (find_br bridges if_index = none → find_port bridges if_index = none →
          (bridge_notify max_port_number env bridges br_index if_index false up).bridges
              = bridges
            ∧ (bridge_notify max_port_number env bridges br_index if_index false up).calls
              = []) := by
  have hcond : ¬ (br_index ≥ 0 ∧ br_index ≠ if_index) := by
    rcases hns with h | h
    · intro hc; omega
    · intro hc; exact hc.2 h
  unfold bridge_notify
  rw [if_neg hcond]
  simp only [Bool.not_false, if_true]
  unfold delete_br_byindex
  cases hf : find_br bridges if_index with
  | some r =>
    obtain ⟨pos, br⟩ := r
    simp only []
    refine ⟨trivial, ?_, fun h => by simp at h, fun h => by simp at h⟩
    intro pos1 br1 h
    simp only [Option.some.injEq, Prod.mk.injEq] at h
    obtain ⟨rfl, rfl⟩ := h
    exact ⟨remove_br_eq_eraseIdx bridges if_index pos br hf, rfl⟩
  | none =>
    simp only []
    refine ⟨trivial, fun pos br h => by simp at h, fun _ br ifc hfp => ?_, fun _ hfp => ?_⟩
    · obtain ⟨before, after, h1, h2, hfi, h3⟩ :=
        (delete_first_if_split if_index bridges).2 br ifc hfp
      obtain ⟨ps1, ps2, hp1, hp2, hp3⟩ := remove_if_split br.ports if_index ifc hfi
      refine ⟨before, after, ps1, ps2, h1, h2, hp1, hp2, ?_, ?_⟩
      · rw [h3]; simp only [without_if, hp3]
      · rw [h3]
    · rw [(delete_first_if_split if_index bridges).1 hfp]
      exact ⟨rfl, rfl⟩

/-- C18 (witness): on the registry of scenario S2, DELLINK of interface 12
unlinks port 12 of bridge 5, and DELLINK of interface 5 removes bridge 5. -/
theorem bridge_notify_dellink_non_slave_witness :
    (bridge_notify 4095 sample_env sample_registry_S2 (-1) 12 false false).ret = some 0
      ∧ registry_shape (bridge_notify 4095 sample_env sample_registry_S2 (-1) 12 false
          false).bridges = [(5, []), (6, [])]
      ∧ (bridge_notify 4095 sample_env sample_registry_S2 5 5 false false).bridges
          = sample_registry_S2.eraseIdx 0
      ∧ (bridge_notify 4095 sample_env sample_registry_S2 5 5 false false).calls
          = [EngineCall.delete_bridge sample_bridge] :=
  ⟨(bridge_notify_dellink_non_slave 4095 sample_env sample_registry_S2 (-1) 12 false
      (by decide)).1,
   by decide,
   ((bridge_notify_dellink_non_slave 4095 sample_env sample_registry_S2 5 5 false
      (by decide)).2.1 0 sample_bridge (by decide)).1,
   ((bridge_notify_dellink_non_slave 4095 sample_env sample_registry_S2 5 5 false
      (by decide)).2.1 0 sample_bridge (by decide)).2⟩

theorem registry_shape_map_without_if (i : Int) (l : List bridge_t) :
    registry_shape (l.map (without_if i))
      = (registry_shape l).map (fun s => (s.1, remove_if s.2 i)) := by
  simp [registry_shape, without_if, List.map_map, Function.comp_def]

/-- When a step of port creation fails, `create_if` returns null. -/
theorem create_if_fails (m : Int) (env : Env) (br : bridge_t) (i : Int)
    (hfail : ¬ (env.if_calloc_ok = true ∧ 0 < env.portno ∧ env.portno ≤ m
      ∧ env.port_create_ok = true)) :
    (create_if m env br i).1 = none := by
  cases hc : create_if m env br i with
  | mk res calls =>
    cases res with
    | none => rfl
    | some r =>
      obtain ⟨br1, ifc⟩ := r
      exfalso
      obtain ⟨-, -, -, h0, hm, -⟩ := create_if_some m env br br1 i ifc calls hc
      apply hfail
      refine ⟨?_, h0, hm, ?_⟩
      · by_contra hcal
        simp [create_if, hcal] at hc
      · by_contra hok
        have h2 : ¬ (0 > env.portno) := by omega
        have h3 : (env.portno == 0 || decide (env.portno > m)) = false := by
          simp only [Bool.or_eq_false_iff, beq_eq_false_iff_ne, ne_eq, decide_eq_false_iff_not,
            not_lt]
          exact ⟨by omega, hm⟩
        unfold create_if at hc
        by_cases hcal : env.if_calloc_ok = true
        · simp [hcal, h2, h3, hok] at hc
        · simp [hcal] at hc

/-- C19 (counterexample): on the registry of scenario S2 (port 12 under bridge
5, bridge 6 without ports) a slave NEWLINK of port 12 under bridge 6 for which
the port number reported is 0 returns −1, yet port 12 has been unlinked from
bridge 5.  And when moreover the sysfs `stp_state` file of bridge 6 cannot be
opened, the call does not return: it ends in `set_br_up`, before `create_if`. -/
theorem bridge_notify_failed_create_changes_registry :
    (bridge_notify 4095 { sample_env with portno := 0 } sample_registry_S2 6 12 true true).ret
        = some (-1)
      ∧ registry_shape sample_registry_S2 = [(5, [sample_port]), (6, [])]
      ∧ registry_shape
          (bridge_notify 4095 { sample_env with portno := 0 } sample_registry_S2 6 12 true
            true).bridges = [(5, []), (6, [])]
      ∧ EngineCall.delete_port sample_port
          ∈ (bridge_notify 4095 { sample_env with portno := 0 } sample_registry_S2 6 12 true
              true).calls
      ∧ (bridge_notify 4095 { sample_env_no_sysfs with portno := 0 } sample_registry_S2 6 12
          true true).ret = none := by
  decide

/-- C19 (amended): for every registry with unique port indices and every slave
NEWLINK notification in which bridge `br_index` does not track the port, the
sysfs `stp_state` file can be opened if `set_br_up` is run (`hopen`: it is run
when the link state of the bridge could be read, `br_link ≥ 0`) and a step of
port creation fails, `bridge_notify` returns −1 and adds no port.  Either the
bridge could not be created and the registry is unchanged, or every bridge
tracked before keeps its place and index, its port list is what it was except
that the port with `if_index` is unlinked from the bridge that held it, and
bridge `br_index` has been appended without ports if it was not tracked. -/
theorem bridge_notify_failed_create (max_port_number : Int) (env : Env)
    (bridges : List bridge_t) (br_index if_index : Int) (up : Bool)
    (hports : PortsUnique bridges)
    (h0 : 0 ≤ br_index) (hne : br_index ≠ if_index)
    (hnone : ∀ br ∈ bridges, br.sysdeps.if_index = br_index → find_if br if_index = none)
    (hopen : env.br_link ≥ 0 → env.stp_state ≠ none)
    (hfail : ¬ (env.if_calloc_ok = true ∧ 0 < env.portno ∧ env.portno ≤ max_port_number
      ∧ env.port_create_ok = true)) :
    (bridge_notify max_port_number env bridges br_index if_index true up).ret = some (-1)
      ∧ ((bridge_notify max_port_number env bridges br_index if_index true up).bridges = bridges
        ∨ registry_shape
            (bridge_notify max_port_number env bridges br_index if_index true up).bridges
          = (registry_shape bridges).map (fun s => (s.1, remove_if s.2 if_index))
        ∨ (find_br bridges br_index = none
            ∧ registry_shape
                (bridge_notify max_port_number env bridges br_index if_index true up).bridges
              = (registry_shape bridges).map (fun s => (s.1, remove_if s.2 if_index))
                ++ [(br_index, [])])) := by
  have hno : ∀ pos br, find_br bridges br_index = some (pos, br) →
      find_if br if_index = none := by
    intro pos br hf
    obtain ⟨h1, h2⟩ := find_br_some bridges br_index pos br hf
    exact hnone br (List.getElem?_mem h1) h2
  unfold bridge_notify
  rw [if_pos ⟨h0, hne⟩]
  cases hfc : find_or_create_br env bridges br_index with
  | mk l1 rest =>
    obtain ⟨node, calls0⟩ := rest
    cases node with
    | none => exact ⟨rfl, Or.inl rfl⟩
    | some nb =>
      obtain ⟨pos, br⟩ := nb
      simp only []
      obtain ⟨hpos, hind, hidx, hcase⟩ :=
        find_or_create_br_some env bridges l1 br_index pos br calls0 hfc
      obtain ⟨s, hs⟩ := notify_refresh_br_returns env br hopen
      rw [hs]
      simp only []
      have hsi := notify_refresh_br_index env br s hs
      have hsind : indices_of s.1 = indices_of br := by unfold indices_of; rw [hsi.2]
      have hbrnone : find_if br if_index = none := by
        rcases hcase with ⟨-, hf, -⟩ | ⟨-, -, hp, -⟩
        · exact hno pos br hf
        · simp [find_if, hp]
      have hpS : if_index ∉ indices_of s.1 := by
        rw [hsind]; exact (find_if_eq_none_iff br if_index).mp hbrnone
      have hl2pos : (l1.set pos s.1)[pos]? = some s.1 :=
        getElem?_set_self_of_some l1 pos br s.1 hpos
      have hl2u : PortsUnique (l1.set pos s.1) := by
        unfold PortsUnique
        rw [port_indices_set_of_same l1 pos br s.1 hpos hsind, hind]
        exact hports
      unfold notify_slave
      rw [(find_if_eq_none_iff s.1 if_index).mpr hpS]
      simp only [Bool.not_true, Bool.false_eq_true, if_false]
      have hd := delete_from_others_eq pos if_index (l1.set pos s.1) 0 hl2u (fun j b hj hk => by
        have : j = pos := by omega
        subst this
        rw [hl2pos] at hj
        simp only [Option.some.injEq] at hj
        subst hj
        exact hpS)
      rw [hd]
      have hcf := create_if_fails max_port_number env s.1 if_index hfail
      cases hc : create_if max_port_number env s.1 if_index with
      | mk res calls1 =>
        rw [hc] at hcf
        simp only [] at hcf
        subst hcf
        simp only []
        refine ⟨trivial, Or.inr ?_⟩
        rw [registry_shape_map_without_if,
          registry_shape_set_of_same l1 pos br s.1 hpos hsi.1 hsi.2]
        rcases hcase with ⟨h1, -, -⟩ | ⟨h1, -, hp, hf⟩
        · left; rw [h1]
        · right
          refine ⟨hf, ?_⟩
          rw [h1]
          simp [registry_shape, hidx, hp, remove_if]

/-- C19 (witness): the failed move of scenario S2. -/
theorem bridge_notify_failed_create_witness :
    (bridge_notify 4095 { sample_env with portno := 0 } sample_registry_S2 6 12 true true).ret
        = some (-1)
      ∧ ((bridge_notify 4095 { sample_env with portno := 0 } sample_registry_S2 6 12 true
            true).bridges = sample_registry_S2
        ∨ registry_shape
            (bridge_notify 4095 { sample_env with portno := 0 } sample_registry_S2 6 12 true
              true).bridges
          = (registry_shape sample_registry_S2).map (fun s => (s.1, remove_if s.2 12))
        ∨ (find_br sample_registry_S2 6 = none
            ∧ registry_shape
                (bridge_notify 4095 { sample_env with portno := 0 } sample_registry_S2 6 12 true
                  true).bridges
              = (registry_shape sample_registry_S2).map (fun s => (s.1, remove_if s.2 12))
                ++ [(6, [])])) :=
  bridge_notify_failed_create 4095 { sample_env with portno := 0 } sample_registry_S2 6 12 true
    (by decide) (by decide) (by decide) (by decide) (by decide) (by decide)

/-! ## Claims on the control handlers -/

/-- C15: every control handler that takes a `br_index` returns −1, makes no
engine call and writes nothing to its output arguments (and so leaves the
registry as it is) when no tracked bridge has that index; so do the handlers
that need a port when the bridge has no port with `port_index`, the handlers
that need a tree when no tree of the bridge has stored MSTID
`__cpu_to_be16(mstid)`, and the handlers that need a per-tree-port when no
per-tree-port of the port has that stored MSTID. -/
theorem ctl_lookup_failure (bridges : List bridge_t) (eng : engine_data_t) (env : CtlEnv)
    (br_index port_index : Int) (mstid : Nat) :
    ctl_fail = { ret := -1, calls := [], out := none }
    ∧ (find_br bridges br_index = none →
        CTL_get_cist_bridge_status bridges eng env br_index = ctl_fail
        ∧ CTL_get_msti_bridge_status bridges eng env br_index mstid = ctl_fail
        ∧ CTL_set_cist_bridge_config bridges env br_index = ctl_fail
        ∧ CTL_set_msti_bridge_config bridges eng env br_index mstid = ctl_fail
        ∧ CTL_get_cist_port_status bridges env br_index port_index = ctl_fail
        ∧ CTL_get_msti_port_status bridges eng env br_index port_index mstid = ctl_fail
        ∧ CTL_set_cist_port_config bridges env br_index port_index = ctl_fail
        ∧ CTL_set_msti_port_config bridges eng env br_index port_index mstid = ctl_fail
        ∧ CTL_port_mcheck bridges env br_index port_index = ctl_fail
        ∧ CTL_get_mstilist bridges env br_index = ctl_fail
        ∧ CTL_create_msti bridges env br_index = ctl_fail
        ∧ CTL_delete_msti bridges env br_index = ctl_fail
        ∧ CTL_get_mstconfid bridges eng br_index = ctl_fail
        ∧ CTL_set_mstconfid bridges br_index = ctl_fail
        ∧ CTL_get_vids2fids bridges eng br_index = ctl_fail
        ∧ CTL_get_fids2mstids bridges eng br_index = ctl_fail
        ∧ CTL_set_vid2fid bridges env br_index = ctl_fail
        ∧ CTL_set_fid2mstid bridges env br_index = ctl_fail
        ∧ CTL_set_vids2fids bridges env br_index = ctl_fail
        ∧ CTL_set_fids2mstids bridges env br_index = ctl_fail)
    ∧ ((∀ pos br, find_br bridges br_index = some (pos, br) →
          find_if br port_index = none) →
        CTL_get_cist_port_status bridges env br_index port_index = ctl_fail
        ∧ CTL_get_msti_port_status bridges eng env br_index port_index mstid = ctl_fail
        ∧ CTL_set_cist_port_config bridges env br_index port_index = ctl_fail
        ∧ CTL_set_msti_port_config bridges eng env br_index port_index mstid = ctl_fail
        ∧ CTL_port_mcheck bridges env br_index port_index = ctl_fail)
    ∧ ((∀ pos br, find_br bridges br_index = some (pos, br) →
          ∀ tree ∈ eng.trees pos, tree.MSTID ≠ be16.of_cpu mstid) →
        CTL_get_msti_bridge_status bridges eng env br_index mstid = ctl_fail
        ∧ CTL_set_msti_bridge_config bridges eng env br_index mstid = ctl_fail)
    ∧ ((∀ pos br, find_br bridges br_index = some (pos, br) →
          ∀ ptp ∈ eng.port_trees pos port_index, ptp.MSTID ≠ be16.of_cpu mstid) →
        CTL_get_msti_port_status bridges eng env br_index port_index mstid = ctl_fail
        ∧ CTL_set_msti_port_config bridges eng env br_index port_index mstid = ctl_fail) := by
  refine ⟨rfl, ?_, ?_, ?_, ?_⟩
  · intro h
    simp [CTL_get_cist_bridge_status, CTL_get_msti_bridge_status, CTL_set_cist_bridge_config,
      CTL_set_msti_bridge_config, CTL_get_cist_port_status, CTL_get_msti_port_status,
      CTL_set_cist_port_config, CTL_set_msti_port_config, CTL_port_mcheck, CTL_get_mstilist,
      CTL_create_msti, CTL_delete_msti, CTL_get_mstconfid, CTL_set_mstconfid,
      CTL_get_vids2fids, CTL_get_fids2mstids, CTL_set_vid2fid, CTL_set_fid2mstid,
      CTL_set_vids2fids, CTL_set_fids2mstids, ctl_bridge_bool, CTL_CHECK_BRIDGE,
      CTL_CHECK_BRIDGE_PORT, CTL_CHECK_BRIDGE_TREE, CTL_CHECK_BRIDGE_PERTREEPORT, h]
  · intro h
    have hp : CTL_CHECK_BRIDGE_PORT bridges br_index port_index = none := by
      unfold CTL_CHECK_BRIDGE_PORT CTL_CHECK_BRIDGE
      cases hf : find_br bridges br_index with
      | none => rfl
      | some r =>
        obtain ⟨pos, br⟩ := r
        simp only [h pos br hf]
    simp [CTL_get_cist_port_status, CTL_get_msti_port_status, CTL_set_cist_port_config,
      CTL_set_msti_port_config, CTL_port_mcheck, CTL_CHECK_BRIDGE_PERTREEPORT, hp]
  · intro h
    have ht : CTL_CHECK_BRIDGE_TREE bridges eng br_index mstid = none := by
      unfold CTL_CHECK_BRIDGE_TREE CTL_CHECK_BRIDGE
      cases hf : find_br bridges br_index with
      | none => rfl
      | some r =>
        obtain ⟨pos, br⟩ := r
        have hnone : (eng.trees pos).find? (fun tree => tree.MSTID == be16.of_cpu mstid)
            = none := by
          rw [List.find?_eq_none]
          intro t ht
          simpa using h pos br hf t ht
        simp only [hnone]
    simp [CTL_get_msti_bridge_status, CTL_set_msti_bridge_config, ht]
  · intro h
    have hp : CTL_CHECK_BRIDGE_PERTREEPORT bridges eng br_index port_index mstid = none := by
      unfold CTL_CHECK_BRIDGE_PERTREEPORT CTL_CHECK_BRIDGE_PORT CTL_CHECK_BRIDGE
      cases hf : find_br bridges br_index with
      | none => rfl
      | some r =>
        obtain ⟨pos, br⟩ := r
        simp only []
        cases hfi : find_if br port_index with
        | none => rfl
        | some prt =>
          have hnone : (eng.port_trees pos port_index).find?
              (fun ptp => ptp.MSTID == be16.of_cpu mstid) = none := by
            rw [List.find?_eq_none]
            intro t ht
            simpa using h pos br hf t ht
          simp only [hnone]
    simp [CTL_get_msti_port_status, CTL_set_msti_port_config, hp]

/-- C15 (witness): scenario S5 after the MSTI is gone: the bridge has only the
CIST, and `CTL_set_msti_bridge_config(br, 100, ...)` returns −1 without an
engine call; an untracked bridge index fails the same way. -/
theorem ctl_lookup_failure_witness :
    CTL_set_msti_bridge_config [sample_bridge] sample_engine_data sample_ctl_env 5 100
        = { ret := -1, calls := [], out := none }
      ∧ CTL_get_cist_bridge_status [sample_bridge] sample_engine_data sample_ctl_env 9
        = ctl_fail :=
  ⟨((ctl_lookup_failure [sample_bridge] sample_engine_data sample_ctl_env 5 12 100).2.2.2.1
      (by
        intro pos br _ tree ht
        simp only [sample_engine_data, List.mem_singleton] at ht
        subst ht
        decide)).2,
   ((ctl_lookup_failure [sample_bridge] sample_engine_data sample_ctl_env 9 12 100).2.1
      (by decide)).1⟩

theorem find_root_port_name_spec (ports : List per_tree_port_t) (root_port_id : Nat) :
    is_root_port_name ports root_port_id (find_root_port_name ports root_port_id) := by
  unfold find_root_port_name is_root_port_name
  induction ports with
  | nil => right; simp
  | cons p rest ih =>
    by_cases hp : p.portId = root_port_id
    · left
      refine ⟨[], p, rest, rfl, by simp, hp, by simp [List.find?_cons, hp], ?_⟩
      intro hlen
      simp [List.find?_cons, hp, List.take_of_length_le hlen]
    · have hp2 : (p.portId == root_port_id) = false := by simpa using hp
      simp only [List.find?_cons, hp2]
      rcases ih with ⟨before, ptp, after, h1, h2, h3, h4, h5⟩ | ⟨h1, h2⟩
      · left
        refine ⟨p :: before, ptp, after, by rw [h1]; rfl, ?_, h3, h4, h5⟩
        intro q hq
        rcases List.mem_cons.mp hq with h | h
        · rw [h]; exact hp
        · exact h2 q h
      · right
        refine ⟨?_, h2⟩
        intro q hq
        rcases List.mem_cons.mp hq with h | h
        · rw [h]; exact hp
        · exact h1 q h

/-- The first element of a list that satisfies a test, when one does. -/
theorem find_first_split {α : Type} (p : α → Bool) (l : List α) (t : α) (ht : t ∈ l)
    (hp : p t = true) :
    ∃ before x after, l = before ++ x :: after ∧ (∀ a ∈ before, p a = false) ∧ p x = true
      ∧ l.find? p = some x := by
  induction l with
  | nil => simp at ht
  | cons y rest ih =>
    by_cases hy : p y = true
    · exact ⟨[], y, rest, rfl, by simp, hy, by simp [List.find?_cons, hy]⟩
    · have hy2 : p y = false := by simpa using hy
      have htr : t ∈ rest := by
        rcases List.mem_cons.mp ht with h | h
        · subst h; rw [hp] at hy2; exact absurd hy2 (by simp)
        · exact h
      obtain ⟨before, x, after, h1, h2, h3, h4⟩ := ih htr
      refine ⟨y :: before, x, after, by rw [h1]; rfl, ?_, h3, by simp [List.find?_cons, hy2, h4]⟩
      intro a ha
      rcases List.mem_cons.mp ha with h | h
      · rw [h]; exact hy2
      · exact h2 a h

/-- C16: for every tracked bridge `CTL_get_cist_bridge_status` returns 0, and
for every tracked bridge whose tree list `br->trees` holds a tree with the
stored MSTID `__cpu_to_be16(mstid)` `CTL_get_msti_bridge_status` returns 0 and
works on the first such tree of the list; each makes its one engine call,
hands back the status the engine reported and sets `root_port_name` to the
name of the port of the first per-tree-port in that tree's port list whose
`portId` equals `status.root_port_id`, or to the empty string if there is
none. -/
theorem ctl_bridge_status_root_port_name (bridges : List bridge_t) (eng : engine_data_t)
    (env : CtlEnv) (br_index : Int) (mstid : Nat) :
    (∀ pos br, find_br bridges br_index = some (pos, br) →
        ∃ name, CTL_get_cist_bridge_status bridges eng env br_index
            = { ret := 0, calls := [MSTP_IN_fn.get_cist_bridge_status],
                out := some (CtlOutput.bridge_status env.bridge_status name) }
          ∧ is_root_port_name (eng.cist pos).ports env.bridge_status.root_port_id name)
    ∧ (∀ pos br t, find_br bridges br_index = some (pos, br) →
        t ∈ eng.trees pos → t.MSTID = be16.of_cpu mstid →
        ∃ before tree after name,
          eng.trees pos = before ++ tree :: after
          ∧ (∀ x ∈ before, x.MSTID ≠ be16.of_cpu mstid)
          ∧ tree.MSTID = be16.of_cpu mstid
          ∧ CTL_get_msti_bridge_status bridges eng env br_index mstid
            = { ret := 0, calls := [MSTP_IN_fn.get_msti_bridge_status],
                out := some (CtlOutput.bridge_status env.bridge_status name) }
          ∧ is_root_port_name tree.ports env.bridge_status.root_port_id name) := by
  constructor
  · intro pos br h
    refine ⟨_, ?_, find_root_port_name_spec _ _⟩
    simp [CTL_get_cist_bridge_status, CTL_CHECK_BRIDGE, h]
  · intro pos br t h ht hid
    obtain ⟨before, tree, after, h1, h2, h3, h4⟩ :=
      find_first_split (fun tree => tree.MSTID == be16.of_cpu mstid) (eng.trees pos) t ht
        (by simp [hid])
    refine ⟨before, tree, after, find_root_port_name tree.ports env.bridge_status.root_port_id,
      h1, ?_, by simpa using h3, ?_, find_root_port_name_spec _ _⟩
    · intro x hx
      simpa using h2 x hx
    · simp [CTL_get_msti_bridge_status, CTL_CHECK_BRIDGE_TREE, CTL_CHECK_BRIDGE, h, h4]

/-- C16 (witness): the sample bridge has the CIST and the MSTI 100.  The CIST
has one per-tree-port, of identifier 0x8001, on the port named `eth0`; the
MSTI has two, of identifiers 0x8002 on `eth1` and 0x8001 on `eth0`; the status
reports root port 0x8001, and both handlers return 0 with the name `eth0`. -/
theorem ctl_bridge_status_root_port_name_witness :
    (∃ name, CTL_get_cist_bridge_status [sample_bridge] sample_engine_data_msti
          sample_ctl_env 5
        = { ret := 0, calls := [MSTP_IN_fn.get_cist_bridge_status],
            out := some (CtlOutput.bridge_status sample_ctl_env.bridge_status name) }
      ∧ is_root_port_name (sample_engine_data_msti.cist 0).ports
          sample_ctl_env.bridge_status.root_port_id name)
    ∧ (∃ before tree after name,
        sample_engine_data_msti.trees 0 = before ++ tree :: after
        ∧ (∀ x ∈ before, x.MSTID ≠ be16.of_cpu ((100 : Nat) : Int))
        ∧ tree.MSTID = be16.of_cpu ((100 : Nat) : Int)
        ∧ CTL_get_msti_bridge_status [sample_bridge] sample_engine_data_msti sample_ctl_env 5 100
          = { ret := 0, calls := [MSTP_IN_fn.get_msti_bridge_status],
              out := some (CtlOutput.bridge_status sample_ctl_env.bridge_status name) }
        ∧ is_root_port_name tree.ports sample_ctl_env.bridge_status.root_port_id name)
    ∧ CTL_get_msti_bridge_status [sample_bridge] sample_engine_data_msti sample_ctl_env 5 100
        = { ret := 0, calls := [MSTP_IN_fn.get_msti_bridge_status],
            out := some (CtlOutput.bridge_status sample_ctl_env.bridge_status
              [0x65, 0x74, 0x68, 0x30]) } :=
  ⟨(ctl_bridge_status_root_port_name [sample_bridge] sample_engine_data_msti sample_ctl_env 5
      100).1 0 sample_bridge (by decide),
   (ctl_bridge_status_root_port_name [sample_bridge] sample_engine_data_msti sample_ctl_env 5
      100).2 0 sample_bridge sample_msti_tree (by decide) (by decide) (by decide),
   by decide⟩

/-- C17: for every tracked bridge, `CTL_get_fids2mstids` returns 0 without an
engine call and writes, entry by entry, the stored `fid2mstid` value converted
from big-endian to host order (`hi * 256 + lo`), for every index of the table
(0..4095 for a table of 4096 entries); `CTL_get_vids2fids` returns 0 and
writes the stored `vid2fid` table verbatim. -/
theorem ctl_get_tables (bridges : List bridge_t) (eng : engine_data_t) (br_index : Int)
    (pos : Nat) (br : bridge_t) (hfind : find_br bridges br_index = some (pos, br)) :
    (∃ entries, CTL_get_fids2mstids bridges eng br_index
          = { ret := 0, calls := [], out := some (CtlOutput.table entries) }
        ∧ entries.length = (eng.fid2mstid pos).length
        ∧ (∀ (i : Nat) (b : be16), (eng.fid2mstid pos)[i]? = some b →
            entries[i]? = some (b.hi * 256 + b.lo))
        ∧ ((eng.fid2mstid pos).length = 4096 → ∀ i : Nat, i < 4096 →
            ∃ b, (eng.fid2mstid pos)[i]? = some b ∧ entries[i]? = some (b.hi * 256 + b.lo)))
    ∧ CTL_get_vids2fids bridges eng br_index
        = { ret := 0, calls := [], out := some (CtlOutput.table (eng.vid2fid pos)) } := by
  constructor
  · refine ⟨(eng.fid2mstid pos).map be16.to_cpu, ?_, by simp, ?_, ?_⟩
    · simp [CTL_get_fids2mstids, CTL_CHECK_BRIDGE, hfind]
    · intro i b hb
      simp [List.getElem?_map, hb, be16.to_cpu, be16_to_cpu]
    · intro hlen i hi
      have hlt : i < (eng.fid2mstid pos).length := by omega
      refine ⟨(eng.fid2mstid pos)[i], List.getElem?_eq_getElem hlt, ?_⟩
      simp [List.getElem?_map, List.getElem?_eq_getElem hlt, be16.to_cpu, be16_to_cpu]
  · simp [CTL_get_vids2fids, CTL_CHECK_BRIDGE, hfind]

/-- C17 (witness): a stored entry with bytes `01 02` is read as 258 from the
FID table, while the VID table is handed back as stored. -/
theorem ctl_get_tables_witness :
    (∃ entries, CTL_get_fids2mstids [sample_bridge] sample_engine_data 5
          = { ret := 0, calls := [], out := some (CtlOutput.table entries) }
        ∧ entries.length = (sample_engine_data.fid2mstid 0).length
        ∧ (∀ (i : Nat) (b : be16), (sample_engine_data.fid2mstid 0)[i]? = some b →
            entries[i]? = some (b.hi * 256 + b.lo))
        ∧ ((sample_engine_data.fid2mstid 0).length = 4096 → ∀ i : Nat, i < 4096 →
            ∃ b, (sample_engine_data.fid2mstid 0)[i]? = some b
              ∧ entries[i]? = some (b.hi * 256 + b.lo)))
    ∧ CTL_get_vids2fids [sample_bridge] sample_engine_data 5
        = { ret := 0, calls := [], out := some (CtlOutput.table [0, 1, 2]) }
    ∧ CTL_get_fids2mstids [sample_bridge] sample_engine_data 5
        = { ret := 0, calls := [], out := some (CtlOutput.table [0, 100, 258]) } :=
  ⟨(ctl_get_tables [sample_bridge] sample_engine_data 5 0 sample_bridge (by decide)).1,
   (ctl_get_tables [sample_bridge] sample_engine_data 5 0 sample_bridge (by decide)).2,
   by decide⟩

/-! ## Implicit claims: payload bounds and repetition of `set_if_up` -/

/-- C21: for every frame with length argument `len ≥ 0` that
`bridge_bpdu_rcv` delivers to the engine, the length handed over is `L − 3`
with `3 ≤ L`, and the payload region ends inside the frame:
`17 + (L − 3) ≤ len`.  When `len` is the number of bytes of the buffer, the
bytes handed over are exactly `L − 3` bytes of the buffer. -/
theorem bridge_bpdu_rcv_payload_in_bounds (bridges : List bridge_t) (if_index : Int)
    (data : List Nat) (len : Int) (c : EngineCall) (hlen : 0 ≤ len)
    (hc : c ∈ bridge_bpdu_rcv bridges if_index data len) :
    ∃ ifc, c = EngineCall.rx_bpdu ifc (data.drop 17) ((len8023 data : Int) - 3)
      ∧ (0 : Int) ≤ (len8023 data : Int) - 3
      ∧ 17 + ((len8023 data : Int) - 3) ≤ len
      ∧ (len = data.length → (rx_payload c).length = len8023 data - 3) := by
  obtain ⟨br, ifc, -, -, -, h17, -, -, hL, h3, -, -, -, hceq, -⟩ :=
    bridge_bpdu_rcv_inv bridges if_index data len c hc
  have hbound : 17 + ((len8023 data : Int) - 3) ≤ len := by omega
  refine ⟨ifc, hceq, by omega, hbound, ?_⟩
  intro hdl
  rw [hceq]
  simp only [rx_payload, List.length_take, List.length_drop]
  omega

/-- C21 (witness): the S4 frame, 20 bytes with length field 6, is delivered
with 3 payload bytes, and 17 + 3 ≤ 20. -/
theorem bridge_bpdu_rcv_payload_in_bounds_witness :
    ∃ ifc, EngineCall.rx_bpdu sample_port [0x11, 0x22, 0x33] 3
        = EngineCall.rx_bpdu ifc (frame_S4.drop 17) ((len8023 frame_S4 : Int) - 3)
      ∧ (0 : Int) ≤ (len8023 frame_S4 : Int) - 3
      ∧ 17 + ((len8023 frame_S4 : Int) - 3) ≤ 20
      ∧ ((20 : Int) = frame_S4.length →
          (rx_payload (EngineCall.rx_bpdu sample_port [0x11, 0x22, 0x33] 3)).length
            = len8023 frame_S4 - 3) :=
  bridge_bpdu_rcv_payload_in_bounds [sample_bridge] 12 frame_S4 20
    (EngineCall.rx_bpdu sample_port [0x11, 0x22, 0x33] 3) (by decide) (by decide)

/-- C22: `set_if_up` is a fixed point on repetition.  For every port state,
every `up` argument and every ethtool reading, a second call of `set_if_up`
with the same argument and reading (whatever the MAC readings, in particular
the same ones) leaves `up`, `speed` and `duplex` as the first call left them
and makes no `MSTP_IN_set_port_enable` call; and a call with `up = false`
never changes the stored speed or duplex. -/
theorem set_if_up_fixed_point (if_hwaddr1 br_hwaddr1 if_hwaddr2 br_hwaddr2 : Option MacAddr)
    (r speed duplex : Int) (br : bridge_t) (ifc : port_t) (up : Bool) :
    ((set_if_up_twice if_hwaddr1 br_hwaddr1 if_hwaddr2 br_hwaddr2 r speed duplex br ifc
          up).2.1.sysdeps.up
        = (set_if_up_twice if_hwaddr1 br_hwaddr1 if_hwaddr2 br_hwaddr2 r speed duplex br ifc
          up).1.sysdeps.up
      ∧ (set_if_up_twice if_hwaddr1 br_hwaddr1 if_hwaddr2 br_hwaddr2 r speed duplex br ifc
          up).2.1.sysdeps.speed
        = (set_if_up_twice if_hwaddr1 br_hwaddr1 if_hwaddr2 br_hwaddr2 r speed duplex br ifc
          up).1.sysdeps.speed
      ∧ (set_if_up_twice if_hwaddr1 br_hwaddr1 if_hwaddr2 br_hwaddr2 r speed duplex br ifc
          up).2.1.sysdeps.duplex
        = (set_if_up_twice if_hwaddr1 br_hwaddr1 if_hwaddr2 br_hwaddr2 r speed duplex br ifc
          up).1.sysdeps.duplex
      ∧ count_set_port_enable
          (set_if_up_twice if_hwaddr1 br_hwaddr1 if_hwaddr2 br_hwaddr2 r speed duplex br ifc
            up).2.2.2 = 0)
    ∧ ((set_if_up if_hwaddr1 br_hwaddr1 r speed duplex br ifc false).2.1.sysdeps.speed
        = ifc.sysdeps.speed
      ∧ (set_if_up if_hwaddr1 br_hwaddr1 r speed duplex br ifc false).2.1.sysdeps.duplex
        = ifc.sysdeps.duplex) := by
  have hf : ∀ (a b : Option MacAddr) (b0 : bridge_t) (p : port_t) (u : Bool),
      (set_if_up a b r speed duplex b0 p u).2.1.sysdeps.up
          = (set_if_up_link r speed duplex p.sysdeps u).1
        ∧ (set_if_up a b r speed duplex b0 p u).2.1.sysdeps.speed
          = (set_if_up_link r speed duplex p.sysdeps u).2.1
        ∧ (set_if_up a b r speed duplex b0 p u).2.1.sysdeps.duplex
          = (set_if_up_link r speed duplex p.sysdeps u).2.2.1 :=
    fun _ _ _ _ _ => ⟨rfl, rfl, rfl⟩
  constructor
  · unfold set_if_up_twice
    simp only [set_if_up_count]
    cases up
    · simp only [hf, set_if_up_link_down]
      simp
    · simp only [hf, set_if_up_link_up]
      simp
  · simp only [hf, set_if_up_link_down]
    exact ⟨trivial, trivial⟩

end BridgeTrack
